import Mathlib

/-!
HLASM parser library: data-definition lengths, fixed-point checks, CA processor.

A shallow embedding of

* `checking/data_definition/data_def_types_fixed_point.cpp`
  (`data_def_type_H_F_FD::check`, `data_def_type_P_Z::check`,
  `data_def_type_P::get_nominal_length`, `data_def_type_Z::get_nominal_length`),
* `processing/instruction_sets/ca_processor.cpp`
  (`test_symbol_for_assignment`, `prepare_SET`, `prepare_AGO`, `process_AGO`, ...).

Conventions of the embedding.

* `std::string` is a Lean `String`; loops over it run over its list of characters.
* `size_t` and `uint64_t` counters are natural numbers: every counter below is
  bounded by the length of a string held in memory, so no wrap-around occurs.
* A C++ function with reference out-parameters returns the new values of those
  parameters next to its result.
* `add_diagnostic` appends to an explicit list of diagnostics.
-/

set_option autoImplicit false

namespace checking

/-! ## Common data model -/

/-- Source position `(line, column)`. -/
structure position where
  line : Nat
  column : Nat
deriving DecidableEq, Repr

/-- Source range, a pair of positions. -/
structure range where
  start : position
  stop : position
deriving DecidableEq, Repr

/-- Diagnostic record as produced by the `diagnostic_op::error_*` factories:
the code, the text argument given to the factory, and the range. -/
structure diagnostic_op where
  code : String
  message : String
  diag_range : range
deriving DecidableEq, Repr

/-- Factory `diagnostic_op::error_D010(range, type)`. -/
def error_D010 (rng : range) (type_str : String) : diagnostic_op :=
  ⟨"D010", type_str, rng⟩

/-- The `std::variant` held by `nominal_value_t::value`: the string alternative or the
expression-list alternative (whose elements play no role in the fixed-point types;
only their number is kept). -/
inductive nominal_value_variant where
  | string (s : String)
  | expressions (count : Nat)
deriving DecidableEq, Repr

/-- Nominal value of a data-definition operand: `nominal_value_t`. -/
structure nominal_value_t where
  present : Bool
  value : nominal_value_variant
  rng : range
deriving DecidableEq, Repr

/-- The call `std::get<std::string>(v)`: `none` stands for the `std::bad_variant_access`
thrown when the variant holds the other alternative. -/
def std_get_string : nominal_value_variant → Option String
  | .string s => some s
  | .expressions _ => none

/-- Modelled from the spec: `is_digit` of `checker_helper.h` (not among the sources),
the test for a decimal digit character `0`..`9` (spec 4.3: "one byte per digit",
"digit_count"). -/
def is_digit (c : Char) : Bool :=
  decide ('0' ≤ c ∧ c ≤ '9')

/-! ## Types P and Z: `get_nominal_length` -/

/-- The range-for loop of `data_def_type_P::get_nominal_length` over the remaining
characters, carrying `bytes_count` and `halfbytes_count`; at the end of the string
the statement after the loop adds the last number. -/
def get_nominal_length_P_loop : List Char → Nat → Nat → Nat
  | [], bytes_count, halfbytes_count => bytes_count + (halfbytes_count + 1) / 2
  | c :: cs, bytes_count, halfbytes_count =>
    if c = ',' then
      get_nominal_length_P_loop cs (bytes_count + (halfbytes_count + 1) / 2) 1
    else if is_digit c then
      get_nominal_length_P_loop cs bytes_count (halfbytes_count + 1)
    else
      get_nominal_length_P_loop cs bytes_count halfbytes_count

/-- The method `data_def_type_P::get_nominal_length`. -/
def data_def_type_P.get_nominal_length (op : nominal_value_t) : Option Nat :=
  if !op.present then some 1
  else
    match std_get_string op.value with
    | none => none
    | some s => some (get_nominal_length_P_loop s.data 0 1)

/-- The method `data_def_type_Z::get_nominal_length`: `std::count_if` with `is_digit`. -/
def data_def_type_Z.get_nominal_length (op : nominal_value_t) : Option Nat :=
  if !op.present then some 1
  else
    match std_get_string op.value with
    | none => none
    | some s => some (s.data.countP is_digit)

/-- A present nominal value holding the string `s`. -/
def string_nominal (s : String) (rng : range) : nominal_value_t :=
  ⟨true, .string s, rng⟩

/-- An absent nominal value (`DS` without nominal value). -/
def absent_nominal (v : nominal_value_variant) (rng : range) : nominal_value_t :=
  ⟨false, v, rng⟩

/-- Number of decimal-digit characters of a piece of text. -/
def digit_count (piece : List Char) : Nat :=
  (piece.filter (fun c => decide ('0' ≤ c ∧ c ≤ '9'))).length

/-- Specification of the packed length, in the words of the spec: split at every comma
and add `ceil((digit_count + 1) / 2)` over the pieces. -/
def packed_length_spec (s : String) : Nat :=
  ((s.data.splitOn ',').map (fun piece => ⌈((digit_count piece + 1 : ℕ) : ℚ) / 2⌉₊)).sum

/-- Sum of the packed lengths of a list of pieces, the first piece starting from
`halfbytes_count = h`. -/
def pieces_sum (h : Nat) : List (List Char) → Nat
  | [] => 0
  | p :: ps => (h + digit_count p + 1) / 2 + (ps.map (fun q => (1 + digit_count q + 1) / 2)).sum

/-! ## Types H, F, FD and P, Z: `check` -/

/-- Number specification, the template argument `T` of `check_number<T>`:
its two static predicates. -/
structure number_spec where
  is_end_char : Char → Bool
  is_sign_char : Char → Bool

/-- The class `H_F_FD_number_spec`. -/
def H_F_FD_number_spec : number_spec where
  is_end_char := fun c => c == ',' || c == 'E'
  is_sign_char := fun c => c == 'U' || c == '+' || c == '-'

/-- The class `P_Z_number_spec`. -/
def P_Z_number_spec : number_spec where
  is_end_char := fun c => c == ','
  is_sign_char := fun c => c == '+' || c == '-'

/-- The helpers of `checker_helper.h`, which is not among the sources, taken as
parameters: `check_number<T>(nominal, i)` and `check_exponent(nominal, i)` get the
string and the index by reference and return a `bool`; here they return the `bool`
together with the new value of the index. -/
structure checker_helper where
  check_number : number_spec → List Char → Nat → Bool × Nat
  check_exponent : List Char → Nat → Bool × Nat

/-- The expression `nom[i]` of `std::string`; at `i = size()` it is the terminating
NUL character. -/
def char_at (nom : List Char) (i : Nat) : Char :=
  nom.getD i (Char.ofNat 0)

/-- The part of a `data_definition_operand` read by the fixed-point checkers: its
nominal value. -/
structure data_definition_operand where
  nominal_value : nominal_value_t
deriving DecidableEq, Repr

/-- The `while (i < nom.size())` loop of `data_def_type_H_F_FD::check` followed by the
statements after it. The first argument bounds the number of loop iterations (`none`
when it is exhausted); `i` is the index and `diags` the diagnostics collected so far. -/
def data_def_type_H_F_FD.check_loop (h : checker_helper) (nom : List Char) (rng : range)
    (type_str : String) : Nat → Nat → List diagnostic_op → Option (Bool × List diagnostic_op)
  | 0, _, _ => none
  | fuel + 1, i, diags =>
    if i < nom.length then
      let r := h.check_number H_F_FD_number_spec nom i
      if !r.1 then some (false, diags ++ [error_D010 rng type_str])
      else if r.2 ≥ nom.length then some (true, diags)
      else if char_at nom r.2 = 'E' then
        let e := h.check_exponent nom r.2
        if !e.1 then some (false, diags ++ [error_D010 rng type_str])
        else if e.2 ≥ nom.length then some (true, diags)
        else if char_at nom e.2 ≠ ',' then some (false, diags ++ [error_D010 rng type_str])
        else data_def_type_H_F_FD.check_loop h nom rng type_str fuel (e.2 + 1) diags
      else if char_at nom r.2 ≠ ',' then some (false, diags ++ [error_D010 rng type_str])
      else data_def_type_H_F_FD.check_loop h nom rng type_str fuel (r.2 + 1) diags
    else if nom.getLast? = some ',' then some (false, diags ++ [error_D010 rng type_str])
    else some (true, diags)

/-- The method `data_def_type_H_F_FD::check`; `type_str` is the member of the type
object, `fuel` bounds the iterations of the loop, `diags` is the state of the
diagnostic collector. The result is the returned `bool` and the new diagnostics. -/
def data_def_type_H_F_FD.check (h : checker_helper) (type_str : String) (fuel : Nat)
    (op : data_definition_operand) (diags : List diagnostic_op) (check_nominal : Bool) :
    Option (Bool × List diagnostic_op) :=
  if !check_nominal then some (true, diags)
  else
    match std_get_string op.nominal_value.value with
    | none => none
    | some nom =>
      if nom.data.length = 0 then
        some (false, diags ++ [error_D010 op.nominal_value.rng type_str])
      else
        data_def_type_H_F_FD.check_loop h nom.data op.nominal_value.rng type_str fuel 0 diags

/-- The `while (i < nom.size())` loop of `data_def_type_P_Z::check` followed by the
statements after it. -/
def data_def_type_P_Z.check_loop (h : checker_helper) (nom : List Char) (rng : range)
    (type_str : String) : Nat → Nat → List diagnostic_op → Option (Bool × List diagnostic_op)
  | 0, _, _ => none
  | fuel + 1, i, diags =>
    if i < nom.length then
      let r := h.check_number P_Z_number_spec nom i
      if !r.1 then some (false, diags ++ [error_D010 rng type_str])
      else data_def_type_P_Z.check_loop h nom rng type_str fuel (r.2 + 1) diags
    else if nom.getLast? = some ',' then some (false, diags ++ [error_D010 rng type_str])
    else some (true, diags)

/-- The method `data_def_type_P_Z::check`. -/
def data_def_type_P_Z.check (h : checker_helper) (type_str : String) (fuel : Nat)
    (op : data_definition_operand) (diags : List diagnostic_op) (check_nominal : Bool) :
    Option (Bool × List diagnostic_op) :=
  if !check_nominal then some (true, diags)
  else
    match std_get_string op.nominal_value.value with
    | none => none
    | some nom =>
      if nom.data.length = 0 then
        some (false, diags ++ [error_D010 op.nominal_value.rng type_str])
      else
        data_def_type_P_Z.check_loop h nom.data op.nominal_value.rng type_str fuel 0 diags

/-- Assumption on `check_number<T>`: when it succeeds at an index inside the string,
the index has only moved forward, over characters of the string none of which is
an end character of `T` (it stops at the end of the string or at an end character). -/
def check_number_stops (h : checker_helper) (spec : number_spec) : Prop :=
  ∀ (nom : List Char) (i j : Nat), i < nom.length →
    h.check_number spec nom i = (true, j) →
      i ≤ j ∧ ∀ k, i ≤ k → k < j → k < nom.length ∧ spec.is_end_char (char_at nom k) = false

/-- Assumption on `check_exponent`: when it succeeds at an `E` inside the string,
the index has only moved forward, over characters of the string none of which is a
comma. -/
def check_exponent_stops (h : checker_helper) : Prop :=
  ∀ (nom : List Char) (i j : Nat), i < nom.length → char_at nom i = 'E' →
    h.check_exponent nom i = (true, j) →
      i ≤ j ∧ ∀ k, i ≤ k → k < j → k < nom.length ∧ char_at nom k ≠ ','

/-- Assumption that the helpers only move the index forward. -/
def helpers_advance (h : checker_helper) (spec : number_spec) : Prop :=
  (∀ (nom : List Char) (i j : Nat), i < nom.length →
      h.check_number spec nom i = (true, j) → i ≤ j) ∧
  (∀ (nom : List Char) (i j : Nat), i < nom.length → char_at nom i = 'E' →
      h.check_exponent nom i = (true, j) → i ≤ j)

/-- Modelled from the spec: the scan of `check_number<T>` of `checker_helper.h` (not
among the sources) after the optional sign: digits with at most one decimal point up
to the next end character or the end of the string (spec 4.3: "optional sign char,
digits, optional decimal point"); it fails on any other character and on a number
without digits. The list is the rest of the string from index `i` on. -/
def check_number_scan (spec : number_spec) : List Char → Nat → Bool → Bool → Bool × Nat
  | [], i, found_digit, _ => (found_digit, i)
  | c :: cs, i, found_digit, found_dot =>
    if spec.is_end_char c then (found_digit, i)
    else if is_digit c then check_number_scan spec cs (i + 1) true found_dot
    else if c = '.' ∧ found_dot = false then check_number_scan spec cs (i + 1) found_digit true
    else (false, i)

/-- Modelled from the spec: `check_number<T>` of `checker_helper.h`: an optional sign
character of `T`, then the scan above. -/
def check_number_model (spec : number_spec) (nom : List Char) (i : Nat) : Bool × Nat :=
  match nom.drop i with
  | [] => (false, i)
  | c :: cs =>
    if spec.is_end_char c then (false, i)
    else if spec.is_sign_char c then check_number_scan spec cs (i + 1) false false
    else check_number_scan spec (c :: cs) i false false

/-- Modelled from the spec: the digits of the exponent read by `check_exponent`. -/
def check_exponent_scan : List Char → Nat → Bool → Bool × Nat
  | [], i, found_digit => (found_digit, i)
  | c :: cs, i, found_digit =>
    if is_digit c then check_exponent_scan cs (i + 1) true else (found_digit, i)

/-- Modelled from the spec: `check_exponent` of `checker_helper.h` (not among the
sources), called at the character `E`: the `E`, an optional sign, then at least one
digit (spec 4.3: "optional `E` exponent (sign + digits)"). -/
def check_exponent_model (nom : List Char) (i : Nat) : Bool × Nat :=
  match nom.drop (i + 1) with
  | [] => (false, i + 1)
  | c :: cs =>
    if c = '+' ∨ c = '-' then check_exponent_scan cs (i + 2) false
    else check_exponent_scan (c :: cs) (i + 1) false

/-- Modelled from the spec: the helpers of `checker_helper.h`. -/
def checker_helper_model : checker_helper where
  check_number := check_number_model
  check_exponent := check_exponent_model

/-- A data-definition operand with the present nominal string `s`. -/
def string_operand (s : String) (rng : range) : data_definition_operand :=
  ⟨string_nominal s rng⟩

/-- The result of the `while (i < nom.size())` loop of `data_def_type_H_F_FD::check`
taken alone: `some b` when the loop was left by a `return b` inside its body, `none`
when it was left because its condition `i < nom.size()` became false. -/
abbrev loop_exit := Option Bool

/-- The `while (i < nom.size())` loop of `data_def_type_H_F_FD::check` without the
statements after it, with the way in which it was left. The first argument bounds the
number of iterations. -/
def data_def_type_H_F_FD.while_loop (h : checker_helper) (nom : List Char) (rng : range)
    (type_str : String) : Nat → Nat → List diagnostic_op →
      Option (loop_exit × List diagnostic_op)
  | 0, _, _ => none
  | fuel + 1, i, diags =>
    if i < nom.length then
      let r := h.check_number H_F_FD_number_spec nom i
      if !r.1 then some (some false, diags ++ [error_D010 rng type_str])
      else if r.2 ≥ nom.length then some (some true, diags)
      else if char_at nom r.2 = 'E' then
        let e := h.check_exponent nom r.2
        if !e.1 then some (some false, diags ++ [error_D010 rng type_str])
        else if e.2 ≥ nom.length then some (some true, diags)
        else if char_at nom e.2 ≠ ',' then
          some (some false, diags ++ [error_D010 rng type_str])
        else data_def_type_H_F_FD.while_loop h nom rng type_str fuel (e.2 + 1) diags
      else if char_at nom r.2 ≠ ',' then
        some (some false, diags ++ [error_D010 rng type_str])
      else data_def_type_H_F_FD.while_loop h nom rng type_str fuel (r.2 + 1) diags
    else some (none, diags)

/-- The statements of `data_def_type_H_F_FD::check` after its loop: the test of
`nom.back()` and the final `return true`. -/
def data_def_type_H_F_FD.after_loop (nom : List Char) (rng : range) (type_str : String)
    (diags : List diagnostic_op) : Bool × List diagnostic_op :=
  if nom.getLast? = some ',' then (false, diags ++ [error_D010 rng type_str])
  else (true, diags)

/-- The loop followed by the statements after it. -/
def data_def_type_H_F_FD.finish_loop (nom : List Char) (rng : range) (type_str : String)
    (r : loop_exit × List diagnostic_op) : Bool × List diagnostic_op :=
  match r.1 with
  | some returned => (returned, r.2)
  | none => data_def_type_H_F_FD.after_loop nom rng type_str r.2

end checking

namespace processing

open checking (position range diagnostic_op)

/-! ## Data model of the conditional-assembly processor -/

/-- Interned identifier `context::id_index`: two are equal exactly when the names are. -/
abbrev id_index := String

/-- Handle of an expression subtree handed to the expression evaluator. -/
abbrev expr_ptr := Nat

/-- Concatenation chain of a created variable symbol (`created_name`). -/
abbrev concat_chain := List String

/-- Arithmetic SET value `context::A_t`. -/
abbrev A_t := Int

/-- Kind of a SET symbol, `context::SET_t_enum`. -/
inductive SET_t_enum where
  | A_TYPE
  | B_TYPE
  | C_TYPE
deriving DecidableEq, Repr

/-- SET value `context::SET_t`: arithmetic, boolean or character. -/
inductive SET_t where
  | A (value : A_t)
  | B (value : Bool)
  | C (value : String)
deriving DecidableEq, Repr

/-- Result of `evaluate_expression_tree`: the views `get_numeric_value()` and
`get_set_value()` of the evaluated expression. -/
structure evaluated_expression where
  get_numeric_value : A_t
  get_set_value : SET_t
deriving DecidableEq, Repr

/-- The expression manager `mngr_`, with the context it reads fixed during one
statement: evaluation of an expression tree, concatenation of a created name, and the
name of a variable symbol. -/
structure expression_manager where
  evaluate_expression_tree : expr_ptr → evaluated_expression
  concatenate : concat_chain → id_index

/-- Sequence symbol `semantics::seq_sym`. -/
structure seq_sym where
  name : id_index
  symbol_range : range
deriving DecidableEq, Repr

/-- The two forms of a variable symbol: basic (`access_basic()->name`) or created
(`access_created()->created_name`). -/
inductive var_sym_form where
  | basic (name : id_index)
  | created_form (created_name : concat_chain)
deriving DecidableEq, Repr

/-- Variable symbol `semantics::var_sym`. -/
structure var_sym where
  form : var_sym_form
  subscript : List expr_ptr
  symbol_range : range
deriving DecidableEq, Repr

/-- The flag `var_sym::created`. -/
def var_sym.created (symbol : var_sym) : Bool :=
  match symbol.form with
  | .created_form _ => true
  | .basic _ => false

/-- SET symbol `context::set_symbol_base`. -/
structure set_symbol_base where
  id : id_index
  type : SET_t_enum
  is_scalar : Bool
deriving DecidableEq, Repr

/-- Variable symbol of the context, `context::variable_symbol`: a SET symbol or a
macro parameter. -/
inductive variable_symbol where
  | set_symbol (base : set_symbol_base)
  | macro_param (id : id_index)
deriving DecidableEq, Repr

/-- The accessor `variable_symbol::access_set_symbol_base()`; `none` is the null pointer. -/
def variable_symbol.access_set_symbol_base : variable_symbol → Option set_symbol_base
  | .set_symbol base => some base
  | .macro_param _ => none

/-- The accessor `variable_symbol::access_macro_param_base()`; `none` is the null pointer. -/
def variable_symbol.access_macro_param_base : variable_symbol → Option id_index
  | .set_symbol _ => none
  | .macro_param id => some id

/-- The part of `hlasm_context` read by the functions below: `get_var_sym`, whose
result `none` is the null pointer. -/
structure hlasm_context where
  get_var_sym : id_index → Option variable_symbol

/-- Kind of a conditional-assembly operand, `semantics::ca_kind`. -/
inductive ca_kind where
  | VAR
  | EXPR
  | SEQ
  | BRANCH
deriving DecidableEq, Repr

/-- Conditional-assembly operand `semantics::ca_operand` with its four kinds:
variable (expression and variable symbol), expression, sequence symbol, and branch
(expression and sequence symbol). -/
inductive ca_operand where
  | VAR (expression : expr_ptr) (variable_symbol : var_sym) (operand_range : range)
  | EXPR (expression : expr_ptr) (operand_range : range)
  | SEQ (sequence_symbol : seq_sym) (operand_range : range)
  | BRANCH (expression : expr_ptr) (sequence_symbol : seq_sym) (operand_range : range)
deriving DecidableEq, Repr

/-- The member `ca_operand::kind`. -/
def ca_operand.kind : ca_operand → ca_kind
  | .VAR _ _ _ => .VAR
  | .EXPR _ _ => .EXPR
  | .SEQ _ _ => .SEQ
  | .BRANCH _ _ _ => .BRANCH

/-- The member `operand_range` of a conditional-assembly operand. -/
def ca_operand.operand_range : ca_operand → range
  | .VAR _ _ r => r
  | .EXPR _ r => r
  | .SEQ _ r => r
  | .BRANCH _ _ r => r

/-- The accessor `access_expr()`: the expression of a variable, expression or branch
operand; `none` is the null pointer. -/
def ca_operand.access_expr : ca_operand → Option expr_ptr
  | .VAR e _ _ => some e
  | .EXPR e _ => some e
  | .SEQ _ _ => none
  | .BRANCH e _ _ => some e

/-- The accessor `access_seq()`: the sequence symbol of a sequence-symbol operand. -/
def ca_operand.access_seq : ca_operand → Option seq_sym
  | .SEQ s _ => some s
  | _ => none

/-- The accessor `access_branch()`: expression and sequence symbol of a branch operand. -/
def ca_operand.access_branch : ca_operand → Option (expr_ptr × seq_sym)
  | .BRANCH e s _ => some (e, s)
  | _ => none

/-- The accessor `access_var()`: the variable symbol of a variable operand. -/
def ca_operand.access_var : ca_operand → Option var_sym
  | .VAR _ v _ => some v
  | _ => none

/-- Type of an operand, `semantics::operand_type`, as far as the processor tests it. -/
inductive operand_type where
  | EMPTY
  | CA
deriving DecidableEq, Repr

/-- Operand of a statement given to the conditional-assembly processor: empty, or a
conditional-assembly operand. -/
inductive operand where
  | EMPTY (operand_range : range)
  | CA (op : ca_operand)
deriving DecidableEq, Repr

/-- The member `operand::type`. -/
def operand.type : operand → operand_type
  | .EMPTY _ => .EMPTY
  | .CA _ => .CA

/-- The member `operand::operand_range`. -/
def operand.operand_range : operand → range
  | .EMPTY r => r
  | .CA op => op.operand_range

/-- The accessor `operand::access_ca()`; `none` is the null pointer. -/
def operand.access_ca : operand → Option ca_operand
  | .EMPTY _ => none
  | .CA op => some op

/-- Type of the label field, `semantics::label_si_type`. -/
inductive label_si_type where
  | ORD
  | SEQ
  | VAR
  | EMPTY
deriving DecidableEq, Repr

/-- Value of the label field: the variant selected by its type. -/
inductive label_si_value where
  | ORD (name : String)
  | SEQ (symbol : seq_sym)
  | VAR (symbol : var_sym)
  | EMPTY
deriving DecidableEq, Repr

/-- Label field `semantics::label_si`. -/
structure label_si where
  value : label_si_value
  field_range : range
deriving DecidableEq, Repr

/-- The member `label_si::type`. -/
def label_si.type (l : label_si) : label_si_type :=
  match l.value with
  | .ORD _ => .ORD
  | .SEQ _ => .SEQ
  | .VAR _ => .VAR
  | .EMPTY => .EMPTY

/-- Statement `semantics::complete_statement`: `label_ref()`, the range of
`instruction_ref()`, `operands_ref().value` and `stmt_range_ref()`. -/
structure complete_statement where
  label_ref : label_si
  instruction_range : range
  operands : List operand
  stmt_range : range
deriving DecidableEq, Repr

/-- Factory `diagnostic_op::error_E010(message, range)`. -/
def error_E010 (message : String) (rng : range) : diagnostic_op := ⟨"E010", message, rng⟩

/-- Factory `diagnostic_op::error_E012(message, range)`. -/
def error_E012 (message : String) (rng : range) : diagnostic_op := ⟨"E012", message, rng⟩

/-- Factory `diagnostic_op::error_E013(message, range)`. -/
def error_E013 (message : String) (rng : range) : diagnostic_op := ⟨"E013", message, rng⟩

/-- Factory `diagnostic_op::error_E020(message, range)`. -/
def error_E020 (message : String) (rng : range) : diagnostic_op := ⟨"E020", message, rng⟩

/-- Factory `diagnostic_op::error_E022(message, range)`. -/
def error_E022 (message : String) (rng : range) : diagnostic_op := ⟨"E022", message, rng⟩

/-- Factory `diagnostic_op::error_E030(message, range)`. -/
def error_E030 (message : String) (rng : range) : diagnostic_op := ⟨"E030", message, rng⟩

/-- Factory `diagnostic_op::warning_W010(message, range)`. -/
def warning_W010 (message : String) (rng : range) : diagnostic_op := ⟨"W010", message, rng⟩

/-- Observable state of the processor during one statement: the diagnostics added with
`add_diagnostic`, the expression trees given to `mngr_.evaluate_expression_tree` (in
call order), and the calls made on the branching provider `provider_`. -/
structure ca_processor_state where
  diags : List diagnostic_op
  evaluated : List expr_ptr
  registered : List (id_index × range)
  jumps : List (id_index × range)
deriving DecidableEq, Repr

/-- The call `add_diagnostic(d)`. -/
def ca_processor_state.add_diagnostic (st : ca_processor_state) (d : diagnostic_op) :
    ca_processor_state :=
  { st with diags := st.diags ++ [d] }

/-- Record of a call `mngr_.evaluate_expression_tree(e)`. -/
def ca_processor_state.evaluate (st : ca_processor_state) (e : expr_ptr) :
    ca_processor_state :=
  { st with evaluated := st.evaluated ++ [e] }

/-- The call `provider_.register_sequence_symbol(name, range)`. -/
def ca_processor_state.register_sequence_symbol (st : ca_processor_state)
    (name : id_index) (rng : range) : ca_processor_state :=
  { st with registered := st.registered ++ [(name, rng)] }

/-- The call `provider_.jump_in_statements(target, range)`. -/
def ca_processor_state.jump_in_statements (st : ca_processor_state)
    (target : id_index) (rng : range) : ca_processor_state :=
  { st with jumps := st.jumps ++ [(target, rng)] }

/-- The initial state: nothing emitted, evaluated or called yet. -/
def ca_processor_state.init : ca_processor_state := ⟨[], [], [], []⟩

/-! ## `ca_processor` -/

/-- The method `ca_processor::register_seq_sym`. -/
def register_seq_sym (stmt : complete_statement) (st : ca_processor_state) :
    ca_processor_state :=
  match stmt.label_ref.value with
  | .SEQ symbol => st.register_sequence_symbol symbol.name symbol.symbol_range
  | .EMPTY => st
  | _ => st.add_diagnostic (warning_W010 "Name field" stmt.label_ref.field_range)

/-- The reference parameters `idx`, `set_symbol` and `name` of
`test_symbol_for_assignment`; `set_symbol = none` is the null pointer. -/
structure assignment_target where
  idx : Int
  set_symbol : Option set_symbol_base
  name : id_index
deriving DecidableEq, Repr

/-- The name resolved at the start of `test_symbol_for_assignment`. -/
def resolved_name (mngr : expression_manager) (symbol : var_sym) : id_index :=
  match symbol.form with
  | .created_form created_name => mngr.concatenate created_name
  | .basic name => name

/-- The method `ca_processor::test_symbol_for_assignment`. The result is the returned
`bool`, the values left in the reference parameters, and the new state; `none` is a
failed `assert(set_sym)`. -/
def test_symbol_for_assignment (mngr : expression_manager) (ctx : hlasm_context)
    (symbol : var_sym) (type : SET_t_enum) (st : ca_processor_state) :
    Option (Bool × assignment_target × ca_processor_state) :=
  let name := resolved_name mngr symbol
  let var_symbol := ctx.get_var_sym name
  if (var_symbol.bind variable_symbol.access_macro_param_base).isSome then
    some (false, ⟨-1, none, name⟩,
      st.add_diagnostic (error_E030 "symbolic parameter" symbol.symbol_range))
  else if symbol.subscript.length > 1 then
    some (false, ⟨-1, none, name⟩,
      st.add_diagnostic (error_E020 "variable symbol subscript" symbol.symbol_range))
  else
    let r : Int × ca_processor_state :=
      match symbol.subscript with
      | [e] => ((mngr.evaluate_expression_tree e).get_numeric_value, st.evaluate e)
      | _ => (-1, st)
    if symbol.subscript.length = 1 ∧ r.1 < 1 then
      some (false, ⟨r.1, none, name⟩,
        r.2.add_diagnostic
          (error_E012 "subscript value has to be 1 or more" symbol.symbol_range))
    else
      match var_symbol with
      | none => some (true, ⟨r.1, none, name⟩, r.2)
      | some vs =>
        match vs.access_set_symbol_base with
        | none => none
        | some set_sym =>
          if set_sym.type ≠ type then
            some (false, ⟨r.1, none, name⟩,
              r.2.add_diagnostic
                (error_E013 "wrong type of variable symbol" symbol.symbol_range))
          else if (set_sym.is_scalar ∧ symbol.subscript.length = 1)
              ∨ (¬ set_sym.is_scalar ∧ symbol.subscript.length = 0) then
            some (false, ⟨r.1, none, name⟩,
              r.2.add_diagnostic (error_E013 "subscript error" symbol.symbol_range))
          else
            some (true, ⟨r.1, some set_sym, name⟩, r.2)

/-- The loop over the operands in `prepare_SET`, from the given operand on, carrying
`values`, `has_operand` and the state. The first component of the result tells whether
the loop ran to its end (`true`) or left the function with `return false`; `none` is a
failed `assert(ca_op)`. -/
def prepare_SET_operands (mngr : expression_manager) :
    List operand → List SET_t → Bool → ca_processor_state →
      Option (Bool × List SET_t × Bool × ca_processor_state)
  | [], values, has_operand, st => some (true, values, has_operand, st)
  | op :: ops, values, has_operand, st =>
    if op.type = operand_type.EMPTY then
      prepare_SET_operands mngr ops values has_operand st
    else
      match op.access_ca with
      | none => none
      | some ca_op =>
        if ca_op.kind ≠ ca_kind.VAR ∧ ca_op.kind ≠ ca_kind.EXPR then
          some (false, values, true,
            st.add_diagnostic (error_E012 "SET instruction" ca_op.operand_range))
        else
          match ca_op.access_expr with
          | none => none
          | some expression =>
            let e := mngr.evaluate_expression_tree expression
            prepare_SET_operands mngr ops (values ++ [e.get_set_value]) true
              (st.evaluate expression)

/-- The reference parameters `idx`, `set_symbol`, `name` and `values` of `prepare_SET`. -/
structure SET_parameters where
  idx : Int
  set_symbol : Option set_symbol_base
  name : id_index
  values : List SET_t
deriving DecidableEq, Repr

/-- The method `ca_processor::prepare_SET`. The argument `params` holds the reference
parameters at the call, the result the returned `bool`, the reference parameters at the
return, and the new state. -/
def prepare_SET (mngr : expression_manager) (ctx : hlasm_context)
    (stmt : complete_statement) (type : SET_t_enum) (params : SET_parameters)
    (st : ca_processor_state) : Option (Bool × SET_parameters × ca_processor_state) :=
  match stmt.label_ref.value with
  | .VAR symbol =>
    match test_symbol_for_assignment mngr ctx symbol type st with
    | none => none
    | some (ok, target, st1) =>
      if !ok then
        some (false, ⟨target.idx, target.set_symbol, target.name, params.values⟩, st1)
      else
        match prepare_SET_operands mngr stmt.operands params.values false st1 with
        | none => none
        | some (completed, values, has_operand, st2) =>
          if !completed then
            some (false, ⟨target.idx, target.set_symbol, target.name, values⟩, st2)
          else if !has_operand then
            some (false, ⟨target.idx, target.set_symbol, target.name, values⟩,
              st2.add_diagnostic (error_E022 "SET instruction" stmt.instruction_range))
          else
            some (true, ⟨target.idx, target.set_symbol, target.name, values⟩, st2)
  | _ => some (false, params, st.add_diagnostic (error_E010 "label" stmt.label_ref.field_range))

/-- The loop `for (size_t i = 1; ...)` of `prepare_AGO` over the operands after the
first, carrying `targets` and the state; the first component of the result is `false`
when the loop left the function with `return false`; `none` is a failed `assert(tmp)`. -/
def prepare_AGO_targets :
    List operand → List (id_index × range) → ca_processor_state →
      Option (Bool × List (id_index × range) × ca_processor_state)
  | [], targets, st => some (true, targets, st)
  | op :: ops, targets, st =>
    match op.access_ca with
    | none => none
    | some tmp =>
      match tmp.access_seq with
      | some symbol =>
        prepare_AGO_targets ops (targets ++ [(symbol.name, symbol.symbol_range)]) st
      | none =>
        some (false, targets, st.add_diagnostic (error_E010 "operand" tmp.operand_range))

/-- The method `ca_processor::prepare_AGO`. The arguments `branch` and `targets` are the
reference parameters at the call; the result is the returned `bool`, the reference
parameters at the return, and the new state; `none` is a failed assertion. -/
def prepare_AGO (mngr : expression_manager) (stmt : complete_statement) (branch : A_t)
    (targets : List (id_index × range)) (st : ca_processor_state) :
    Option (Bool × A_t × List (id_index × range) × ca_processor_state) :=
  if stmt.operands.isEmpty then
    some (false, branch, targets,
      st.add_diagnostic (error_E022 "AGO" stmt.instruction_range))
  else
    match stmt.operands.find? (fun op => op.type = operand_type.EMPTY) with
    | some op =>
      some (false, branch, targets,
        st.add_diagnostic (error_E010 "operand" op.operand_range))
    | none =>
      match stmt.operands.head?.bind operand.access_ca with
      | none => none
      | some ca_op =>
        match ca_op with
        | .SEQ symbol _ =>
          if stmt.operands.length ≠ 1 then
            some (false, branch, targets,
              st.add_diagnostic (error_E010 "operand" ca_op.operand_range))
          else
            some (true, 1, targets ++ [(symbol.name, symbol.symbol_range)], st)
        | .BRANCH expression sequence_symbol _ =>
          match prepare_AGO_targets (stmt.operands.drop 1)
              (targets ++ [(sequence_symbol.name, sequence_symbol.symbol_range)])
              (st.evaluate expression) with
          | none => none
          | some (completed, targets2, st2) =>
            some (completed, (mngr.evaluate_expression_tree expression).get_numeric_value,
              targets2, st2)
        | _ => some (true, branch, targets, st)

/-- The method `ca_processor::process_AGO`; `branch` is the value of the uninitialised
local `branch` at its declaration. The cast `(context::A_t)targets.size()` is the
number of targets itself, a statement having far fewer than 2^31 operands. `none` is a
failed assertion or an access to `targets` outside its bounds. -/
def process_AGO (mngr : expression_manager) (stmt : complete_statement) (branch : A_t)
    (st : ca_processor_state) : Option ca_processor_state :=
  let st1 := register_seq_sym stmt st
  match prepare_AGO mngr stmt branch [] st1 with
  | none => none
  | some (ok, branch2, targets, st2) =>
    if !ok then some st2
    else if branch2 > 0 ∧ branch2 ≤ (targets.length : Int) then
      match targets[(branch2 - 1).toNat]? with
      | none => none
      | some target => some (st2.jump_in_statements target.1 target.2)
    else some st2

/-! ## Scenarios -/

/-- An expression manager for the scenarios: the expression with handle `n` is the
self-defining term `n`, and a created name is the concatenation of its chain. -/
def literal_manager : expression_manager where
  evaluate_expression_tree := fun e => ⟨(e : Int), .A (e : Int)⟩
  concatenate := String.join

/-- The context of scenario S2 after `&X SETA 1`: `X` is a scalar arithmetic SET symbol. -/
def S2_context : hlasm_context where
  get_var_sym := fun name =>
    if name = "X" then some (.set_symbol ⟨"X", .A_TYPE, true⟩) else none

/-- The label `&X` of the second statement of scenario S2. -/
def S2_symbol : var_sym := ⟨.basic "X", [], ⟨⟨2, 0⟩, ⟨2, 2⟩⟩⟩

/-- A context without variable symbols. -/
def empty_context : hlasm_context where
  get_var_sym := fun _ => none

/-- The statement `&ARR(1) SETA 1,,3`: the second operand is empty. -/
def SET_with_empty_operand : complete_statement where
  label_ref := ⟨.VAR ⟨.basic "ARR", [1], ⟨⟨1, 0⟩, ⟨1, 7⟩⟩⟩, ⟨⟨1, 0⟩, ⟨1, 7⟩⟩⟩
  instruction_range := ⟨⟨1, 10⟩, ⟨1, 14⟩⟩
  operands := [.CA (.EXPR 1 ⟨⟨1, 16⟩, ⟨1, 17⟩⟩), .EMPTY ⟨⟨1, 18⟩, ⟨1, 18⟩⟩,
    .CA (.EXPR 3 ⟨⟨1, 19⟩, ⟨1, 20⟩⟩)]
  stmt_range := ⟨⟨1, 0⟩, ⟨1, 20⟩⟩

/-- The statement `AGO (2).L1,.L2,.L3` of scenario S3. -/
def S3_statement : complete_statement where
  label_ref := ⟨.EMPTY, ⟨⟨1, 0⟩, ⟨1, 0⟩⟩⟩
  instruction_range := ⟨⟨1, 10⟩, ⟨1, 13⟩⟩
  operands := [.CA (.BRANCH 2 ⟨".L1", ⟨⟨1, 19⟩, ⟨1, 22⟩⟩⟩ ⟨⟨1, 16⟩, ⟨1, 22⟩⟩),
    .CA (.SEQ ⟨".L2", ⟨⟨1, 23⟩, ⟨1, 26⟩⟩⟩ ⟨⟨1, 23⟩, ⟨1, 26⟩⟩),
    .CA (.SEQ ⟨".L3", ⟨⟨1, 27⟩, ⟨1, 30⟩⟩⟩ ⟨⟨1, 27⟩, ⟨1, 30⟩⟩)]
  stmt_range := ⟨⟨1, 0⟩, ⟨1, 30⟩⟩

/-- The expression of an operand that has one: `access_ca()` followed by
`access_expr()`. -/
def operand.expression (op : operand) : Option expr_ptr :=
  op.access_ca.bind ca_operand.access_expr

/-- The statement ` SETA 5` without a label. -/
def SET_without_label : complete_statement where
  label_ref := ⟨.EMPTY, ⟨⟨1, 0⟩, ⟨1, 0⟩⟩⟩
  instruction_range := ⟨⟨1, 10⟩, ⟨1, 14⟩⟩
  operands := [.CA (.EXPR 5 ⟨⟨1, 16⟩, ⟨1, 17⟩⟩)]
  stmt_range := ⟨⟨1, 0⟩, ⟨1, 17⟩⟩

/-- The statement `&I SETA ,` whose two operands are empty. -/
def SET_without_operand : complete_statement where
  label_ref := ⟨.VAR ⟨.basic "I", [], ⟨⟨1, 0⟩, ⟨1, 2⟩⟩⟩, ⟨⟨1, 0⟩, ⟨1, 2⟩⟩⟩
  instruction_range := ⟨⟨1, 10⟩, ⟨1, 14⟩⟩
  operands := [.EMPTY ⟨⟨1, 16⟩, ⟨1, 16⟩⟩, .EMPTY ⟨⟨1, 17⟩, ⟨1, 17⟩⟩]
  stmt_range := ⟨⟨1, 0⟩, ⟨1, 17⟩⟩

/-- The statement `AGO` without operands. -/
def AGO_without_operand : complete_statement where
  label_ref := ⟨.EMPTY, ⟨⟨1, 0⟩, ⟨1, 0⟩⟩⟩
  instruction_range := ⟨⟨1, 10⟩, ⟨1, 13⟩⟩
  operands := []
  stmt_range := ⟨⟨1, 0⟩, ⟨1, 13⟩⟩

/-- The statement `AGO (2).L1,,.L3` whose second operand is empty. -/
def AGO_with_empty_operand : complete_statement where
  label_ref := ⟨.EMPTY, ⟨⟨1, 0⟩, ⟨1, 0⟩⟩⟩
  instruction_range := ⟨⟨1, 10⟩, ⟨1, 13⟩⟩
  operands := [.CA (.BRANCH 2 ⟨".L1", ⟨⟨1, 19⟩, ⟨1, 22⟩⟩⟩ ⟨⟨1, 16⟩, ⟨1, 22⟩⟩),
    .EMPTY ⟨⟨1, 23⟩, ⟨1, 23⟩⟩,
    .CA (.SEQ ⟨".L3", ⟨⟨1, 24⟩, ⟨1, 27⟩⟩⟩ ⟨⟨1, 24⟩, ⟨1, 27⟩⟩)]
  stmt_range := ⟨⟨1, 0⟩, ⟨1, 27⟩⟩

/-- The operand list made of bare sequence symbols with their operand ranges. -/
def seq_operands (symbols : List (seq_sym × range)) : List operand :=
  symbols.map (fun p => operand.CA (.SEQ p.1 p.2))

/-- The targets named by a list of sequence symbols: name and range of each. -/
def seq_targets (symbols : List (seq_sym × range)) : List (id_index × range) :=
  symbols.map (fun p => (p.1.name, p.1.symbol_range))

/-! ## `ca_processor`: AIF -/

/-- The reference parameters `condition`, `target` and `target_range` of `prepare_AIF`. -/
structure AIF_parameters where
  condition : Bool
  target : id_index
  target_range : range
deriving DecidableEq, Repr

/-- The iterator loop over the operands in `prepare_AIF`, from the given operand on,
carrying the reference parameters, `has_operand` and the state. The test
`it == end - 1` holds when no operand follows. The first component of the result tells
whether the loop ran to its end (`true`) or left the function with `return false`;
`none` is a failed `assert(ca_op)`. The conversion `(bool)` of the numeric value is the
test for a non-zero value. -/
def prepare_AIF_operands (mngr : expression_manager) :
    List operand → AIF_parameters → Bool → ca_processor_state →
      Option (Bool × AIF_parameters × Bool × ca_processor_state)
  | [], params, has_operand, st => some (true, params, has_operand, st)
  | op :: ops, params, has_operand, st =>
    if op.type = operand_type.EMPTY then
      if ops.isEmpty then
        prepare_AIF_operands mngr ops params has_operand st
      else
        some (false, params, has_operand,
          st.add_diagnostic (error_E010 "operand" op.operand_range))
    else
      match op.access_ca with
      | none => none
      | some ca_op =>
        if ca_op.kind = ca_kind.BRANCH then
          if !params.condition then
            match ca_op.access_branch with
            | none => none
            | some br =>
              prepare_AIF_operands mngr ops
                ⟨decide ((mngr.evaluate_expression_tree br.1).get_numeric_value ≠ 0),
                  br.2.name, br.2.symbol_range⟩
                true (st.evaluate br.1)
          else
            prepare_AIF_operands mngr ops params true st
        else
          some (false, params, true,
            st.add_diagnostic (error_E010 "operand" ca_op.operand_range))

/-- The method `ca_processor::prepare_AIF`. The argument `params` holds the reference
parameters at the call; the result is the returned `bool`, the reference parameters at
the return, and the new state. -/
def prepare_AIF (mngr : expression_manager) (stmt : complete_statement)
    (params : AIF_parameters) (st : ca_processor_state) :
    Option (Bool × AIF_parameters × ca_processor_state) :=
  let params1 : AIF_parameters := { params with condition := false }
  if stmt.operands.isEmpty then
    some (false, params1, st.add_diagnostic (error_E022 "AIF" stmt.instruction_range))
  else
    match prepare_AIF_operands mngr stmt.operands params1 false st with
    | none => none
    | some (completed, params2, has_operand, st2) =>
      if !completed then some (false, params2, st2)
      else if !has_operand then
        some (false, params2,
          st2.add_diagnostic
            (error_E022 "variable symbol definition" stmt.instruction_range))
      else some (true, params2, st2)

/-- The method `ca_processor::process_AIF`; `locals` holds the values of the locals
`condition`, `target` and `target_range` at their declaration. -/
def process_AIF (mngr : expression_manager) (stmt : complete_statement)
    (locals : AIF_parameters) (st : ca_processor_state) : Option ca_processor_state :=
  let st1 := register_seq_sym stmt st
  match prepare_AIF mngr stmt locals st1 with
  | none => none
  | some (ok, params, st2) =>
    if !ok then some st2
    else if params.condition then
      some (st2.jump_in_statements params.target params.target_range)
    else some st2

/-- The operand list made of branch operands `(expr).seq_sym` with their operand
ranges. -/
def branch_operands (branches : List (expr_ptr × seq_sym × range)) : List operand :=
  branches.map (fun b => operand.CA (.BRANCH b.1 b.2.1 b.2.2))

/-- The statement `AIF (0).A,(5).B,(1).C`. -/
def AIF_statement : complete_statement where
  label_ref := ⟨.EMPTY, ⟨⟨1, 0⟩, ⟨1, 0⟩⟩⟩
  instruction_range := ⟨⟨1, 10⟩, ⟨1, 13⟩⟩
  operands := branch_operands
    [(0, ⟨".A", ⟨⟨1, 19⟩, ⟨1, 21⟩⟩⟩, ⟨⟨1, 16⟩, ⟨1, 21⟩⟩),
     (5, ⟨".B", ⟨⟨1, 25⟩, ⟨1, 27⟩⟩⟩, ⟨⟨1, 22⟩, ⟨1, 27⟩⟩),
     (1, ⟨".C", ⟨⟨1, 31⟩, ⟨1, 33⟩⟩⟩, ⟨⟨1, 28⟩, ⟨1, 33⟩⟩)]
  stmt_range := ⟨⟨1, 0⟩, ⟨1, 33⟩⟩

/-- Values of the locals of `process_AIF` at their declaration, for the scenarios. -/
def AIF_locals : AIF_parameters := ⟨false, "", ⟨⟨0, 0⟩, ⟨0, 0⟩⟩⟩

/-- The state after the calls `mngr_.evaluate_expression_tree(e)` for the expression
trees `es`, in order. -/
def ca_processor_state.evaluate_all (st : ca_processor_state) (es : List expr_ptr) :
    ca_processor_state :=
  { st with evaluated := st.evaluated ++ es }

/-- The reference parameters of `prepare_AIF` after a run of branch operands whose
conditions are all zero: the last of them has left its sequence symbol in `target`. -/
def zero_branches_parameters : AIF_parameters → List (expr_ptr × seq_sym × range) →
    AIF_parameters
  | params, [] => params
  | _, b :: bs => zero_branches_parameters ⟨false, b.2.1.name, b.2.1.symbol_range⟩ bs

/-- Factory `diagnostic_op::error_E051(name, range)`. -/
def error_E051 (name : String) (rng : range) : diagnostic_op := ⟨"E051", name, rng⟩

/-- Factory `diagnostic_op::error_E052(name, range)`. -/
def error_E052 (name : String) (rng : range) : diagnostic_op := ⟨"E052", name, rng⟩

/-- Factory `diagnostic_op::error_E054(range)`. -/
def error_E054 (rng : range) : diagnostic_op := ⟨"E054", "", rng⟩

/-- The loop over the operands in `prepare_GBL_LCL`, from the given operand on, carrying
`ids`, `scalar_info`, `has_operand` and the state. The function `get_symbol_name` is
`mngr_.get_symbol_name`, whose body is not among the sources. The first component of
the result tells whether the loop ran to its end (`true`) or left the function with
`return false`; `none` is a failed assertion. -/
def prepare_GBL_LCL_operands (get_symbol_name : var_sym → id_index) (ctx : hlasm_context) :
    List operand → List id_index → List Bool → Bool → ca_processor_state →
      Option (Bool × List id_index × List Bool × Bool × ca_processor_state)
  | [], ids, scalar_info, has_operand, st => some (true, ids, scalar_info, has_operand, st)
  | op :: ops, ids, scalar_info, has_operand, st =>
    if op.type = operand_type.EMPTY then
      prepare_GBL_LCL_operands get_symbol_name ctx ops ids scalar_info has_operand st
    else
      match op.access_ca with
      | none => none
      | some ca_op =>
        if ca_op.kind = ca_kind.VAR then
          match ca_op.access_var with
          | none => none
          | some var =>
            let id := get_symbol_name var
            match ctx.get_var_sym id with
            | some var_sym =>
              if var_sym.access_set_symbol_base.isSome then
                prepare_GBL_LCL_operands get_symbol_name ctx ops ids scalar_info true
                  (st.add_diagnostic (error_E051 id ca_op.operand_range))
              else if var_sym.access_macro_param_base.isSome then
                prepare_GBL_LCL_operands get_symbol_name ctx ops ids scalar_info true
                  (st.add_diagnostic (error_E052 id ca_op.operand_range))
              else none
            | none =>
              if id ∈ ids then
                prepare_GBL_LCL_operands get_symbol_name ctx ops ids scalar_info true
                  (st.add_diagnostic (error_E051 id ca_op.operand_range))
              else
                prepare_GBL_LCL_operands get_symbol_name ctx ops
                  (ids ++ [get_symbol_name var]) (scalar_info ++ [var.subscript.isEmpty])
                  true st
        else
          some (false, ids, scalar_info, true,
            st.add_diagnostic (error_E010 "operand" ca_op.operand_range))

/-- The method `ca_processor::prepare_GBL_LCL`. The arguments `ids` and `scalar_info`
are the reference parameters at the call; the result is the returned `bool`, the
reference parameters at the return, and the new state. -/
def prepare_GBL_LCL (get_symbol_name : var_sym → id_index) (ctx : hlasm_context)
    (stmt : complete_statement) (ids : List id_index) (scalar_info : List Bool)
    (st : ca_processor_state) :
    Option (Bool × List id_index × List Bool × ca_processor_state) :=
  match prepare_GBL_LCL_operands get_symbol_name ctx stmt.operands ids scalar_info false st
    with
  | none => none
  | some (completed, ids2, scalar_info2, has_operand, st2) =>
    if !completed then some (false, ids2, scalar_info2, st2)
    else if !has_operand then
      some (false, ids2, scalar_info2,
        st2.add_diagnostic
          (error_E022 "variable symbol definition" stmt.instruction_range))
    else if stmt.label_ref.type ≠ label_si_type.EMPTY then
      some (true, ids2, scalar_info2,
        st2.add_diagnostic (warning_W010 "Label field" stmt.label_ref.field_range))
    else some (true, ids2, scalar_info2, st2)

/-- The method `ca_processor::prepare_ACTR`. The argument `ctr` is the reference
parameter at the call; the result is the returned `bool`, `ctr` at the return, and the
new state; `none` is a failed `assert(ca_op)`. -/
def prepare_ACTR (mngr : expression_manager) (stmt : complete_statement) (ctr : A_t)
    (st : ca_processor_state) : Option (Bool × A_t × ca_processor_state) :=
  if stmt.operands.length ≠ 1 then
    some (false, ctr, st.add_diagnostic (error_E020 "operand" stmt.instruction_range))
  else
    match stmt.operands.head?.bind operand.access_ca with
    | none => none
    | some ca_op =>
      if ca_op.kind = ca_kind.EXPR ∨ ca_op.kind = ca_kind.VAR then
        match ca_op.access_expr with
        | none => none
        | some expression =>
          some (true, (mngr.evaluate_expression_tree expression).get_numeric_value,
            st.evaluate expression)
      else
        some (false, ctr, st.add_diagnostic (error_E010 "operand" ca_op.operand_range))

/-! ## The assembly context as far as the processors change it -/

/-- Position in the opencode file, `context::source_position`. -/
structure source_position where
  file_line : Nat
  file_offset : Nat
deriving DecidableEq, Repr

/-- Frame of an active COPY member, `context::copy_frame`. -/
structure copy_frame where
  copy_member : id_index
  statement_offset : Nat
deriving DecidableEq, Repr

/-- Modelled from the spec: `context::source_snapshot`, which is not among the sources:
the capture of the cursor of the opencode reader, "file offset, file line, and a stack of
active COPY frames with per-frame (member_id, statement_offset)" (spec 3). -/
structure source_snapshot where
  instruction : position
  begin_index : Nat
  end_index : Nat
  copy_frames : List copy_frame
deriving DecidableEq, Repr

/-- The current source `hlasm_ctx_.current_source()`: the members read by the manager. -/
structure source_context where
  source_status_pos : position
  begin_index : Nat
  end_index : Nat
  copy_stack : List copy_frame
deriving DecidableEq, Repr

/-- Modelled from the spec: `source_context::create_snapshot()`, which is not among the
sources: the snapshot captures the cursor as it is (spec 3 and 8.2). -/
def source_context.create_snapshot (src : source_context) : source_snapshot :=
  ⟨src.source_status_pos, src.begin_index, src.end_index, src.copy_stack⟩

/-- Source location `location`: a position in a file. -/
structure location where
  pos : position
  file : String
deriving DecidableEq, Repr

/-- Opencode sequence symbol `context::opencode_sequence_symbol`; the name is `none` for
the null `id_index`. -/
structure opencode_sequence_symbol where
  name : Option id_index
  symbol_location : location
  statement_position : source_position
  snapshot : source_snapshot
deriving DecidableEq, Repr

/-- Modelled from the spec: `operator==` of `opencode_sequence_symbol`, which is not
among the sources: two symbols are the same "based on identity of statement position and
snapshot" (spec 4.4). -/
def opencode_sequence_symbol.same (a b : opencode_sequence_symbol) : Bool :=
  decide (a.statement_position = b.statement_position ∧ a.snapshot = b.snapshot)

/-- Macro sequence symbol `context::macro_sequence_symbol`. -/
structure macro_sequence_symbol where
  name : id_index
  statement_offset : Nat
deriving DecidableEq, Repr

/-- Sequence symbol `context::sequence_symbol` with its two kinds. -/
inductive sequence_symbol where
  | MACRO (symbol : macro_sequence_symbol)
  | OPENCODE (symbol : opencode_sequence_symbol)
deriving DecidableEq, Repr

/-- Invocation of a macro, the object behind `scope_stack().back().this_macro`: the
index of the current statement and the sequence symbols of the macro body. -/
structure macro_invocation where
  current_statement : Int
  labels : List macro_sequence_symbol
deriving DecidableEq, Repr

/-- Kind of statement processing, `processing_kind`. -/
inductive processing_kind where
  | ORDINARY
  | LOOKAHEAD
  | MACRO
  | COPY
deriving DecidableEq, Repr

/-- The state of `hlasm_context` that the processors read and change: the macro
invocation of the innermost scope (`none` outside a macro), the branch counter, the
opencode sequence symbols, the current source, the kinds pushed with
`push_statement_processing`, the file of the innermost processing frame, and the number
of calls of `leave_macro`. -/
structure context_state where
  this_macro : Option macro_invocation
  branch_counter : A_t
  sequence_symbols : List opencode_sequence_symbol
  current_source : source_context
  processing_kinds : List processing_kind
  proc_location_file : String
  leave_macro_calls : Nat
deriving DecidableEq, Repr

/-- Modelled from the spec: `hlasm_context::is_in_macro()`. -/
def context_state.is_in_macro (ctx : context_state) : Bool :=
  (context_state.this_macro ctx).isSome

/-- Modelled from the spec: `hlasm_context::get_sequence_symbol(name)`, which is not
among the sources: inside a macro the symbol is looked up in the table of the current
macro, in opencode in the global table (spec 4.4, sequence-symbol registration);
`none` is the null pointer. -/
def context_state.get_sequence_symbol (ctx : context_state) (name : id_index) :
    Option sequence_symbol :=
  match context_state.this_macro ctx with
  | some invocation =>
    (invocation.labels.find? (fun s => decide (s.name = name))).map sequence_symbol.MACRO
  | none =>
    (ctx.sequence_symbols.find? (fun s => decide (s.name = some name))).map
      sequence_symbol.OPENCODE

/-- Modelled from the spec: `hlasm_context::add_sequence_symbol(symbol)` in opencode:
the symbol is stored in the global table. -/
def context_state.add_sequence_symbol (ctx : context_state)
    (symbol : opencode_sequence_symbol) : context_state :=
  { ctx with sequence_symbols := ctx.sequence_symbols ++ [symbol] }

/-- Modelled from the spec: `hlasm_context::decrement_branch_counter()`, the counter
less one. -/
def context_state.decrement_branch_counter (ctx : context_state) : context_state :=
  { ctx with branch_counter := ctx.branch_counter - 1 }

/-- Modelled from the spec: `hlasm_context::set_branch_counter(value)` (spec 4.4,
"ACTR n sets the branch counter"). -/
def context_state.set_branch_counter (ctx : context_state) (value : A_t) : context_state :=
  { ctx with branch_counter := value }

/-- Record of a call `hlasm_context::leave_macro()`, whose body is not among the
sources. -/
def context_state.leave_macro (ctx : context_state) : context_state :=
  { ctx with leave_macro_calls := ctx.leave_macro_calls + 1 }

/-- The call `hlasm_context::push_statement_processing(kind)`. -/
def context_state.push_statement_processing (ctx : context_state) (kind : processing_kind) :
    context_state :=
  { ctx with processing_kinds := ctx.processing_kinds ++ [kind] }

/-- Modelled from the spec: `hlasm_context::apply_source_snapshot(snapshot)`, which is
not among the sources: the cursor is put back to the captured one (spec 8.2). -/
def context_state.apply_source_snapshot (ctx : context_state) (snapshot : source_snapshot) :
    context_state :=
  { ctx with current_source :=
      ⟨snapshot.instruction, snapshot.begin_index, snapshot.end_index, snapshot.copy_frames⟩ }

/-- The statement `current_statement = (int)statement_offset - 1` on the current macro
invocation; the offset of a statement in a macro body is far below 2^31, so the cast
keeps it. -/
def context_state.set_current_statement (ctx : context_state) (statement_offset : Nat) :
    context_state :=
  match context_state.this_macro ctx with
  | some invocation =>
    let moved : macro_invocation := ⟨(statement_offset : Int) - 1, invocation.labels⟩
    { ctx with this_macro := some moved }
  | none => ctx

/-! ## `ca_processor`: the statement handlers -/

/-- Data to start the macro-definition processor, `macrodef_start_data`. -/
structure macrodef_start_data where
  is_external : Bool
  external_name : id_index
deriving DecidableEq, Repr

/-- The default constructor `macrodef_start_data()`: not external, with the empty
identifier `id_storage::empty_id`. -/
def macrodef_start_data.default : macrodef_start_data := ⟨false, ""⟩

/-- The processor `ca_processor` with the objects it refers to: its own observable state
(diagnostics, evaluations, calls on `provider_`), the context `hlasm_ctx`, and the calls
`listener_.start_macro_definition(data)`. -/
structure ca_processor where
  state : ca_processor_state
  hlasm_ctx : context_state
  started_macro_definitions : List macrodef_start_data
deriving DecidableEq, Repr

/-- Values of the uninitialised locals of the handlers at their declaration: `ctr` of
`process_ACTR`, `branch` of `process_AGO`, and the locals of `process_AIF`. -/
structure handler_locals where
  ctr : A_t
  branch : A_t
  aif : AIF_parameters
deriving DecidableEq, Repr

/-- The method `ca_processor::process_ANOP`; `none` is the failed
`assert(stmt.operands_ref().value.empty())`. -/
def ca_processor.process_ANOP (stmt : complete_statement) (p : ca_processor) :
    Option ca_processor :=
  if stmt.operands.isEmpty then some { p with state := register_seq_sym stmt p.state }
  else none

/-- The method `ca_processor::process_ACTR`; `ctr` is the value of the uninitialised
local at its declaration. -/
def ca_processor.process_ACTR (mngr : expression_manager) (stmt : complete_statement)
    (ctr : A_t) (p : ca_processor) : Option ca_processor :=
  match prepare_ACTR mngr stmt ctr (register_seq_sym stmt p.state) with
  | none => none
  | some (ok, ctr2, st2) =>
    if ok then
      some { p with state := st2, hlasm_ctx := p.hlasm_ctx.set_branch_counter ctr2 }
    else some { p with state := st2 }

/-- The method `ca_processor::process_AGO` on the processor object. -/
def ca_processor.process_AGO (mngr : expression_manager) (stmt : complete_statement)
    (branch : A_t) (p : ca_processor) : Option ca_processor :=
  (processing.process_AGO mngr stmt branch p.state).map (fun st2 => { p with state := st2 })

/-- The method `ca_processor::process_AIF` on the processor object. -/
def ca_processor.process_AIF (mngr : expression_manager) (stmt : complete_statement)
    (locals : AIF_parameters) (p : ca_processor) : Option ca_processor :=
  (processing.process_AIF mngr stmt locals p.state).map (fun st2 => { p with state := st2 })

/-- The method `ca_processor::process_MACRO`. -/
def ca_processor.process_MACRO (stmt : complete_statement) (p : ca_processor) :
    ca_processor :=
  { p with
    state := register_seq_sym stmt p.state
    started_macro_definitions :=
      p.started_macro_definitions ++ [macrodef_start_data.default] }

/-- The method `ca_processor::process_MEXIT`. -/
def ca_processor.process_MEXIT (stmt : complete_statement) (p : ca_processor) :
    ca_processor :=
  if !p.hlasm_ctx.is_in_macro then
    { p with state := p.state.add_diagnostic (error_E054 stmt.stmt_range) }
  else
    { p with hlasm_ctx := p.hlasm_ctx.leave_macro }

/-- The method `ca_processor::process_MEND`. -/
def ca_processor.process_MEND (stmt : complete_statement) (p : ca_processor) :
    ca_processor :=
  if !p.hlasm_ctx.is_in_macro then
    { p with state := p.state.add_diagnostic (error_E054 stmt.stmt_range) }
  else p

/-- The method `ca_processor::process_AEJECT`, an empty body. -/
def ca_processor.process_AEJECT (_stmt : complete_statement) (p : ca_processor) :
    ca_processor := p

/-- The method `ca_processor::process_ASPACE`, an empty body. -/
def ca_processor.process_ASPACE (_stmt : complete_statement) (p : ca_processor) :
    ca_processor := p

/-- The method `ca_processor::process_AREAD`, an empty body. -/
def ca_processor.process_AREAD (_stmt : complete_statement) (p : ca_processor) :
    ca_processor := p

/-- The method `ca_processor::process_empty`, an empty body. -/
def ca_processor.process_empty (_stmt : complete_statement) (p : ca_processor) :
    ca_processor := p

/-- The instructions whose handlers `create_table` binds to methods defined in
`ca_processor.cpp` (the handlers of `SETx`, `LCLx` and `GBLx` are templates defined
elsewhere). -/
inductive ca_instruction where
  | ANOP
  | ACTR
  | AGO
  | AIF
  | MACRO
  | MEND
  | MEXIT
  | AREAD
  | ASPACE
  | AEJECT
  | empty_instruction
deriving DecidableEq, Repr

/-- The dispatch through the table built by `create_table`: the handler bound to the
instruction, applied to the statement. -/
def ca_processor.process (mngr : expression_manager) (locals : handler_locals)
    (instruction : ca_instruction) (stmt : complete_statement) (p : ca_processor) :
    Option ca_processor :=
  match instruction with
  | .ANOP => p.process_ANOP stmt
  | .ACTR => p.process_ACTR mngr stmt locals.ctr
  | .AGO => p.process_AGO mngr stmt locals.branch
  | .AIF => p.process_AIF mngr stmt locals.aif
  | .MACRO => some (p.process_MACRO stmt)
  | .MEND => some (p.process_MEND stmt)
  | .MEXIT => some (p.process_MEXIT stmt)
  | .AREAD => some (p.process_AREAD stmt)
  | .ASPACE => some (p.process_ASPACE stmt)
  | .AEJECT => some (p.process_AEJECT stmt)
  | .empty_instruction => some (p.process_empty stmt)

/-- A context in opencode: no macro invocation, branch counter 4096, no sequence
symbol, the source at line 3. -/
def opencode_context : context_state where
  this_macro := none
  branch_counter := 4096
  sequence_symbols := []
  current_source := ⟨⟨3, 0⟩, 120, 160, []⟩
  processing_kinds := [.ORDINARY]
  proc_location_file := "OPEN"
  leave_macro_calls := 0

/-- A context inside a macro invocation at its statement 5, whose body holds the
sequence symbol `.LOOP` at offset 2. -/
def in_macro_context : context_state where
  this_macro := some ⟨5, [⟨".LOOP", 2⟩]⟩
  branch_counter := 4096
  sequence_symbols := []
  current_source := ⟨⟨3, 0⟩, 120, 160, []⟩
  processing_kinds := [.ORDINARY]
  proc_location_file := "OPEN"
  leave_macro_calls := 0

/-- A processor object in opencode that has not done anything yet. -/
def opencode_processor : ca_processor := ⟨ca_processor_state.init, opencode_context, []⟩

/-- A processor object inside a macro that has not done anything yet. -/
def in_macro_processor : ca_processor := ⟨ca_processor_state.init, in_macro_context, []⟩

/-- The statement `.L MEND` with a sequence symbol in its label field. -/
def MEND_with_label : complete_statement where
  label_ref := ⟨.SEQ ⟨".L", ⟨⟨1, 0⟩, ⟨1, 2⟩⟩⟩, ⟨⟨1, 0⟩, ⟨1, 2⟩⟩⟩
  instruction_range := ⟨⟨1, 10⟩, ⟨1, 14⟩⟩
  operands := []
  stmt_range := ⟨⟨1, 0⟩, ⟨1, 14⟩⟩

/-- Values of the uninitialised locals of the handlers, for the scenarios. -/
def scenario_locals : handler_locals := ⟨0, 0, AIF_locals⟩

/-- The statement `ACTR -5` of the given label. -/
def ACTR_statement (label : label_si_value) (value : expr_ptr) : complete_statement where
  label_ref := ⟨label, ⟨⟨1, 0⟩, ⟨1, 2⟩⟩⟩
  instruction_range := ⟨⟨1, 10⟩, ⟨1, 14⟩⟩
  operands := [.CA (.EXPR value ⟨⟨1, 16⟩, ⟨1, 18⟩⟩)]
  stmt_range := ⟨⟨1, 0⟩, ⟨1, 18⟩⟩

/-- An expression manager for the scenarios in which the expression with handle `n`
has the value `n - 10`, so that handles name negative values too. -/
def shifted_manager : expression_manager where
  evaluate_expression_tree := fun e => ⟨(e : Int) - 10, .A ((e : Int) - 10)⟩
  concatenate := String.join

/-- The variable symbol of an operand that is a variable reference: `access_ca()`
followed by `access_var()`. -/
def operand.variable (op : operand) : Option var_sym :=
  op.access_ca.bind ca_operand.access_var

/-- The statement `LCLA &A(10)`, whose operand carries a subscript. -/
def LCLA_with_subscript : complete_statement where
  label_ref := ⟨.EMPTY, ⟨⟨1, 0⟩, ⟨1, 0⟩⟩⟩
  instruction_range := ⟨⟨1, 10⟩, ⟨1, 14⟩⟩
  operands := [.CA (.VAR 0 ⟨.basic "A", [10], ⟨⟨1, 16⟩, ⟨1, 22⟩⟩⟩ ⟨⟨1, 16⟩, ⟨1, 22⟩⟩)]
  stmt_range := ⟨⟨1, 0⟩, ⟨1, 22⟩⟩

/-- The statement `LCLA &X,&B,&B` in the context of scenario S2, where `X` is bound. -/
def LCLA_with_collisions : complete_statement where
  label_ref := ⟨.EMPTY, ⟨⟨1, 0⟩, ⟨1, 0⟩⟩⟩
  instruction_range := ⟨⟨1, 10⟩, ⟨1, 14⟩⟩
  operands := [.CA (.VAR 0 ⟨.basic "X", [], ⟨⟨1, 16⟩, ⟨1, 18⟩⟩⟩ ⟨⟨1, 16⟩, ⟨1, 18⟩⟩),
    .CA (.VAR 0 ⟨.basic "B", [], ⟨⟨1, 19⟩, ⟨1, 21⟩⟩⟩ ⟨⟨1, 19⟩, ⟨1, 21⟩⟩),
    .CA (.VAR 0 ⟨.basic "B", [], ⟨⟨1, 22⟩, ⟨1, 24⟩⟩⟩ ⟨⟨1, 22⟩, ⟨1, 24⟩⟩)]
  stmt_range := ⟨⟨1, 0⟩, ⟨1, 24⟩⟩

/-! ## `processing_manager` -/

/-- Factory `diagnostic_op::error_E045(name, range)`. -/
def error_E045 (name : String) (rng : range) : diagnostic_op := ⟨"E045", name, rng⟩

/-- Factory `diagnostic_op::error_E047(name, range)`. -/
def error_E047 (name : String) (rng : range) : diagnostic_op := ⟨"E047", name, rng⟩

/-- The accessor `sequence_symbol::access_opencode_symbol()`; `none` is the null
pointer. -/
def sequence_symbol.access_opencode_symbol : sequence_symbol → Option opencode_sequence_symbol
  | .OPENCODE symbol => some symbol
  | .MACRO _ => none

/-- Kind of a statement provider, `statement_provider_kind`. -/
inductive statement_provider_kind where
  | MACRO
  | COPY
  | OPEN
deriving DecidableEq, Repr

/-- Statement provider as the manager sees it: its kind and the answer of
`finished()`. -/
structure statement_provider where
  kind : statement_provider_kind
  finished : Bool
deriving DecidableEq, Repr

/-- Data to start the lookahead processor, `lookahead_start_data`: for a sequence symbol
(target, its range, the position and the snapshot to come back to) or for forward
references of ordinary symbols. -/
inductive lookahead_start_data where
  | SEQ (target : id_index) (target_range : range) (statement_position : source_position)
      (snapshot : source_snapshot)
  | ORD (references : List id_index)
deriving DecidableEq, Repr

/-- Result of the lookahead processor, `lookahead_processing_result`. -/
structure lookahead_processing_result where
  success : Bool
  symbol_name : id_index
  symbol_range : range
  statement_position : source_position
  snapshot : source_snapshot
deriving DecidableEq, Repr

/-- Data to start the copy processor, `copy_start_data`. -/
structure copy_start_data where
  member : id_index
deriving DecidableEq, Repr

/-- The statement processors that the manager creates, with their start data. -/
inductive statement_processor where
  | ordinary_processor
  | copy_processor (start : copy_start_data)
  | macrodef_processor (start : macrodef_start_data)
  | lookahead_processor (start : lookahead_start_data)
  | empty_processor
deriving DecidableEq, Repr

/-- The calls that the manager makes on its collaborators, and the diagnostics it adds,
in the order in which they happen: `opencode_prov_.rewind_input(position)`,
`provider.process_next(processor)` on the provider of the given kind, and
`add_diagnostic(d)`; further `processor.end_processing()`,
`collect_diags_from_child(processor)`, `hlasm_ctx_.add_macro(name, ...)`,
`hlasm_ctx_.add_copy_member(name, definition, ...)`, the call of `add_ord_sym_defs()` at
the end of `start_processing`, and `opencode_prov_.push_line_end()`. -/
inductive manager_event where
  | rewind_input (statement_position : source_position)
  | process_next (provider : statement_provider_kind) (processor : statement_processor)
  | add_diagnostic (d : diagnostic_op)
  | end_processing (processor : statement_processor)
  | collect_diags_from_child (processor : statement_processor)
  | add_macro_definition (macro_name : id_index)
  | add_copy_member (member_name : id_index) (definition : List complete_statement)
  | add_ord_sym_defs
  | push_line_end
deriving DecidableEq, Repr

/-- The manager `processing_manager`: the context `hlasm_ctx_`, the providers `provs_`
(the opencode provider is the last one), the processor stack `procs_` (its back is the
last element), and the events so far. -/
structure processing_manager where
  hlasm_ctx : context_state
  provs : List statement_provider
  procs : List statement_processor
  events : List manager_event
deriving DecidableEq, Repr

/-- The diagnostics added by the manager so far. -/
def processing_manager.diags (m : processing_manager) : List diagnostic_op :=
  m.events.filterMap (fun ev => match ev with
    | .add_diagnostic d => some d
    | _ => none)

/-- The call `add_diagnostic(d)` of the manager. -/
def processing_manager.add_diagnostic (m : processing_manager) (d : diagnostic_op) :
    processing_manager :=
  { m with events := m.events ++ [.add_diagnostic d] }

/-- The method `processing_manager::find_provider`: the first provider that is not
finished, else the last provider; `none` stands for `provs_.back()` of an empty list. -/
def processing_manager.find_provider (m : processing_manager) : Option statement_provider :=
  match m.provs.find? (fun prov => !prov.finished) with
  | some prov => some prov
  | none => m.provs.getLast?

/-- The method `processing_manager::perform_opencode_jump`. The function `rewind_input`
is the effect of `opencode_provider::rewind_input`, whose body is not among the
sources, on the opencode provider, the last provider of the manager. -/
def processing_manager.perform_opencode_jump
    (rewind_input : statement_provider → source_position → statement_provider)
    (m : processing_manager) (statement_position : source_position)
    (snapshot : source_snapshot) : processing_manager :=
  { m with
    provs :=
      (match m.provs.getLast? with
      | some opencode_prov => m.provs.dropLast ++ [rewind_input opencode_prov statement_position]
      | none => m.provs)
    events := m.events ++ [.rewind_input statement_position]
    hlasm_ctx := m.hlasm_ctx.apply_source_snapshot snapshot }

/-- The method `processing_manager::create_opencode_sequence_symbol`; the name `none`
is the null `id_index`. -/
def processing_manager.create_opencode_sequence_symbol (m : processing_manager)
    (name : Option id_index) (symbol_range : range) : opencode_sequence_symbol :=
  let symbol_pos := symbol_range.start
  let loc : location := ⟨symbol_pos, m.hlasm_ctx.proc_location_file⟩
  let statement_position : source_position :=
    if m.hlasm_ctx.current_source.copy_stack.isEmpty then
      ⟨m.hlasm_ctx.current_source.source_status_pos.line,
        m.hlasm_ctx.current_source.begin_index⟩
    else
      ⟨m.hlasm_ctx.current_source.source_status_pos.line + 1,
        m.hlasm_ctx.current_source.end_index⟩
  let snapshot := m.hlasm_ctx.current_source.create_snapshot
  ⟨name, loc, statement_position, snapshot⟩

/-- The method `processing_manager::start_lookahead`. -/
def processing_manager.start_lookahead (m : processing_manager)
    (start : lookahead_start_data) : processing_manager :=
  { m with
    hlasm_ctx := m.hlasm_ctx.push_statement_processing processing_kind.LOOKAHEAD
    procs := m.procs ++ [statement_processor.lookahead_processor start] }

/-- The default-constructed `range()`. -/
def range_default : range := ⟨⟨0, 0⟩, ⟨0, 0⟩⟩

/-- The method `processing_manager::jump_in_statements`; `none` is the failed
`assert(hlasm_ctx_.is_in_macro())`. -/
def processing_manager.jump_in_statements
    (rewind_input : statement_provider → source_position → statement_provider)
    (m : processing_manager) (target : id_index) (symbol_range : range) :
    Option processing_manager :=
  match m.hlasm_ctx.get_sequence_symbol target with
  | none =>
    if m.hlasm_ctx.is_in_macro then
      some (m.add_diagnostic (error_E047 target symbol_range))
    else
      let open_symbol := m.create_opencode_sequence_symbol none range_default
      some (m.start_lookahead
        (.SEQ target symbol_range open_symbol.statement_position open_symbol.snapshot))
  | some symbol =>
    match symbol with
    | .MACRO macro_symbol =>
      if m.hlasm_ctx.is_in_macro then
        some { m with hlasm_ctx :=
          (m.hlasm_ctx.set_current_statement
            macro_symbol.statement_offset).decrement_branch_counter }
      else none
    | .OPENCODE opencode_symbol =>
      let m1 := m.perform_opencode_jump rewind_input opencode_symbol.statement_position
        opencode_symbol.snapshot
      some { m1 with hlasm_ctx := m1.hlasm_ctx.decrement_branch_counter }

/-- The method `processing_manager::register_sequence_symbol`; `none` is the dereference
of a null `access_opencode_symbol()`. -/
def processing_manager.register_sequence_symbol (m : processing_manager)
    (target : id_index) (symbol_range : range) : Option processing_manager :=
  if m.hlasm_ctx.is_in_macro then some m
  else
    let symbol := m.hlasm_ctx.get_sequence_symbol target
    let new_symbol := m.create_opencode_sequence_symbol (some target) symbol_range
    match symbol with
    | none => some { m with hlasm_ctx := m.hlasm_ctx.add_sequence_symbol new_symbol }
    | some stored =>
      match stored.access_opencode_symbol with
      | none => none
      | some opencode_symbol =>
        if !(opencode_symbol.same new_symbol) then
          some (m.add_diagnostic (error_E045 target symbol_range))
        else some m

/-- The collaborators of the manager whose bodies are not among the sources, taken as
parameters. `rewind_input` and `push_line_end` are the effects of these methods on the
opencode provider; `terminal_condition` and `finished` are the answers of the processor,
which may depend on everything that has happened so far; `process_next` and
`end_processing` are the effects of these calls on the manager, into which the
processors call back; `collect_found_refereces` is the result that the lookahead
processor hands out. -/
structure manager_collaborators where
  rewind_input : statement_provider → source_position → statement_provider
  push_line_end : statement_provider → statement_provider
  terminal_condition : processing_manager → statement_processor → statement_provider_kind →
    Bool
  finished : processing_manager → statement_processor → Bool
  process_next : processing_manager → statement_provider → statement_processor →
    processing_manager
  end_processing : processing_manager → statement_processor → processing_manager
  collect_found_refereces : processing_manager → statement_processor → List id_index

/-- The call `prov.process_next(proc)` made by the manager: the call is recorded, then
it has its effect. -/
def processing_manager.process_next (env : manager_collaborators) (m : processing_manager)
    (prov : statement_provider) (proc : statement_processor) : processing_manager :=
  env.process_next { m with events := m.events ++ [.process_next prov.kind proc] } prov proc

/-- The method `processing_manager::finish_lookahead`; `none` is a failed assertion or
`find_provider` on a manager without providers. The call
`find_provider().process_next(tmp)` is made with the empty processor `tmp` and has its
effect on the manager. -/
def processing_manager.finish_lookahead (env : manager_collaborators)
    (m : processing_manager) (result : lookahead_processing_result) :
    Option processing_manager :=
  if result.success then
    m.jump_in_statements env.rewind_input result.symbol_name result.symbol_range
  else
    let m1 := m.perform_opencode_jump env.rewind_input result.statement_position
      result.snapshot
    match m1.find_provider with
    | none => none
    | some prov =>
      let m2 := m1.process_next env prov statement_processor.empty_processor
      some (m2.add_diagnostic (error_E047 result.symbol_name result.symbol_range))

/-- The effect of `rewind_input` used in the scenarios: the opencode provider has input
again. -/
def rewind_scenario (prov : statement_provider) (_statement_position : source_position) :
    statement_provider :=
  { prov with finished := false }

/-- The providers of a manager built for ordinary processing, none finished. -/
def ordinary_providers : List statement_provider :=
  [⟨.MACRO, true⟩, ⟨.COPY, true⟩, ⟨.OPEN, false⟩]

/-- A manager in opencode with the ordinary processor on its stack. -/
def opencode_manager : processing_manager :=
  ⟨opencode_context, ordinary_providers, [.ordinary_processor], []⟩

/-- A manager inside a macro invocation. -/
def in_macro_manager : processing_manager :=
  ⟨in_macro_context, ordinary_providers, [.ordinary_processor], []⟩

/-- The opencode sequence symbol created for `.L` at line 3 of the opencode context. -/
def S6_first_symbol : opencode_sequence_symbol :=
  opencode_manager.create_opencode_sequence_symbol (some ".L") ⟨⟨3, 0⟩, ⟨3, 2⟩⟩

/-- Scenario S6 after the first `.L ANOP`: `.L` is stored and the source has moved on to
line 4. -/
def S6_manager : processing_manager :=
  { opencode_manager with
    hlasm_ctx :=
      { opencode_context with
        sequence_symbols := [S6_first_symbol]
        current_source := ⟨⟨4, 0⟩, 160, 200, []⟩ } }

/-- A failed lookahead for `.LATER`, started at line 3. -/
def failed_lookahead : lookahead_processing_result :=
  ⟨false, ".LATER", ⟨⟨3, 16⟩, ⟨3, 22⟩⟩, ⟨3, 120⟩, opencode_context.current_source.create_snapshot⟩

/-- The statement `AGO 5,.A`, whose first operand is a plain expression. -/
def AGO_with_expression : complete_statement where
  label_ref := ⟨.EMPTY, ⟨⟨1, 0⟩, ⟨1, 0⟩⟩⟩
  instruction_range := ⟨⟨1, 10⟩, ⟨1, 13⟩⟩
  operands := [.CA (.EXPR 5 ⟨⟨1, 16⟩, ⟨1, 17⟩⟩),
    .CA (.SEQ ⟨".A", ⟨⟨1, 18⟩, ⟨1, 20⟩⟩⟩ ⟨⟨1, 18⟩, ⟨1, 20⟩⟩)]
  stmt_range := ⟨⟨1, 0⟩, ⟨1, 20⟩⟩

/-- The statement `.L AIF (1).A,5`: a branch operand whose condition is true, followed
by a plain expression. -/
def AIF_true_then_expression : complete_statement where
  label_ref := ⟨.SEQ ⟨".L", ⟨⟨1, 0⟩, ⟨1, 2⟩⟩⟩, ⟨⟨1, 0⟩, ⟨1, 2⟩⟩⟩
  instruction_range := ⟨⟨1, 10⟩, ⟨1, 13⟩⟩
  operands := branch_operands [(1, ⟨".A", ⟨⟨1, 19⟩, ⟨1, 21⟩⟩⟩, ⟨⟨1, 16⟩, ⟨1, 21⟩⟩)]
    ++ [.CA (.EXPR 5 ⟨⟨1, 22⟩, ⟨1, 23⟩⟩)]
  stmt_range := ⟨⟨1, 0⟩, ⟨1, 23⟩⟩

/-! ## `processing_manager`: construction and the drive loop -/

/-- Data of the analysed file, `library_data`: the kind of processing and the name of
the library member. -/
structure library_data where
  proc_kind : processing_kind
  library_member : id_index
deriving DecidableEq, Repr

/-- The constructor `macrodef_start_data(external_name)`. -/
def macrodef_start_data.of_name (external_name : id_index) : macrodef_start_data :=
  ⟨true, external_name⟩

/-- The constructor `processing_manager::processing_manager`. `base_provider` is the
opencode provider given to it; `macro_provider` and `copy_provider` are the objects made
by `make_unique<macro_statement_provider>` and `make_unique<copy_statement_provider>`,
whose classes are not among the sources. -/
def processing_manager.construct (base_provider : statement_provider)
    (hlasm_ctx : context_state) (data : library_data)
    (macro_provider copy_provider : statement_provider) : processing_manager :=
  let start : List statement_provider × List statement_processor :=
    match data.proc_kind with
    | .ORDINARY => ([macro_provider], [.ordinary_processor])
    | .COPY => ([], [.copy_processor ⟨data.library_member⟩])
    | .MACRO =>
      ([], [.macrodef_processor (macrodef_start_data.of_name data.library_member)])
    | _ => ([], [])
  ⟨hlasm_ctx, start.1 ++ [copy_provider, base_provider], start.2, []⟩

/-- The method `processing_manager::finish_processor`; each of its three statements
takes `procs_.back()` anew, and `none` is `back()` on an empty stack. -/
def processing_manager.finish_processor (env : manager_collaborators)
    (m : processing_manager) : Option processing_manager :=
  match m.procs.getLast? with
  | none => none
  | some proc =>
    let m1 := env.end_processing { m with events := m.events ++ [.end_processing proc] } proc
    match m1.procs.getLast? with
    | none => none
    | some back =>
      some { m1 with
        events := m1.events ++ [.collect_diags_from_child back]
        procs := m1.procs.dropLast }

/-- The method `processing_manager::start_macro_definition`. -/
def processing_manager.start_macro_definition (m : processing_manager)
    (start : macrodef_start_data) : processing_manager :=
  { m with
    hlasm_ctx := m.hlasm_ctx.push_statement_processing processing_kind.MACRO
    procs := m.procs ++ [statement_processor.macrodef_processor start] }

/-- Result of the macro-definition processor as far as the manager reads it:
`result.invalid` and the name of the macro, the first argument of `add_macro`. -/
structure macrodef_processing_result where
  invalid : Bool
  macro_name : id_index
deriving DecidableEq, Repr

/-- The method `processing_manager::finish_macro_definition`. -/
def processing_manager.finish_macro_definition (m : processing_manager)
    (result : macrodef_processing_result) : processing_manager :=
  if !result.invalid then
    { m with events := m.events ++ [.add_macro_definition result.macro_name] }
  else m

/-- The method `processing_manager::start_copy_member`. -/
def processing_manager.start_copy_member (m : processing_manager)
    (start : copy_start_data) : processing_manager :=
  { m with procs := m.procs ++ [statement_processor.copy_processor start] }

/-- Result of the copy processor, `copy_processing_result`. -/
structure copy_processing_result where
  member_name : id_index
  invalid_member : Bool
  definition : List complete_statement
deriving DecidableEq, Repr

/-- The method `processing_manager::finish_copy_member`. -/
def processing_manager.finish_copy_member (m : processing_manager)
    (result : copy_processing_result) : processing_manager :=
  { m with events := m.events ++
      [.add_copy_member result.member_name
        (if result.invalid_member then [] else result.definition)] }

/-- Record of the call of `processing_manager::add_ord_sym_defs`; its body works on the
tables of `lsp_ctx` only, which no other method of the manager reads. -/
def processing_manager.add_ord_sym_defs (m : processing_manager) : processing_manager :=
  { m with events := m.events ++ [.add_ord_sym_defs] }

/-- The body of the loop of `processing_manager::start_processing` after the test of
the cancellation flag; `none` is `back()` on an empty list. -/
def processing_manager.start_processing_iteration (env : manager_collaborators)
    (m : processing_manager) : Option processing_manager :=
  match m.procs.getLast?, m.find_provider with
  | some proc, some prov =>
    if (prov.finished && env.terminal_condition m proc prov.kind) || env.finished m proc then
      m.finish_processor env
    else some (m.process_next env prov proc)
  | _, _ => none

/-- The loop of `processing_manager::start_processing`. The flag `cancel` is `none` for
the null pointer; the flag is atomic and may be changed from outside at any time, so it
is given by the values of its successive reads, and `reads` counts the reads made so
far. The first argument bounds the number of iterations. The result is the manager at
the end of the loop and the number of reads. -/
def processing_manager.start_processing_loop (env : manager_collaborators)
    (cancel : Option (Nat → Bool)) :
    Nat → Nat → processing_manager → Option (processing_manager × Nat)
  | 0, _, _ => none
  | fuel + 1, reads, m =>
    if m.procs.isEmpty then some (m, reads)
    else
      match cancel with
      | some flag =>
        if flag reads then some (m, reads + 1)
        else
          match m.start_processing_iteration env with
          | none => none
          | some m2 =>
            processing_manager.start_processing_loop env cancel fuel (reads + 1) m2
      | none =>
        match m.start_processing_iteration env with
        | none => none
        | some m2 => processing_manager.start_processing_loop env cancel fuel reads m2

/-- The method `processing_manager::start_processing`: the loop, then the test
`!cancel || !*cancel`, which reads the flag once more. -/
def processing_manager.start_processing (env : manager_collaborators)
    (cancel : Option (Nat → Bool)) (fuel : Nat) (m : processing_manager) :
    Option processing_manager :=
  match processing_manager.start_processing_loop env cancel fuel 0 m with
  | none => none
  | some (m1, reads) =>
    match cancel with
    | none => some m1.add_ord_sym_defs
    | some flag => if !flag reads then some m1.add_ord_sym_defs else some m1

/-- The manager after `n` full iterations of the loop of `start_processing`; `none` when
the processor stack is empty before that, or an iteration fails. -/
def processing_manager.iterations (env : manager_collaborators) :
    Nat → processing_manager → Option processing_manager
  | 0, m => some m
  | n + 1, m =>
    if m.procs.isEmpty then none
    else
      match m.start_processing_iteration env with
      | none => none
      | some m2 => processing_manager.iterations env n m2

/-! ## `processing_manager`: attribute lookahead -/

/-- The statement `++snapshot.copy_frames.back().statement_offset`. -/
def source_snapshot.increment_back_offset (snapshot : source_snapshot) : source_snapshot :=
  match snapshot.copy_frames.getLast? with
  | some frame =>
    { snapshot with copy_frames :=
        snapshot.copy_frames.dropLast ++ [⟨frame.copy_member, frame.statement_offset + 1⟩] }
  | none => snapshot

/-- The call `opencode_prov_.push_line_end()`; the opencode provider is the last
provider of the manager. -/
def processing_manager.push_line_end (env : manager_collaborators)
    (m : processing_manager) : processing_manager :=
  { m with
    provs :=
      (match m.provs.getLast? with
      | some opencode_prov => m.provs.dropLast ++ [env.push_line_end opencode_prov]
      | none => m.provs)
    events := m.events ++ [.push_line_end] }

/-- One iteration of the `while (true)` loop of `lookup_forward_attribute_references`
for the lookahead processor `proc`. The providers are taken from the end of `provs_`:
`**(provs_.end() - 1)` and `**(provs_.end() - 2)`; `none` is an access outside the list,
`some none` is the `break`, and `some (some m2)` is the manager after `process_next`. -/
def processing_manager.lookup_iteration (env : manager_collaborators)
    (proc : statement_processor) (m : processing_manager) :
    Option (Option processing_manager) :=
  match m.provs.reverse with
  | opencode_prov :: copy_prov :: _ =>
    let prov := if !copy_prov.finished then copy_prov else opencode_prov
    if prov.finished || env.finished m proc then some none
    else some (some (m.process_next env prov proc))
  | _ => none

/-- The `while (true)` loop of `lookup_forward_attribute_references`; the first argument
bounds the number of iterations. -/
def processing_manager.lookup_loop (env : manager_collaborators)
    (proc : statement_processor) : Nat → processing_manager → Option processing_manager
  | 0, _ => none
  | fuel + 1, m =>
    match m.lookup_iteration env proc with
    | none => none
    | some none => some m
    | some (some m2) => processing_manager.lookup_loop env proc fuel m2

/-- The local `snapshot` of `lookup_forward_attribute_references` as it is given to
`perform_opencode_jump`: the snapshot made by `create_snapshot()`, with the statement
offset of its last COPY frame incremented when it has COPY frames. -/
def processing_manager.lookahead_snapshot (m : processing_manager) : source_snapshot :=
  let created := m.hlasm_ctx.current_source.create_snapshot
  if !created.copy_frames.isEmpty then created.increment_back_offset else created

/-- The method `processing_manager::lookup_forward_attribute_references`: the manager
at the return and the returned references. -/
def processing_manager.lookup_forward_attribute_references (env : manager_collaborators)
    (fuel : Nat) (m : processing_manager) (references : List id_index) :
    Option (processing_manager × List id_index) :=
  if references.isEmpty then some (m, [])
  else
    let proc := statement_processor.lookahead_processor (.ORD references)
    let snapshot := m.lookahead_snapshot
    let statement_position : source_position :=
      ⟨m.hlasm_ctx.current_source.source_status_pos.line + 1,
        m.hlasm_ctx.current_source.end_index⟩
    let m1 := m.push_line_end env
    match processing_manager.lookup_loop env proc fuel m1 with
    | none => none
    | some m2 =>
      let m3 := m2.perform_opencode_jump env.rewind_input statement_position snapshot
      some (m3, env.collect_found_refereces m3 proc)

/-! ## Scenarios of the manager -/

/-- Collaborators for the scenarios: a call of `process_next` uses up the provider it
is made on, no processor reports `finished()` by itself, and every processor accepts
the end of every provider as its terminal condition. -/
def draining_collaborators : manager_collaborators where
  rewind_input := rewind_scenario
  push_line_end := fun prov => prov
  terminal_condition := fun _ _ _ => true
  finished := fun _ _ => false
  process_next := fun m prov _ =>
    { m with provs := m.provs.map (fun p =>
        if p.kind = prov.kind then { p with finished := true } else p) }
  end_processing := fun m _ => m
  collect_found_refereces := fun _ _ => []

/-- A manager in opencode whose source is inside the COPY member `MEMBER`, at its
statement 3. -/
def in_copy_manager : processing_manager :=
  { opencode_manager with
    hlasm_ctx :=
      { opencode_context with current_source := ⟨⟨3, 0⟩, 120, 160, [⟨"MEMBER", 3⟩]⟩ } }

end processing

/-! # Theorems -/

namespace checking

/-- Ceiling of a half, as natural-number division. -/
theorem ceil_half (n : ℕ) : ⌈((n : ℕ) : ℚ) / 2⌉₊ = (n + 1) / 2 := by
  rcases Nat.even_or_odd' n with ⟨k, rfl | rfl⟩
  · have h : (((2 * k : ℕ) : ℚ)) / 2 = ((k : ℕ) : ℚ) := by push_cast; ring
    rw [h, Nat.ceil_natCast]; omega
  · have h2 : (2 * k + 1 + 1) / 2 = k + 1 := by omega
    rw [h2, Nat.ceil_eq_iff (by omega)]
    constructor
    · simp only [Nat.add_sub_cancel]; push_cast; rw [lt_div_iff₀ (by norm_num)]; linarith
    · push_cast; rw [div_le_iff₀ (by norm_num)]; linarith

theorem pieces_sum_one (L : List (List Char)) :
    pieces_sum 1 L = (L.map (fun q => (1 + digit_count q + 1) / 2)).sum := by
  cases L <;> simp [pieces_sum]

theorem digit_count_cons (c : Char) (p : List Char) :
    digit_count (c :: p) = (if is_digit c then 1 else 0) + digit_count p := by
  unfold digit_count is_digit
  by_cases h : ('0' ≤ c ∧ c ≤ '9')
  · simp [List.filter_cons, h]; omega
  · simp [List.filter_cons, h]

theorem P_loop_eq (s : List Char) : ∀ b h : Nat,
    get_nominal_length_P_loop s b h = b + pieces_sum h (s.splitOn ',') := by
  induction s with
  | nil => intro b h; simp [get_nominal_length_P_loop, List.splitOn, pieces_sum, digit_count]
  | cons c cs ih =>
    intro b h
    have hne : cs.splitOn ',' ≠ [] := by
      unfold List.splitOn; exact List.splitOnP_ne_nil _ _
    unfold List.splitOn at *
    rw [List.splitOnP_cons]
    by_cases hc : c = ','
    · subst hc
      have h1 : get_nominal_length_P_loop (',' :: cs) b h
          = get_nominal_length_P_loop cs (b + (h + 1) / 2) 1 := by
        simp [get_nominal_length_P_loop]
      rw [h1, ih, pieces_sum_one]
      simp [pieces_sum, digit_count]
      omega
    · obtain ⟨p, ps, hL⟩ := List.exists_cons_of_ne_nil hne
      simp only [get_nominal_length_P_loop, hc, if_false, beq_iff_eq, hL, List.modifyHead]
      by_cases hd : is_digit c = true
      · simp [hd, ih, hL, pieces_sum, digit_count_cons]; omega
      · simp [hd, ih, hL, pieces_sum, digit_count_cons]

theorem splitOn_comma_length (s : List Char) :
    (s.splitOn ',').length = s.count ',' + 1 := by
  unfold List.splitOn
  induction s with
  | nil => simp
  | cons c cs ih =>
    rw [List.splitOnP_cons]
    by_cases hc : c = ','
    · subst hc; simp [ih]
    · have h2 : (c == ',') = false := by simpa using hc
      simp [h2, ih, List.count_cons, hc]

theorem packed_spec_eq (s : List Char) :
    ((s.splitOn ',').map (fun piece => ⌈((digit_count piece + 1 : ℕ) : ℚ) / 2⌉₊)).sum
      = pieces_sum 1 (s.splitOn ',') := by
  rw [pieces_sum_one]
  congr 1
  apply List.map_congr_left
  intro q _
  rw [ceil_half]; congr 1; omega

theorem P_string (s : String) (rng : range) :
    data_def_type_P.get_nominal_length (string_nominal s rng) = some (packed_length_spec s) := by
  unfold packed_length_spec
  rw [packed_spec_eq]
  simp [data_def_type_P.get_nominal_length, string_nominal, std_get_string, P_loop_eq]

/-- C1: for the packed type P an absent nominal value has length 1; a present nominal
string has the length given by splitting it at every comma (number of commas + 1 pieces,
empty pieces included) and adding `ceil((d + 1) / 2)` over the pieces, `d` being the
number of decimal digits of the piece, so that non-digit characters add nothing;
`12345` gives 3 and `12,-345` gives 4. -/
theorem C1_packed_nominal_length :
    (∀ v rng, data_def_type_P.get_nominal_length (absent_nominal v rng) = some 1) ∧
    (∀ s rng, data_def_type_P.get_nominal_length (string_nominal s rng)
        = some (((s.data.splitOn ',').map
            (fun piece => ⌈((digit_count piece + 1 : ℕ) : ℚ) / 2⌉₊)).sum)) ∧
    (∀ s : String, (s.data.splitOn ',').length = s.data.count ',' + 1) ∧
    (∀ rng, data_def_type_P.get_nominal_length (string_nominal "12345" rng) = some 3) ∧
    (∀ rng, data_def_type_P.get_nominal_length (string_nominal "12,-345" rng) = some 4) := by
  refine ⟨?_, ?_, ?_, ?_, ?_⟩
  · intro v rng; simp [data_def_type_P.get_nominal_length, absent_nominal]
  · intro s rng; exact P_string s rng
  · intro s; exact splitOn_comma_length s.data
  · intro rng
    simp only [data_def_type_P.get_nominal_length, string_nominal, std_get_string]
    decide
  · intro rng
    simp only [data_def_type_P.get_nominal_length, string_nominal, std_get_string]
    decide

theorem countP_is_digit (s : List Char) : s.countP is_digit = digit_count s := by
  unfold digit_count
  rw [List.countP_eq_length_filter]
  rfl

theorem Z_string (s : String) (rng : range) :
    data_def_type_Z.get_nominal_length (string_nominal s rng) = some (digit_count s.data) := by
  simp [data_def_type_Z.get_nominal_length, string_nominal, std_get_string, countP_is_digit]

/-- C2: for the zoned type Z an absent nominal value has length 1; a present nominal
string has as length its number of decimal-digit characters, every other character
(comma, sign, anything else) contributing 0: inserting such a character anywhere does
not change the length; `12345` gives 5. -/
theorem C2_zoned_nominal_length :
    (∀ v rng, data_def_type_Z.get_nominal_length (absent_nominal v rng) = some 1) ∧
    (∀ s rng, data_def_type_Z.get_nominal_length (string_nominal s rng)
        = some (s.data.filter (fun c => decide ('0' ≤ c ∧ c ≤ '9'))).length) ∧
    (∀ (a b : List Char) (c : Char) rng, ¬ ('0' ≤ c ∧ c ≤ '9') →
        data_def_type_Z.get_nominal_length (string_nominal ⟨a ++ c :: b⟩ rng)
          = data_def_type_Z.get_nominal_length (string_nominal ⟨a ++ b⟩ rng)) ∧
    (∀ rng, data_def_type_Z.get_nominal_length (string_nominal "12345" rng) = some 5) := by
  refine ⟨?_, ?_, ?_, ?_⟩
  · intro v rng; simp [data_def_type_Z.get_nominal_length, absent_nominal]
  · intro s rng; exact Z_string s rng
  · intro a b c rng hc
    rw [Z_string, Z_string]
    simp [digit_count, List.filter_cons, hc]
  · intro rng
    simp only [data_def_type_Z.get_nominal_length, string_nominal, std_get_string]
    decide

/-- Witness of C2 at the character `-` inserted into `12345`. -/
theorem C2_zoned_nominal_length_witness :
    data_def_type_Z.get_nominal_length (string_nominal ⟨['1', '2'] ++ '-' :: ['3']⟩ ⟨⟨0, 0⟩, ⟨0, 0⟩⟩)
      = data_def_type_Z.get_nominal_length (string_nominal ⟨['1', '2'] ++ ['3']⟩ ⟨⟨0, 0⟩, ⟨0, 0⟩⟩) :=
  C2_zoned_nominal_length.2.2.1 ['1', '2'] ['3'] '-' ⟨⟨0, 0⟩, ⟨0, 0⟩⟩ (by decide)

theorem P_loop_append_comma (a b : List Char) : ∀ x h : Nat,
    get_nominal_length_P_loop (a ++ ',' :: b) x h
      = get_nominal_length_P_loop a x h + get_nominal_length_P_loop b 0 1 := by
  induction a with
  | nil =>
    intro x h
    simp only [List.nil_append, get_nominal_length_P_loop, if_true]
    rw [P_loop_eq b (x + (h + 1) / 2) 1, P_loop_eq b 0 1]; omega
  | cons c cs ih =>
    intro x h
    simp only [List.cons_append, get_nominal_length_P_loop]
    split_ifs <;> exact ih _ _

theorem P_additive (a b : String) (rng : range) :
    data_def_type_P.get_nominal_length (string_nominal (a ++ "," ++ b) rng)
      = some (get_nominal_length_P_loop a.data 0 1 + get_nominal_length_P_loop b.data 0 1) := by
  simp [data_def_type_P.get_nominal_length, string_nominal, std_get_string, P_loop_append_comma]

theorem Z_additive (a b : String) (rng : range) :
    data_def_type_Z.get_nominal_length (string_nominal (a ++ "," ++ b) rng)
      = some (a.data.countP is_digit + b.data.countP is_digit) := by
  simp [data_def_type_Z.get_nominal_length, string_nominal, std_get_string, List.countP_cons]
  decide

theorem P_join (rng : range) (l : List String) : ∀ acc : String,
    data_def_type_P.get_nominal_length (string_nominal (String.intercalate.go acc "," l) rng)
      = some (((acc :: l).map (fun x => get_nominal_length_P_loop x.data 0 1)).sum) := by
  induction l with
  | nil => intro acc; simp [String.intercalate.go, data_def_type_P.get_nominal_length, string_nominal, std_get_string]
  | cons x xs ih =>
    intro acc
    simp only [String.intercalate.go]
    rw [ih (acc ++ "," ++ x)]
    have h := P_additive acc x rng
    simp only [data_def_type_P.get_nominal_length, string_nominal, std_get_string] at h
    simp at h
    simp [h]; omega

theorem Z_join (rng : range) (l : List String) : ∀ acc : String,
    data_def_type_Z.get_nominal_length (string_nominal (String.intercalate.go acc "," l) rng)
      = some (((acc :: l).map (fun x => x.data.countP is_digit)).sum) := by
  induction l with
  | nil => intro acc; simp [String.intercalate.go, data_def_type_Z.get_nominal_length, string_nominal, std_get_string]
  | cons x xs ih =>
    intro acc
    simp only [String.intercalate.go]
    rw [ih (acc ++ "," ++ x)]
    have h := Z_additive acc x rng
    simp only [data_def_type_Z.get_nominal_length, string_nominal, std_get_string] at h
    simp at h
    simp [h]; omega

theorem P_present (s : String) (rng : range) :
    data_def_type_P.get_nominal_length (string_nominal s rng)
      = some (get_nominal_length_P_loop s.data 0 1) := by
  simp [data_def_type_P.get_nominal_length, string_nominal, std_get_string]

theorem Z_present (s : String) (rng : range) :
    data_def_type_Z.get_nominal_length (string_nominal s rng)
      = some (s.data.countP is_digit) := by
  simp [data_def_type_Z.get_nominal_length, string_nominal, std_get_string]

/-- C3: the nominal length is additive over comma lists for the types P and Z: the
length of `a,b` is the length of `a` plus the length of `b`, and the length of a
non-empty comma-joined list is the sum of the lengths of its members (for all member
strings, in particular for comma-free ones). -/
theorem C3_length_additive_over_commas :
    (∀ (a b : String) (rng : range), ∃ x y : Nat,
        data_def_type_P.get_nominal_length (string_nominal a rng) = some x ∧
        data_def_type_P.get_nominal_length (string_nominal b rng) = some y ∧
        data_def_type_P.get_nominal_length (string_nominal (a ++ "," ++ b) rng) = some (x + y)) ∧
    (∀ (a b : String) (rng : range), ∃ x y : Nat,
        data_def_type_Z.get_nominal_length (string_nominal a rng) = some x ∧
        data_def_type_Z.get_nominal_length (string_nominal b rng) = some y ∧
        data_def_type_Z.get_nominal_length (string_nominal (a ++ "," ++ b) rng) = some (x + y)) ∧
    (∀ (a : String) (l : List String) (rng : range), ∃ lens : List Nat,
        (a :: l).map (fun x => data_def_type_P.get_nominal_length (string_nominal x rng))
          = lens.map some ∧
        data_def_type_P.get_nominal_length (string_nominal (",".intercalate (a :: l)) rng)
          = some lens.sum) ∧
    (∀ (a : String) (l : List String) (rng : range), ∃ lens : List Nat,
        (a :: l).map (fun x => data_def_type_Z.get_nominal_length (string_nominal x rng))
          = lens.map some ∧
        data_def_type_Z.get_nominal_length (string_nominal (",".intercalate (a :: l)) rng)
          = some lens.sum) := by
  refine ⟨?_, ?_, ?_, ?_⟩
  · intro a b rng
    exact ⟨_, _, P_present a rng, P_present b rng, P_additive a b rng⟩
  · intro a b rng
    exact ⟨_, _, Z_present a rng, Z_present b rng, Z_additive a b rng⟩
  · intro a l rng
    refine ⟨(a :: l).map (fun x => get_nominal_length_P_loop x.data 0 1), ?_, ?_⟩
    · simp [P_present]
    · exact P_join rng l a
  · intro a l rng
    refine ⟨(a :: l).map (fun x => x.data.countP is_digit), ?_, ?_⟩
    · simp [Z_present]
    · exact Z_join rng l a


theorem char_at_last (nom : List Char) (hl : nom.getLast? = some ',') :
    0 < nom.length ∧ char_at nom (nom.length - 1) = ',' := by
  have hne : nom ≠ [] := by
    intro h0; simp [h0] at hl
  have hpos : 0 < nom.length := List.length_pos.mpr hne
  refine ⟨hpos, ?_⟩
  rw [List.getLast?_eq_getElem?] at hl
  simp [char_at, List.getD_eq_getElem?_getD, hl]

/-- A successful `check_number` on a string ending in a comma stops inside the string. -/
theorem stops_before_last (nom : List Char) (spec : number_spec) (i j : Nat)
    (hl : nom.getLast? = some ',') (hend : spec.is_end_char ',' = true) (hi : i < nom.length)
    (hk : ∀ k, i ≤ k → k < j → k < nom.length ∧ spec.is_end_char (char_at nom k) = false) :
    j < nom.length := by
  obtain ⟨_, hc⟩ := char_at_last nom hl
  by_contra hj
  have := (hk (nom.length - 1) (by omega) (by omega)).2
  rw [hc, hend] at this
  exact Bool.noConfusion this

theorem P_Z_loop_trailing (h : checker_helper) (nom : List Char) (rng : range)
    (type_str : String) (hl : nom.getLast? = some ',')
    (hadv : ∀ (i j : Nat), i < nom.length →
      h.check_number P_Z_number_spec nom i = (true, j) → i ≤ j) :
    ∀ (fuel i : Nat) (diags : List diagnostic_op), nom.length < fuel + i → 0 < fuel →
      data_def_type_P_Z.check_loop h nom rng type_str fuel i diags
        = some (false, diags ++ [error_D010 rng type_str]) := by
  intro fuel
  induction fuel with
  | zero => intro i diags _ hf; omega
  | succ n ih =>
    intro i diags hf _
    unfold data_def_type_P_Z.check_loop
    by_cases hi : i < nom.length
    · simp only [hi, if_true]
      rcases hr : h.check_number P_Z_number_spec nom i with ⟨ok, j⟩
      cases ok with
      | false => simp
      | true =>
        have := hadv i j hi hr
        simp only [Bool.not_true, Bool.false_eq_true, if_false]
        exact ih (j + 1) diags (by omega) (by omega)
    · simp [hi, hl]

theorem H_F_FD_loop_trailing (h : checker_helper) (nom : List Char) (rng : range)
    (type_str : String) (hl : nom.getLast? = some ',')
    (hnum : check_number_stops h H_F_FD_number_spec) (hexp : check_exponent_stops h) :
    ∀ (fuel i : Nat) (diags : List diagnostic_op), nom.length < fuel + i → 0 < fuel →
      data_def_type_H_F_FD.check_loop h nom rng type_str fuel i diags
        = some (false, diags ++ [error_D010 rng type_str]) := by
  intro fuel
  induction fuel with
  | zero => intro i diags _ hf; omega
  | succ n ih =>
    intro i diags hf _
    unfold data_def_type_H_F_FD.check_loop
    by_cases hi : i < nom.length
    · simp only [hi, if_true]
      rcases hr : h.check_number H_F_FD_number_spec nom i with ⟨ok, j⟩
      cases ok with
      | false => simp
      | true =>
        obtain ⟨hij, hk⟩ := hnum nom i j hi hr
        have hj : j < nom.length :=
          stops_before_last nom H_F_FD_number_spec i j hl (by decide) hi hk
        simp only [Bool.not_true, Bool.false_eq_true, if_false, ge_iff_le,
          Nat.not_le.mpr hj]
        by_cases hE : char_at nom j = 'E'
        · simp only [hE, if_true]
          rcases he : h.check_exponent nom j with ⟨ok2, j2⟩
          cases ok2 with
          | false => simp
          | true =>
            obtain ⟨hjj, hk2⟩ := hexp nom j j2 hj hE he
            have hj2 : j2 < nom.length := by
              obtain ⟨_, hc⟩ := char_at_last nom hl
              by_contra hcon
              exact (hk2 (nom.length - 1) (by omega) (by omega)).2 hc
            simp only [Bool.not_true, Bool.false_eq_true, if_false, Nat.not_le.mpr hj2]
            by_cases hc : char_at nom j2 = ','
            · simp only [hc, ne_eq, not_true_eq_false, if_false]
              exact ih (j2 + 1) diags (by omega) (by omega)
            · simp [hc]
        · simp only [hE, if_false]
          by_cases hc : char_at nom j = ','
          · simp only [hc, ne_eq, not_true_eq_false, if_false]
            exact ih (j + 1) diags (by omega) (by omega)
          · simp [hc]
    · simp [hi, hl]

theorem char_at_drop (nom : List Char) (i k : Nat) :
    (nom.drop i).getD k (Char.ofNat 0) = char_at nom (i + k) := by
  simp [char_at, List.getD_eq_getElem?_getD, List.getElem?_drop]

theorem check_number_scan_stops (spec : number_spec) (rest : List Char) :
    ∀ (i : Nat) (d dot : Bool) (j : Nat), check_number_scan spec rest i d dot = (true, j) →
      i ≤ j ∧ j ≤ i + rest.length ∧
        ∀ k, k < j - i → spec.is_end_char (rest.getD k (Char.ofNat 0)) = false := by
  induction rest with
  | nil =>
    intro i d dot j hs
    simp only [check_number_scan, Prod.mk.injEq] at hs
    obtain ⟨_, rfl⟩ := hs
    simp
  | cons c cs ih =>
    intro i d dot j hs
    unfold check_number_scan at hs
    by_cases hend : spec.is_end_char c = true
    · simp only [hend, if_true, Prod.mk.injEq] at hs
      obtain ⟨_, rfl⟩ := hs
      simp
    · have hend2 : spec.is_end_char c = false := by simpa using hend
      simp only [hend2, Bool.false_eq_true, if_false] at hs
      have step : ∀ d2 dot2, check_number_scan spec cs (i + 1) d2 dot2 = (true, j) →
          i ≤ j ∧ j ≤ i + (c :: cs).length ∧
            ∀ k, k < j - i → spec.is_end_char ((c :: cs).getD k (Char.ofNat 0)) = false := by
        intro d2 dot2 h2
        obtain ⟨h3, h4, h5⟩ := ih (i + 1) d2 dot2 j h2
        refine ⟨by omega, by simp only [List.length_cons]; omega, ?_⟩
        intro k hk
        cases k with
        | zero => simpa using hend2
        | succ k2 =>
          have := h5 k2 (by omega)
          simpa using this
      split_ifs at hs with h1 h2
      · exact step _ _ hs
      · exact step _ _ hs
      · simp at hs

theorem check_exponent_scan_stops (rest : List Char) :
    ∀ (i : Nat) (d : Bool) (j : Nat), check_exponent_scan rest i d = (true, j) →
      i ≤ j ∧ j ≤ i + rest.length ∧ ∀ k, k < j - i → rest.getD k (Char.ofNat 0) ≠ ',' := by
  induction rest with
  | nil =>
    intro i d j hs
    simp only [check_exponent_scan, Prod.mk.injEq] at hs
    obtain ⟨_, rfl⟩ := hs
    simp
  | cons c cs ih =>
    intro i d j hs
    unfold check_exponent_scan at hs
    by_cases hd : is_digit c = true
    · simp only [hd, if_true] at hs
      obtain ⟨h3, h4, h5⟩ := ih (i + 1) true j hs
      refine ⟨by omega, by simp only [List.length_cons]; omega, ?_⟩
      intro k hk
      cases k with
      | zero =>
        simp only [List.getD_cons_zero]
        intro hc
        rw [hc] at hd
        exact absurd hd (by decide)
      | succ k2 =>
        have := h5 k2 (by omega)
        simpa using this
    · simp only [hd, if_false, Prod.mk.injEq, Bool.false_eq_true] at hs
      obtain ⟨_, rfl⟩ := hs
      simp

theorem model_check_number_stops (spec : number_spec) :
    check_number_stops checker_helper_model spec := by
  intro nom i j hi hs
  simp only [checker_helper_model, check_number_model] at hs
  have hlen : (nom.drop i).length = nom.length - i := List.length_drop i nom
  rcases hd : nom.drop i with _ | ⟨c, cs⟩
  · rw [hd] at hlen; simp at hlen; omega
  · rw [hd] at hs hlen
    simp only [List.length_cons] at hlen
    have hc0 : char_at nom i = c := by
      have := char_at_drop nom i 0
      rw [hd] at this
      simpa using this.symm
    have hcs : ∀ k, cs.getD k (Char.ofNat 0) = char_at nom (i + 1 + k) := by
      intro k
      have := char_at_drop nom i (k + 1)
      rw [hd] at this
      simp only [List.getD_cons_succ] at this
      rw [this]; congr 1; omega
    by_cases hend : spec.is_end_char c = true
    · simp [hend] at hs
    · have hend2 : spec.is_end_char c = false := by simpa using hend
      simp only [hend2, Bool.false_eq_true, if_false] at hs
      split_ifs at hs with hsign
      · obtain ⟨h3, h4, h5⟩ := check_number_scan_stops spec cs (i + 1) false false j hs
        refine ⟨by omega, ?_⟩
        intro k hk1 hk2
        refine ⟨by omega, ?_⟩
        rcases Nat.eq_or_lt_of_le hk1 with heq | hlt
        · rw [← heq, hc0]; exact hend2
        · have := h5 (k - (i + 1)) (by omega)
          rw [hcs] at this
          have e : i + 1 + (k - (i + 1)) = k := by omega
          rwa [e] at this
      · obtain ⟨h3, h4, h5⟩ := check_number_scan_stops spec (c :: cs) i false false j hs
        refine ⟨h3, ?_⟩
        intro k hk1 hk2
        simp only [List.length_cons] at h4
        refine ⟨by omega, ?_⟩
        have := h5 (k - i) (by omega)
        rw [← hd, char_at_drop] at this
        have e : i + (k - i) = k := by omega
        rwa [e] at this

theorem model_check_exponent_stops : check_exponent_stops checker_helper_model := by
  intro nom i j hi hE hs
  simp only [checker_helper_model, check_exponent_model] at hs
  have hlen : (nom.drop (i + 1)).length = nom.length - (i + 1) := List.length_drop (i + 1) nom
  rcases hd : nom.drop (i + 1) with _ | ⟨c, cs⟩
  · rw [hd] at hs; simp at hs
  · rw [hd] at hs hlen
    simp only [List.length_cons] at hlen
    have hc0 : char_at nom (i + 1) = c := by
      have := char_at_drop nom (i + 1) 0
      rw [hd] at this
      simpa using this.symm
    have hcs : ∀ k, cs.getD k (Char.ofNat 0) = char_at nom (i + 2 + k) := by
      intro k
      have := char_at_drop nom (i + 1) (k + 1)
      rw [hd] at this
      simp only [List.getD_cons_succ] at this
      rw [this]; congr 1; omega
    have hEc : char_at nom i ≠ ',' := by rw [hE]; decide
    simp only at hs
    split_ifs at hs with hsign
    · obtain ⟨h3, h4, h5⟩ := check_exponent_scan_stops cs (i + 2) false j hs
      refine ⟨by omega, ?_⟩
      intro k hk1 hk2
      refine ⟨by omega, ?_⟩
      rcases Nat.eq_or_lt_of_le hk1 with heq | hlt
      · rw [← heq]; exact hEc
      · rcases Nat.eq_or_lt_of_le (Nat.succ_le_of_lt hlt) with heq2 | hlt2
        · rw [← heq2, Nat.succ_eq_add_one, hc0]
          rcases hsign with h | h <;> rw [h] <;> decide
        · have := h5 (k - (i + 2)) (by omega)
          rw [hcs] at this
          have e : i + 2 + (k - (i + 2)) = k := by omega
          rwa [e] at this
    · obtain ⟨h3, h4, h5⟩ := check_exponent_scan_stops (c :: cs) (i + 1) false j hs
      simp only [List.length_cons] at h4
      refine ⟨by omega, ?_⟩
      intro k hk1 hk2
      refine ⟨by omega, ?_⟩
      rcases Nat.eq_or_lt_of_le hk1 with heq | hlt
      · rw [← heq]; exact hEc
      · have := h5 (k - (i + 1)) (by omega)
        rw [← hd, char_at_drop] at this
        have e : i + 1 + (k - (i + 1)) = k := by omega
        rwa [e] at this

/-- C4: with `check_nominal = true` both fixed-point checkers reject (return `false`
and emit exactly `D010` on the range of the nominal value) every empty nominal string,
by the code alone, and every nominal string whose last character is a comma, provided
the helpers `check_number` / `check_exponent` only move the index forward and do not
pass over an end character (a comma for the exponent) or the end of the string. -/
theorem C4_empty_and_trailing_comma_rejected (h : checker_helper) (type_str : String)
    (fuel : Nat) (op : data_definition_operand) (nom : String) (diags : List diagnostic_op)
    (hop : op.nominal_value.value = .string nom) :
    (nom.data = [] →
      data_def_type_H_F_FD.check h type_str fuel op diags true
        = some (false, diags ++ [error_D010 op.nominal_value.rng type_str]) ∧
      data_def_type_P_Z.check h type_str fuel op diags true
        = some (false, diags ++ [error_D010 op.nominal_value.rng type_str])) ∧
    (nom.data.getLast? = some ',' → nom.data.length < fuel →
      (check_number_stops h H_F_FD_number_spec → check_exponent_stops h →
        data_def_type_H_F_FD.check h type_str fuel op diags true
          = some (false, diags ++ [error_D010 op.nominal_value.rng type_str])) ∧
      (check_number_stops h P_Z_number_spec →
        data_def_type_P_Z.check h type_str fuel op diags true
          = some (false, diags ++ [error_D010 op.nominal_value.rng type_str]))) := by
  constructor
  · intro hempty
    simp [data_def_type_H_F_FD.check, data_def_type_P_Z.check, hop, std_get_string, hempty]
  · intro hl hfuel
    have hne : nom.data.length ≠ 0 := by
      have := (char_at_last nom.data hl).1; omega
    constructor
    · intro hnum hexp
      simp only [data_def_type_H_F_FD.check, hop, std_get_string, hne, if_false,
        Bool.not_true, Bool.false_eq_true]
      exact H_F_FD_loop_trailing h nom.data _ _ hl hnum hexp fuel 0 diags (by omega) (by omega)
    · intro hnum
      simp only [data_def_type_P_Z.check, hop, std_get_string, hne, if_false,
        Bool.not_true, Bool.false_eq_true]
      exact P_Z_loop_trailing h nom.data _ _ hl
        (fun i j hi hr => (hnum nom.data i j hi hr).1) fuel 0 diags (by omega) (by omega)

/-- Witness of C4: the operands `H'1,'` and `P'1,'` are rejected with `D010`, with the
helpers modelled from the spec. -/
theorem C4_empty_and_trailing_comma_rejected_witness :
    data_def_type_H_F_FD.check checker_helper_model "H" 3
        (string_operand "1," ⟨⟨3, 16⟩, ⟨3, 18⟩⟩) [] true
      = some (false, [] ++ [error_D010 ⟨⟨3, 16⟩, ⟨3, 18⟩⟩ "H"]) ∧
    data_def_type_P_Z.check checker_helper_model "P" 3
        (string_operand "1," ⟨⟨3, 16⟩, ⟨3, 18⟩⟩) [] true
      = some (false, [] ++ [error_D010 ⟨⟨3, 16⟩, ⟨3, 18⟩⟩ "P"]) :=
  ⟨((C4_empty_and_trailing_comma_rejected checker_helper_model "H" 3
      (string_operand "1," ⟨⟨3, 16⟩, ⟨3, 18⟩⟩) "1," [] rfl).2 (by decide) (by decide)).1
      (model_check_number_stops _) model_check_exponent_stops,
   ((C4_empty_and_trailing_comma_rejected checker_helper_model "P" 3
      (string_operand "1," ⟨⟨3, 16⟩, ⟨3, 18⟩⟩) "1," [] rfl).2 (by decide) (by decide)).2
      (model_check_number_stops _)⟩

theorem H_F_FD_loop_shape (h : checker_helper) (nom : List Char) (rng : range)
    (type_str : String) :
    ∀ (fuel i : Nat) (diags : List diagnostic_op) (r : Bool × List diagnostic_op),
      data_def_type_H_F_FD.check_loop h nom rng type_str fuel i diags = some r →
        r = (false, diags ++ [error_D010 rng type_str]) ∨ r = (true, diags) := by
  intro fuel
  induction fuel with
  | zero => intro i diags r hr; simp [data_def_type_H_F_FD.check_loop] at hr
  | succ n ih =>
    intro i diags r hr
    unfold data_def_type_H_F_FD.check_loop at hr
    simp only at hr
    split_ifs at hr <;>
      first
      | exact ih _ _ _ hr
      | (left; exact (Option.some.inj hr).symm)
      | (right; exact (Option.some.inj hr).symm)

theorem P_Z_loop_shape (h : checker_helper) (nom : List Char) (rng : range)
    (type_str : String) :
    ∀ (fuel i : Nat) (diags : List diagnostic_op) (r : Bool × List diagnostic_op),
      data_def_type_P_Z.check_loop h nom rng type_str fuel i diags = some r →
        r = (false, diags ++ [error_D010 rng type_str]) ∨ r = (true, diags) := by
  intro fuel
  induction fuel with
  | zero => intro i diags r hr; simp [data_def_type_P_Z.check_loop] at hr
  | succ n ih =>
    intro i diags r hr
    unfold data_def_type_P_Z.check_loop at hr
    simp only at hr
    split_ifs at hr <;>
      first
      | exact ih _ _ _ hr
      | (left; exact (Option.some.inj hr).symm)
      | (right; exact (Option.some.inj hr).symm)

theorem H_F_FD_loop_returns (h : checker_helper) (nom : List Char) (rng : range)
    (type_str : String) (hadv : helpers_advance h H_F_FD_number_spec) :
    ∀ (fuel i : Nat) (diags : List diagnostic_op), nom.length < fuel + i → 0 < fuel →
      (data_def_type_H_F_FD.check_loop h nom rng type_str fuel i diags).isSome = true := by
  intro fuel
  induction fuel with
  | zero => intro i diags _ hf; omega
  | succ n ih =>
    intro i diags hf _
    unfold data_def_type_H_F_FD.check_loop
    by_cases hi : i < nom.length
    · simp only [hi, if_true]
      rcases hr : h.check_number H_F_FD_number_spec nom i with ⟨ok, j⟩
      cases ok with
      | false => simp
      | true =>
        have hij := hadv.1 nom i j hi hr
        simp only [Bool.not_true, Bool.false_eq_true, if_false]
        by_cases hj : j ≥ nom.length
        · simp [hj]
        · simp only [hj, if_false]
          by_cases hE : char_at nom j = 'E'
          · simp only [hE, if_true]
            rcases he : h.check_exponent nom j with ⟨ok2, j2⟩
            cases ok2 with
            | false => simp
            | true =>
              have := hadv.2 nom j j2 (by omega) hE he
              simp only [Bool.not_true, Bool.false_eq_true, if_false]
              split_ifs <;> first | rfl | exact ih _ _ (by omega) (by omega)
          · simp only [hE, if_false]
            split_ifs <;> first | rfl | exact ih _ _ (by omega) (by omega)
    · simp only [hi, if_false]; split_ifs <;> rfl

theorem P_Z_loop_returns (h : checker_helper) (nom : List Char) (rng : range)
    (type_str : String) (hadv : helpers_advance h P_Z_number_spec) :
    ∀ (fuel i : Nat) (diags : List diagnostic_op), nom.length < fuel + i → 0 < fuel →
      (data_def_type_P_Z.check_loop h nom rng type_str fuel i diags).isSome = true := by
  intro fuel
  induction fuel with
  | zero => intro i diags _ hf; omega
  | succ n ih =>
    intro i diags hf _
    unfold data_def_type_P_Z.check_loop
    by_cases hi : i < nom.length
    · simp only [hi, if_true]
      rcases hr : h.check_number P_Z_number_spec nom i with ⟨ok, j⟩
      cases ok with
      | false => simp
      | true =>
        have hij := hadv.1 nom i j hi hr
        simp only [Bool.not_true, Bool.false_eq_true, if_false]
        exact ih _ _ (by omega) (by omega)
    · simp only [hi, if_false]; split_ifs <;> rfl

theorem check_shape_iff (diags diags2 : List diagnostic_op) (d : diagnostic_op) (ok : Bool)
    (hr : (ok, diags2) = (false, diags ++ [d]) ∨ (ok, diags2) = (true, diags)) :
    (ok = false ↔ diags2 = diags ++ [d]) ∧ (ok = true → diags2 = diags) := by
  rcases hr with hr | hr
  · simp only [Prod.mk.injEq] at hr
    obtain ⟨rfl, rfl⟩ := hr
    simp
  · simp only [Prod.mk.injEq] at hr
    obtain ⟨rfl, rfl⟩ := hr
    simp

theorem H_F_FD_check_shape (h : checker_helper) (type_str : String) (fuel : Nat)
    (op : data_definition_operand) (diags : List diagnostic_op) (check_nominal : Bool)
    (r : Bool × List diagnostic_op)
    (hr : data_def_type_H_F_FD.check h type_str fuel op diags check_nominal = some r) :
    r = (false, diags ++ [error_D010 op.nominal_value.rng type_str]) ∨ r = (true, diags) := by
  unfold data_def_type_H_F_FD.check at hr
  split_ifs at hr with h1
  · right; exact (Option.some.inj hr).symm
  · split at hr
    · exact absurd hr (by simp)
    · split_ifs at hr
      · left; exact (Option.some.inj hr).symm
      · exact H_F_FD_loop_shape h _ _ _ _ _ _ _ hr

theorem P_Z_check_shape (h : checker_helper) (type_str : String) (fuel : Nat)
    (op : data_definition_operand) (diags : List diagnostic_op) (check_nominal : Bool)
    (r : Bool × List diagnostic_op)
    (hr : data_def_type_P_Z.check h type_str fuel op diags check_nominal = some r) :
    r = (false, diags ++ [error_D010 op.nominal_value.rng type_str]) ∨ r = (true, diags) := by
  unfold data_def_type_P_Z.check at hr
  split_ifs at hr with h1
  · right; exact (Option.some.inj hr).symm
  · split at hr
    · exact absurd hr (by simp)
    · split_ifs at hr
      · left; exact (Option.some.inj hr).symm
      · exact P_Z_loop_shape h _ _ _ _ _ _ _ hr

/-- C5: for both fixed-point checkers and every operand, whenever the call returns, it
returns `false` if and only if it appended exactly one diagnostic, `D010` on the range
of the nominal value, and when it returns `true` it appended none; with
`check_nominal = false` it returns `true` with no diagnostic whatever the nominal value
holds; and it does return (given as many loop iterations as the string has characters,
plus one) for every string nominal value when the helpers only move the index forward. -/
theorem C5_check_result_and_diagnostics (h : checker_helper) (type_str : String) (fuel : Nat)
    (op : data_definition_operand) (diags : List diagnostic_op) (check_nominal : Bool) :
    (∀ ok diags2,
      data_def_type_H_F_FD.check h type_str fuel op diags check_nominal = some (ok, diags2) →
        (ok = false ↔ diags2 = diags ++ [error_D010 op.nominal_value.rng type_str]) ∧
        (ok = true → diags2 = diags)) ∧
    (∀ ok diags2,
      data_def_type_P_Z.check h type_str fuel op diags check_nominal = some (ok, diags2) →
        (ok = false ↔ diags2 = diags ++ [error_D010 op.nominal_value.rng type_str]) ∧
        (ok = true → diags2 = diags)) ∧
    data_def_type_H_F_FD.check h type_str fuel op diags false = some (true, diags) ∧
    data_def_type_P_Z.check h type_str fuel op diags false = some (true, diags) ∧
    (∀ nom : String, op.nominal_value.value = .string nom → nom.data.length < fuel →
      (helpers_advance h H_F_FD_number_spec →
        (data_def_type_H_F_FD.check h type_str fuel op diags check_nominal).isSome = true) ∧
      (helpers_advance h P_Z_number_spec →
        (data_def_type_P_Z.check h type_str fuel op diags check_nominal).isSome = true)) := by
  refine ⟨?_, ?_, ?_, ?_, ?_⟩
  · intro ok diags2 hr
    exact check_shape_iff _ _ _ _ (H_F_FD_check_shape h type_str fuel op diags check_nominal _ hr)
  · intro ok diags2 hr
    exact check_shape_iff _ _ _ _ (P_Z_check_shape h type_str fuel op diags check_nominal _ hr)
  · simp [data_def_type_H_F_FD.check]
  · simp [data_def_type_P_Z.check]
  · intro nom hop hfuel
    constructor
    · intro hadv
      unfold data_def_type_H_F_FD.check
      simp only [hop, std_get_string]
      split_ifs
      · rfl
      · rfl
      · exact H_F_FD_loop_returns h nom.data _ _ hadv fuel 0 diags (by omega) (by omega)
    · intro hadv
      unfold data_def_type_P_Z.check
      simp only [hop, std_get_string]
      split_ifs
      · rfl
      · rfl
      · exact P_Z_loop_returns h nom.data _ _ hadv fuel 0 diags (by omega) (by omega)

theorem model_helpers_advance (spec : number_spec) :
    helpers_advance checker_helper_model spec :=
  ⟨fun nom i j hi hr => (model_check_number_stops spec nom i j hi hr).1,
   fun nom i j hi hE hr => (model_check_exponent_stops nom i j hi hE hr).1⟩

/-- Witness of C5 at the operand `F'1,-2E3,+4.5'` of scenario S5, with the helpers
modelled from the spec: the call returns, and it returns `true` without a diagnostic. -/
theorem C5_check_result_and_diagnostics_witness :
    (data_def_type_H_F_FD.check checker_helper_model "F" 12
        (string_operand "1,-2E3,+4.5" ⟨⟨1, 16⟩, ⟨1, 27⟩⟩) [] true).isSome = true ∧
    ((true = false ↔ ([] : List diagnostic_op) = [] ++ [error_D010 ⟨⟨1, 16⟩, ⟨1, 27⟩⟩ "F"]) ∧
      (true = true → ([] : List diagnostic_op) = [])) :=
  ⟨((C5_check_result_and_diagnostics checker_helper_model "F" 12
      (string_operand "1,-2E3,+4.5" ⟨⟨1, 16⟩, ⟨1, 27⟩⟩) [] true).2.2.2.2
        "1,-2E3,+4.5" rfl (by decide)).1 (model_helpers_advance _),
   (C5_check_result_and_diagnostics checker_helper_model "F" 12
      (string_operand "1,-2E3,+4.5" ⟨⟨1, 16⟩, ⟨1, 27⟩⟩) [] true).1 true [] (by decide)⟩

/-- C26: the number specifications that parameterise `check_number`. For H, F and FD
the sign characters are `U`, `+`, `-` and the end characters are `,` and `E`; for P and
Z the sign characters are `+`, `-` and the only end character is `,`. So `U` is not a
sign and `E` is not an end character for P and Z, and `data_def_type_P_Z::check` never
calls `check_exponent`: its result is the same for every `check_exponent`, and it
depends on `check_number` at the specification of P and Z only. -/
theorem C26_number_specs (c : Char) :
    (H_F_FD_number_spec.is_sign_char c = true ↔ c = 'U' ∨ c = '+' ∨ c = '-') ∧
    (H_F_FD_number_spec.is_end_char c = true ↔ c = ',' ∨ c = 'E') ∧
    (P_Z_number_spec.is_sign_char c = true ↔ c = '+' ∨ c = '-') ∧
    (P_Z_number_spec.is_end_char c = true ↔ c = ',') ∧
    P_Z_number_spec.is_sign_char 'U' = false ∧
    P_Z_number_spec.is_end_char 'E' = false ∧
    (∀ (h h2 : checker_helper) (type_str : String) (fuel : Nat)
        (op : data_definition_operand) (diags : List diagnostic_op) (check_nominal : Bool),
      (∀ nom i, h.check_number P_Z_number_spec nom i
          = h2.check_number P_Z_number_spec nom i) →
      data_def_type_P_Z.check h type_str fuel op diags check_nominal
        = data_def_type_P_Z.check h2 type_str fuel op diags check_nominal) := by
  refine ⟨?_, ?_, ?_, ?_, by decide, by decide, ?_⟩
  · simp [H_F_FD_number_spec, or_assoc]
  · simp [H_F_FD_number_spec]
  · simp [P_Z_number_spec]
  · simp [P_Z_number_spec]
  · intro h h2 type_str fuel op diags check_nominal hn
    have hloop : ∀ (nom : List Char) (rng : range) (fuel i : Nat) (d : List diagnostic_op),
        data_def_type_P_Z.check_loop h nom rng type_str fuel i d
          = data_def_type_P_Z.check_loop h2 nom rng type_str fuel i d := by
      intro nom rng fuel
      induction fuel with
      | zero => intro i d; rfl
      | succ n ih =>
        intro i d
        unfold data_def_type_P_Z.check_loop
        simp only [hn, ih]
    unfold data_def_type_P_Z.check
    split_ifs
    · rfl
    · rcases std_get_string op.nominal_value.value with _ | nom
      · rfl
      · simp only [hloop]

/-- The loop of `data_def_type_H_F_FD::check` with the statements after it is the loop
alone followed by these statements. -/
theorem H_F_FD_check_loop_eq (h : checker_helper) (nom : List Char) (rng : range)
    (type_str : String) :
    ∀ (fuel i : Nat) (diags : List diagnostic_op),
      data_def_type_H_F_FD.check_loop h nom rng type_str fuel i diags
        = (data_def_type_H_F_FD.while_loop h nom rng type_str fuel i diags).map
            (data_def_type_H_F_FD.finish_loop nom rng type_str) := by
  intro fuel
  induction fuel with
  | zero => intro i diags; rfl
  | succ n ih =>
    intro i diags
    unfold data_def_type_H_F_FD.check_loop data_def_type_H_F_FD.while_loop
    simp only [ih]
    split_ifs <;>
      simp [data_def_type_H_F_FD.finish_loop, data_def_type_H_F_FD.after_loop, *]

/-- A comma at the last index of a string is its last character. -/
theorem comma_at_last_index (nom : List Char) (j : Nat) (hj : j < nom.length)
    (hn : nom.length ≤ j + 1) (hc : char_at nom j = ',') : nom.getLast? = some ',' := by
  have hj2 : j = nom.length - 1 := by omega
  subst hj2
  rw [List.getLast?_eq_getElem?]
  simp only [char_at, List.getD_eq_getElem?_getD] at hc
  rw [List.getElem?_eq_getElem hj] at hc ⊢
  simpa using hc

/-- When the loop of `data_def_type_H_F_FD::check`, entered at an index inside the
string (or at any index of a string whose last character is a comma), is left because
its condition became false, the last character of the string is a comma and no
diagnostic has been added. -/
theorem H_F_FD_while_loop_exit (h : checker_helper) (nom : List Char) (rng : range)
    (type_str : String) :
    ∀ (fuel i : Nat) (diags d2 : List diagnostic_op),
      (i < nom.length ∨ nom.getLast? = some ',') →
      data_def_type_H_F_FD.while_loop h nom rng type_str fuel i diags = some (none, d2) →
        nom.getLast? = some ',' ∧ d2 = diags := by
  intro fuel
  induction fuel with
  | zero => intro i diags d2 _ hr; simp [data_def_type_H_F_FD.while_loop] at hr
  | succ n ih =>
    intro i diags d2 hinv hr
    unfold data_def_type_H_F_FD.while_loop at hr
    by_cases hi : i < nom.length
    · simp only [hi, if_true] at hr
      have hstep : ∀ j, j < nom.length → char_at nom j = ',' →
          data_def_type_H_F_FD.while_loop h nom rng type_str n (j + 1) diags
            = some (none, d2) → nom.getLast? = some ',' ∧ d2 = diags := by
        intro j hj hc hrec
        refine ih _ _ _ ?_ hrec
        by_cases hlt : j + 1 < nom.length
        · exact Or.inl hlt
        · exact Or.inr (comma_at_last_index nom j hj (by omega) hc)
      by_cases h1 : (h.check_number H_F_FD_number_spec nom i).1 = true
      · simp only [h1, Bool.not_true, Bool.false_eq_true, if_false] at hr
        by_cases h2 : (h.check_number H_F_FD_number_spec nom i).2 ≥ nom.length
        · simp [h2] at hr
        · simp only [h2, if_false] at hr
          by_cases h3 : char_at nom (h.check_number H_F_FD_number_spec nom i).2 = 'E'
          · simp only [h3, if_true] at hr
            by_cases h4 : (h.check_exponent nom
                (h.check_number H_F_FD_number_spec nom i).2).1 = true
            · simp only [h4, Bool.not_true, Bool.false_eq_true, if_false] at hr
              by_cases h5 : (h.check_exponent nom
                  (h.check_number H_F_FD_number_spec nom i).2).2 ≥ nom.length
              · simp [h5] at hr
              · simp only [h5, if_false] at hr
                by_cases h6 : char_at nom (h.check_exponent nom
                    (h.check_number H_F_FD_number_spec nom i).2).2 = ','
                · simp only [h6, ne_eq, not_true_eq_false, if_false] at hr
                  exact hstep _ (by omega) h6 hr
                · simp [h6] at hr
            · simp [h4] at hr
          · simp only [h3, if_false] at hr
            by_cases h7 : char_at nom (h.check_number H_F_FD_number_spec nom i).2 = ','
            · simp only [h7, ne_eq, not_true_eq_false, if_false] at hr
              exact hstep _ (by omega) h7 hr
            · simp [h7] at hr
      · simp [h1] at hr
    · simp only [hi, if_false, Option.some.injEq, Prod.mk.injEq, true_and] at hr
      rcases hinv with hlt | hl
      · exact absurd hlt hi
      · exact ⟨hl, hr.symm⟩

/-- C27: in `data_def_type_H_F_FD::check`, whenever the `while` loop is left because
its condition `i < nom.size()` became false, the last character of the nominal is a
comma, so the statements after the loop add D010 and return `false`; the final
`return true` is never reached, and every call that returns `true` returns from inside
the loop. This holds for every behaviour of `check_number` and `check_exponent`. -/
theorem C27_H_F_FD_loop_exit (h : checker_helper) (type_str : String) (fuel : Nat)
    (op : data_definition_operand) (diags : List diagnostic_op) (nom : String)
    (hs : std_get_string op.nominal_value.value = some nom) (hne : nom.data.length ≠ 0) :
    (∀ d2, data_def_type_H_F_FD.while_loop h nom.data op.nominal_value.rng type_str fuel 0
          diags = some (none, d2) →
        nom.data.getLast? = some ',' ∧
        data_def_type_H_F_FD.after_loop nom.data op.nominal_value.rng type_str d2
          = (false, diags ++ [error_D010 op.nominal_value.rng type_str]) ∧
        data_def_type_H_F_FD.check h type_str fuel op diags true
          = some (false, diags ++ [error_D010 op.nominal_value.rng type_str])) ∧
    (∀ d2, data_def_type_H_F_FD.check h type_str fuel op diags true = some (true, d2) →
        data_def_type_H_F_FD.while_loop h nom.data op.nominal_value.rng type_str fuel 0
          diags = some (some true, d2)) ∧
    data_def_type_H_F_FD.check h type_str fuel op diags true
      = (data_def_type_H_F_FD.while_loop h nom.data op.nominal_value.rng type_str fuel 0
          diags).map (data_def_type_H_F_FD.finish_loop nom.data op.nominal_value.rng
            type_str) := by
  have hcheck : data_def_type_H_F_FD.check h type_str fuel op diags true
      = (data_def_type_H_F_FD.while_loop h nom.data op.nominal_value.rng type_str fuel 0
          diags).map (data_def_type_H_F_FD.finish_loop nom.data op.nominal_value.rng
            type_str) := by
    unfold data_def_type_H_F_FD.check
    simp only [hs, hne, Bool.not_true, Bool.false_eq_true, if_false]
    exact H_F_FD_check_loop_eq h nom.data op.nominal_value.rng type_str fuel 0 diags
  have hpos : 0 < nom.data.length ∨ nom.data.getLast? = some ',' :=
    Or.inl (Nat.pos_of_ne_zero hne)
  refine ⟨?_, ?_, hcheck⟩
  · intro d2 hr
    obtain ⟨hl, hd⟩ :=
      H_F_FD_while_loop_exit h nom.data op.nominal_value.rng type_str fuel 0 diags d2 hpos hr
    subst hd
    have hafter : data_def_type_H_F_FD.after_loop nom.data op.nominal_value.rng type_str d2
        = (false, d2 ++ [error_D010 op.nominal_value.rng type_str]) := by
      simp [data_def_type_H_F_FD.after_loop, hl]
    refine ⟨hl, hafter, ?_⟩
    rw [hcheck, hr]
    simp [data_def_type_H_F_FD.finish_loop, hafter]
  · intro d2 hr
    rw [hcheck] at hr
    rcases hw : data_def_type_H_F_FD.while_loop h nom.data op.nominal_value.rng type_str
        fuel 0 diags with _ | ⟨ex, d3⟩
    · rw [hw] at hr; simp at hr
    · rw [hw] at hr
      rcases ex with _ | b
      · obtain ⟨hl, hd⟩ :=
          H_F_FD_while_loop_exit h nom.data op.nominal_value.rng type_str fuel 0 diags d3
            hpos hw
        simp [data_def_type_H_F_FD.finish_loop, data_def_type_H_F_FD.after_loop, hl] at hr
      · simp only [data_def_type_H_F_FD.finish_loop, Option.map_some', Option.some.injEq,
          Prod.mk.injEq] at hr
        obtain ⟨rfl, rfl⟩ := hr
        rfl

/-- Witness of C27 at the nominal `1,` with the helpers modelled from the spec: the loop
is left after the increment past the comma, and the call returns `false` with D010. -/
theorem C27_H_F_FD_loop_exit_witness :
    "1,".data.getLast? = some ',' ∧
    data_def_type_H_F_FD.after_loop "1,".data ⟨⟨1, 16⟩, ⟨1, 18⟩⟩ "F" []
      = (false, [] ++ [error_D010 ⟨⟨1, 16⟩, ⟨1, 18⟩⟩ "F"]) ∧
    data_def_type_H_F_FD.check checker_helper_model "F" 3
        (string_operand "1," ⟨⟨1, 16⟩, ⟨1, 18⟩⟩) [] true
      = some (false, [] ++ [error_D010 ⟨⟨1, 16⟩, ⟨1, 18⟩⟩ "F"]) :=
  (C27_H_F_FD_loop_exit checker_helper_model "F" 3
    (string_operand "1," ⟨⟨1, 16⟩, ⟨1, 18⟩⟩) [] "1," rfl (by decide)).1 [] (by decide)

end checking

namespace processing

open checking (position range diagnostic_op)

theorem not_macro_param_isSome (v : Option variable_symbol)
    (h : ∀ p, v ≠ some (.macro_param p)) :
    ((v.bind variable_symbol.access_macro_param_base).isSome) = false := by
  rcases v with _ | ⟨s | p⟩
  · rfl
  · rfl
  · exact absurd rfl (h p)

/-- C6: `test_symbol_for_assignment` decides in a fixed order and stops at the first
failure with exactly one diagnostic: (1) name bound to a macro parameter gives E030;
(2) more than one subscript gives E020; (3) one subscript of value below 1 gives E012;
(4) an existing SET symbol of another type gives E013; (5) a scalar symbol with a
subscript, or an indexed one without, gives E013; (6) otherwise it returns `true` with
no diagnostic, `idx` being the subscript value (at least 1) or -1 without subscript,
and `set_symbol` the existing SET symbol or null. -/
theorem C6_test_symbol_for_assignment_order (mngr : expression_manager)
    (ctx : hlasm_context) (symbol : var_sym) (type : SET_t_enum) (st : ca_processor_state) :
    (∀ p, ctx.get_var_sym (resolved_name mngr symbol) = some (.macro_param p) →
      test_symbol_for_assignment mngr ctx symbol type st
        = some (false, ⟨-1, none, resolved_name mngr symbol⟩,
            st.add_diagnostic (error_E030 "symbolic parameter" symbol.symbol_range))) ∧
    ((∀ p, ctx.get_var_sym (resolved_name mngr symbol) ≠ some (.macro_param p)) →
      symbol.subscript.length > 1 →
      test_symbol_for_assignment mngr ctx symbol type st
        = some (false, ⟨-1, none, resolved_name mngr symbol⟩,
            st.add_diagnostic
              (error_E020 "variable symbol subscript" symbol.symbol_range))) ∧
    ((∀ p, ctx.get_var_sym (resolved_name mngr symbol) ≠ some (.macro_param p)) →
      ∀ e, symbol.subscript = [e] → (mngr.evaluate_expression_tree e).get_numeric_value < 1 →
      test_symbol_for_assignment mngr ctx symbol type st
        = some (false,
            ⟨(mngr.evaluate_expression_tree e).get_numeric_value, none,
              resolved_name mngr symbol⟩,
            (st.evaluate e).add_diagnostic
              (error_E012 "subscript value has to be 1 or more" symbol.symbol_range))) ∧
    (∀ s, ctx.get_var_sym (resolved_name mngr symbol) = some (.set_symbol s) →
      s.type ≠ type →
      (symbol.subscript = [] →
        test_symbol_for_assignment mngr ctx symbol type st
          = some (false, ⟨-1, none, resolved_name mngr symbol⟩,
              st.add_diagnostic
                (error_E013 "wrong type of variable symbol" symbol.symbol_range))) ∧
      (∀ e, symbol.subscript = [e] →
        1 ≤ (mngr.evaluate_expression_tree e).get_numeric_value →
        test_symbol_for_assignment mngr ctx symbol type st
          = some (false,
              ⟨(mngr.evaluate_expression_tree e).get_numeric_value, none,
                resolved_name mngr symbol⟩,
              (st.evaluate e).add_diagnostic
                (error_E013 "wrong type of variable symbol" symbol.symbol_range)))) ∧
    (∀ s, ctx.get_var_sym (resolved_name mngr symbol) = some (.set_symbol s) →
      s.type = type →
      (s.is_scalar = false → symbol.subscript = [] →
        test_symbol_for_assignment mngr ctx symbol type st
          = some (false, ⟨-1, none, resolved_name mngr symbol⟩,
              st.add_diagnostic (error_E013 "subscript error" symbol.symbol_range))) ∧
      (s.is_scalar = true → ∀ e, symbol.subscript = [e] →
        1 ≤ (mngr.evaluate_expression_tree e).get_numeric_value →
        test_symbol_for_assignment mngr ctx symbol type st
          = some (false,
              ⟨(mngr.evaluate_expression_tree e).get_numeric_value, none,
                resolved_name mngr symbol⟩,
              (st.evaluate e).add_diagnostic
                (error_E013 "subscript error" symbol.symbol_range)))) ∧
    (ctx.get_var_sym (resolved_name mngr symbol) = none →
      (symbol.subscript = [] →
        test_symbol_for_assignment mngr ctx symbol type st
          = some (true, ⟨-1, none, resolved_name mngr symbol⟩, st)) ∧
      (∀ e, symbol.subscript = [e] →
        1 ≤ (mngr.evaluate_expression_tree e).get_numeric_value →
        test_symbol_for_assignment mngr ctx symbol type st
          = some (true,
              ⟨(mngr.evaluate_expression_tree e).get_numeric_value, none,
                resolved_name mngr symbol⟩, st.evaluate e))) ∧
    (∀ s, ctx.get_var_sym (resolved_name mngr symbol) = some (.set_symbol s) →
      s.type = type →
      (s.is_scalar = true → symbol.subscript = [] →
        test_symbol_for_assignment mngr ctx symbol type st
          = some (true, ⟨-1, some s, resolved_name mngr symbol⟩, st)) ∧
      (s.is_scalar = false → ∀ e, symbol.subscript = [e] →
        1 ≤ (mngr.evaluate_expression_tree e).get_numeric_value →
        test_symbol_for_assignment mngr ctx symbol type st
          = some (true,
              ⟨(mngr.evaluate_expression_tree e).get_numeric_value, some s,
                resolved_name mngr symbol⟩, st.evaluate e))) := by
  refine ⟨?_, ?_, ?_, ?_, ?_, ?_, ?_⟩
  · intro p hp
    simp [test_symbol_for_assignment, hp, variable_symbol.access_macro_param_base]
  · intro hnp hlen
    have h1 := not_macro_param_isSome _ hnp
    simp [test_symbol_for_assignment, h1, hlen]
  · intro hnp e he hlt
    have h1 := not_macro_param_isSome _ hnp
    simp [test_symbol_for_assignment, h1, he, hlt]
  · intro s hs hty
    constructor
    · intro he
      simp [test_symbol_for_assignment, he, hs, hty,
        variable_symbol.access_set_symbol_base, variable_symbol.access_macro_param_base]
    · intro e he hge
      simp [test_symbol_for_assignment, he, hs, hty, Int.not_lt.mpr hge,
        variable_symbol.access_set_symbol_base, variable_symbol.access_macro_param_base]
  · intro s hs hty
    constructor
    · intro hsc he
      simp [test_symbol_for_assignment, he, hs, hty, hsc,
        variable_symbol.access_set_symbol_base, variable_symbol.access_macro_param_base]
    · intro hsc e he hge
      simp [test_symbol_for_assignment, he, hs, hty, hsc, Int.not_lt.mpr hge,
        variable_symbol.access_set_symbol_base, variable_symbol.access_macro_param_base]
  · intro hnone
    constructor
    · intro he
      simp [test_symbol_for_assignment, he, hnone]
    · intro e he hge
      simp [test_symbol_for_assignment, he, hnone, Int.not_lt.mpr hge]
  · intro s hs hty
    constructor
    · intro hsc he
      simp [test_symbol_for_assignment, he, hs, hty, hsc,
        variable_symbol.access_set_symbol_base, variable_symbol.access_macro_param_base]
    · intro hsc e he hge
      simp [test_symbol_for_assignment, he, hs, hty, hsc, Int.not_lt.mpr hge,
        variable_symbol.access_set_symbol_base, variable_symbol.access_macro_param_base]

/-- Witness of C6, scenario S2: after `&X SETA 1` the label `&X` of `&X SETC 'HI'`
is refused with E013. -/
theorem C6_test_symbol_for_assignment_order_witness :
    test_symbol_for_assignment literal_manager S2_context S2_symbol .C_TYPE
        ca_processor_state.init
      = some (false, ⟨-1, none, resolved_name literal_manager S2_symbol⟩,
          ca_processor_state.init.add_diagnostic
            (error_E013 "wrong type of variable symbol" S2_symbol.symbol_range)) :=
  ((C6_test_symbol_for_assignment_order literal_manager S2_context S2_symbol .C_TYPE
      ca_processor_state.init).2.2.2.1 ⟨"X", .A_TYPE, true⟩ (by decide) (by decide)).1
    (by decide)

theorem test_symbol_true_diags (mngr : expression_manager) (ctx : hlasm_context)
    (symbol : var_sym) (type : SET_t_enum) (st st1 : ca_processor_state)
    (target : assignment_target)
    (h : test_symbol_for_assignment mngr ctx symbol type st = some (true, target, st1)) :
    st1.diags = st.diags ∧ st1.jumps = st.jumps ∧ st1.registered = st.registered := by
  have hr : (match symbol.subscript with
      | [e] => ((mngr.evaluate_expression_tree e).get_numeric_value, st.evaluate e)
      | _ => ((-1 : Int), st)).2.diags = st.diags ∧
      (match symbol.subscript with
      | [e] => ((mngr.evaluate_expression_tree e).get_numeric_value, st.evaluate e)
      | _ => ((-1 : Int), st)).2.jumps = st.jumps ∧
      (match symbol.subscript with
      | [e] => ((mngr.evaluate_expression_tree e).get_numeric_value, st.evaluate e)
      | _ => ((-1 : Int), st)).2.registered = st.registered := by
    split <;> simp [ca_processor_state.evaluate]
  unfold test_symbol_for_assignment at h
  simp only at h
  split_ifs at h with h1 h2 h3
  · simp at h
  · simp at h
  · simp at h
  · split at h
    · simp only [Option.some.injEq, Prod.mk.injEq, true_and] at h
      obtain ⟨_, rfl⟩ := h
      exact hr
    · split at h
      · simp at h
      · split_ifs at h
        · simp at h
        · simp at h
        · simp only [Option.some.injEq, Prod.mk.injEq, true_and] at h
          obtain ⟨_, rfl⟩ := h
          exact hr

theorem prepare_SET_operands_all_empty (mngr : expression_manager) (ops : List operand) :
    ∀ (values : List SET_t) (has_operand : Bool) (st : ca_processor_state),
      (∀ op ∈ ops, op.type = operand_type.EMPTY) →
      prepare_SET_operands mngr ops values has_operand st
        = some (true, values, has_operand, st) := by
  induction ops with
  | nil => intro values has_operand st _; rfl
  | cons op ops ih =>
    intro values has_operand st hall
    have h1 : op.type = operand_type.EMPTY := hall op (List.mem_cons_self _ _)
    simp only [prepare_SET_operands, h1, if_true]
    exact ih values has_operand st (fun o ho => hall o (List.mem_cons_of_mem _ ho))

/-- C7: `prepare_SET` on a statement whose label field is not of kind VAR returns
`false` with exactly one diagnostic, E010 on the label range, evaluates no expression
and leaves the reference parameters (so `values`) unchanged; on a statement with a VAR
label that passes `test_symbol_for_assignment` and has no non-EMPTY operand it returns
`false` with exactly one diagnostic, E022, and leaves `values` unchanged. -/
theorem C7_prepare_SET_label_and_missing_operand (mngr : expression_manager)
    (ctx : hlasm_context) (stmt : complete_statement) (type : SET_t_enum)
    (params : SET_parameters) (st : ca_processor_state) :
    (stmt.label_ref.type ≠ label_si_type.VAR →
      ∃ st2, prepare_SET mngr ctx stmt type params st = some (false, params, st2) ∧
        st2.diags = st.diags ++ [error_E010 "label" stmt.label_ref.field_range] ∧
        st2.evaluated = st.evaluated) ∧
    (∀ symbol target st1, stmt.label_ref.value = .VAR symbol →
      test_symbol_for_assignment mngr ctx symbol type st = some (true, target, st1) →
      (∀ op ∈ stmt.operands, op.type = operand_type.EMPTY) →
      ∃ ps st2, prepare_SET mngr ctx stmt type params st = some (false, ps, st2) ∧
        st2.diags = st.diags ++ [error_E022 "SET instruction" stmt.instruction_range] ∧
        ps.values = params.values) := by
  constructor
  · intro hl
    refine ⟨st.add_diagnostic (error_E010 "label" stmt.label_ref.field_range), ?_, rfl, rfl⟩
    unfold prepare_SET
    rcases hv : stmt.label_ref.value with n | s | v | _
    · rfl
    · rfl
    · exact absurd (by simp [label_si.type, hv]) hl
    · rfl
  · intro symbol target st1 hv htest hall
    have hd := (test_symbol_true_diags mngr ctx symbol type st st1 target htest).1
    refine ⟨⟨target.idx, target.set_symbol, target.name, params.values⟩,
      st1.add_diagnostic (error_E022 "SET instruction" stmt.instruction_range), ?_, ?_, rfl⟩
    · simp [prepare_SET, hv, htest, prepare_SET_operands_all_empty mngr _ _ _ _ hall]
    · simp [ca_processor_state.add_diagnostic, hd]

/-- Witness of C7: ` SETA 5` (no label) gives E010, and `&I SETA ,` (only empty
operands) gives E022. -/
theorem C7_prepare_SET_label_and_missing_operand_witness :
    (∃ st2, prepare_SET literal_manager empty_context SET_without_label .A_TYPE
        ⟨0, none, "", []⟩ ca_processor_state.init = some (false, ⟨0, none, "", []⟩, st2) ∧
      st2.diags = ca_processor_state.init.diags
        ++ [error_E010 "label" SET_without_label.label_ref.field_range] ∧
      st2.evaluated = ca_processor_state.init.evaluated) ∧
    (∃ ps st2, prepare_SET literal_manager empty_context SET_without_operand .A_TYPE
        ⟨0, none, "", []⟩ ca_processor_state.init = some (false, ps, st2) ∧
      st2.diags = ca_processor_state.init.diags
        ++ [error_E022 "SET instruction" SET_without_operand.instruction_range] ∧
      ps.values = []) :=
  ⟨(C7_prepare_SET_label_and_missing_operand literal_manager empty_context
      SET_without_label .A_TYPE ⟨0, none, "", []⟩ ca_processor_state.init).1 (by decide),
   (C7_prepare_SET_label_and_missing_operand literal_manager empty_context
      SET_without_operand .A_TYPE ⟨0, none, "", []⟩ ca_processor_state.init).2
      ⟨.basic "I", [], ⟨⟨1, 0⟩, ⟨1, 2⟩⟩⟩ ⟨-1, none, "I"⟩ ca_processor_state.init
      rfl (by decide) (by decide)⟩

/-- C8, counterexample: the statement `&ARR(1) SETA 1,,3` is accepted by `prepare_SET`
called with `values` empty, its operand at position 2 evaluates to 3, and `values`
(holding 1 and 3) has no element at position 2. -/
theorem C8_operand_positions_counterexample :
    ∃ (ps : SET_parameters) (st2 : ca_processor_state),
      prepare_SET literal_manager empty_context SET_with_empty_operand .A_TYPE
        ⟨0, none, "", []⟩ ca_processor_state.init = some (true, ps, st2) ∧
      ¬ (∀ (k : Nat) (e : expr_ptr),
          (SET_with_empty_operand.operands[k]?).bind operand.expression = some e →
          ps.values[k]? = some (literal_manager.evaluate_expression_tree e).get_set_value) :=
  ⟨⟨1, none, "ARR", [.A 1, .A 3]⟩, ⟨[], [1, 1, 3], [], []⟩, by decide,
    fun h => absurd (h 2 3 rfl) (by decide)⟩

theorem prepare_SET_operands_values (mngr : expression_manager) (ops : List operand) :
    ∀ (values : List SET_t) (has_operand : Bool) (st : ca_processor_state)
      (values2 : List SET_t) (has_operand2 : Bool) (st2 : ca_processor_state),
      prepare_SET_operands mngr ops values has_operand st
        = some (true, values2, has_operand2, st2) →
      values2 = values ++ (ops.filterMap operand.expression).map
          (fun e => (mngr.evaluate_expression_tree e).get_set_value) ∧
      (∀ op ∈ ops, op.type ≠ operand_type.EMPTY → op.expression.isSome = true) := by
  induction ops with
  | nil =>
    intro values has_operand st values2 has_operand2 st2 h
    simp only [prepare_SET_operands, Option.some.injEq, Prod.mk.injEq, true_and] at h
    simp [h.1]
  | cons op ops ih =>
    intro values has_operand st values2 has_operand2 st2 h
    cases op with
    | EMPTY r =>
      simp only [prepare_SET_operands, operand.type, if_true] at h
      obtain ⟨h1, h2⟩ := ih _ _ _ _ _ _ h
      refine ⟨by simpa [operand.expression, operand.access_ca] using h1, ?_⟩
      intro o ho hne
      rcases List.mem_cons.mp ho with rfl | ho2
      · exact absurd rfl hne
      · exact h2 o ho2 hne
    | CA c =>
      simp only [prepare_SET_operands, operand.type, operand.access_ca] at h
      cases c with
      | SEQ s r => simp [ca_operand.kind] at h
      | BRANCH e s r => simp [ca_operand.kind] at h
      | VAR e v r =>
        simp [ca_operand.kind, ca_operand.access_expr] at h
        obtain ⟨h1, h2⟩ := ih _ _ _ _ _ _ h
        refine ⟨by simpa [operand.expression, operand.access_ca, ca_operand.access_expr]
          using h1, ?_⟩
        intro o ho hne
        rcases List.mem_cons.mp ho with rfl | ho2
        · rfl
        · exact h2 o ho2 hne
      | EXPR e r =>
        simp [ca_operand.kind, ca_operand.access_expr] at h
        obtain ⟨h1, h2⟩ := ih _ _ _ _ _ _ h
        refine ⟨by simpa [operand.expression, operand.access_ca, ca_operand.access_expr]
          using h1, ?_⟩
        intro o ho hne
        rcases List.mem_cons.mp ho with rfl | ho2
        · rfl
        · exact h2 o ho2 hne

theorem expression_count (l : List operand)
    (hall : ∀ op ∈ l, op.type ≠ operand_type.EMPTY → op.expression.isSome = true) :
    (l.filterMap operand.expression).length
      = (l.filter (fun o => decide (o.type ≠ operand_type.EMPTY))).length := by
  induction l with
  | nil => rfl
  | cons op ops ih =>
    have ih2 := ih (fun o ho => hall o (List.mem_cons_of_mem _ ho))
    cases op with
    | EMPTY r => simpa [operand.expression, operand.access_ca, operand.type] using ih2
    | CA c =>
      have h1 := hall (.CA c) (List.mem_cons_self _ _) (by simp [operand.type])
      obtain ⟨e, he⟩ := Option.isSome_iff_exists.mp h1
      simp [List.filterMap_cons, he, operand.type, ih2]

theorem getElem?_at_length {β : Type} (a : List β) (x : β) (b : List β) :
    (a ++ x :: b)[a.length]? = some x := by
  induction a with
  | nil => simp
  | cons y ys ih => simpa using ih

theorem value_at_position (g : expr_ptr → SET_t) (l : List operand) (k : Nat) (op : operand)
    (e : expr_ptr) (hk : l[k]? = some op) (he : op.expression = some e)
    (hall : ∀ o ∈ l, o.type ≠ operand_type.EMPTY → o.expression.isSome = true) :
    ((l.filterMap operand.expression).map g)[
        ((l.take k).filter (fun o => decide (o.type ≠ operand_type.EMPTY))).length]?
      = some (g e) := by
  have hlt : k < l.length := by
    rcases Nat.lt_or_ge k l.length with h | h
    · exact h
    · rw [List.getElem?_eq_none h] at hk; exact absurd hk (by simp)
  have hget : l[k] = op := by
    rw [List.getElem?_eq_getElem hlt] at hk; exact Option.some.inj hk
  have hsplit : l.take k ++ op :: l.drop (k + 1) = l := by
    rw [← hget, ← List.drop_eq_getElem_cons hlt, List.take_append_drop]
  have hcount := expression_count (l.take k)
    (fun o ho => hall o (List.mem_of_mem_take ho))
  rw [← hcount]
  have aux : ((List.filterMap operand.expression (l.take k ++ op :: l.drop (k + 1))).map g)[
      ((l.take k).filterMap operand.expression).length]? = some (g e) := by
    rw [List.filterMap_append, List.filterMap_cons, he, List.map_append, List.map_cons]
    have := getElem?_at_length ((List.filterMap operand.expression (l.take k)).map g) (g e)
      ((List.filterMap operand.expression (l.drop (k + 1))).map g)
    simpa using this
  rw [hsplit] at aux
  exact aux

theorem prepare_SET_accepted (mngr : expression_manager) (ctx : hlasm_context)
    (stmt : complete_statement) (type : SET_t_enum) (params ps : SET_parameters)
    (st st2 : ca_processor_state)
    (h : prepare_SET mngr ctx stmt type params st = some (true, ps, st2)) :
    ∃ has_operand st1, prepare_SET_operands mngr stmt.operands params.values false st1
      = some (true, ps.values, has_operand, st2) := by
  unfold prepare_SET at h
  split at h
  · split at h
    · simp at h
    · split_ifs at h
      · simp at h
      · split at h
        · simp at h
        · rename_i hops
          split_ifs at h
          · simp at h
          · simp at h
          · simp only [Option.some.injEq, Prod.mk.injEq, true_and] at h
            obtain ⟨rfl, rfl⟩ := h
            rename_i completed values has_operand st3 hc _
            have hc2 : completed = true := by simpa using hc
            subst hc2
            exact ⟨_, _, hops⟩
  · simp at h

/-- C8, amended: for every SET statement accepted by `prepare_SET` called with `values`
empty, `values` holds the evaluated values of the non-EMPTY operands in operand order:
the value of the non-EMPTY operand at position `k` is the element of `values` at the
position given by the number of non-EMPTY operands before `k`; when no operand is
EMPTY this position is `k` itself. -/
theorem C8_values_of_nonempty_operands (mngr : expression_manager) (ctx : hlasm_context)
    (stmt : complete_statement) (type : SET_t_enum) (params ps : SET_parameters)
    (st st2 : ca_processor_state) (hempty : params.values = [])
    (h : prepare_SET mngr ctx stmt type params st = some (true, ps, st2)) :
    ps.values = (stmt.operands.filterMap operand.expression).map
        (fun e => (mngr.evaluate_expression_tree e).get_set_value) ∧
    (∀ (k : Nat) (op : operand), stmt.operands[k]? = some op →
      op.type ≠ operand_type.EMPTY →
      ∃ e, op.expression = some e ∧
        ps.values[((stmt.operands.take k).filter
            (fun o => decide (o.type ≠ operand_type.EMPTY))).length]?
          = some (mngr.evaluate_expression_tree e).get_set_value) ∧
    ((∀ op ∈ stmt.operands, op.type ≠ operand_type.EMPTY) →
      ∀ (k : Nat) (op : operand), stmt.operands[k]? = some op →
        ∃ e, op.expression = some e ∧
          ps.values[k]? = some (mngr.evaluate_expression_tree e).get_set_value) := by
  obtain ⟨has_operand, st1, hops⟩ := prepare_SET_accepted mngr ctx stmt type params ps st st2 h
  obtain ⟨hvals, hall⟩ := prepare_SET_operands_values mngr stmt.operands _ _ _ _ _ _ hops
  rw [hempty, List.nil_append] at hvals
  have hpos : ∀ (k : Nat) (op : operand), stmt.operands[k]? = some op →
      op.type ≠ operand_type.EMPTY →
      ∃ e, op.expression = some e ∧
        ps.values[((stmt.operands.take k).filter
            (fun o => decide (o.type ≠ operand_type.EMPTY))).length]?
          = some (mngr.evaluate_expression_tree e).get_set_value := by
    intro k op hk hne
    have hmem : op ∈ stmt.operands := List.getElem?_mem hk
    obtain ⟨e, he⟩ := Option.isSome_iff_exists.mp (hall op hmem hne)
    refine ⟨e, he, ?_⟩
    rw [hvals]
    exact value_at_position _ stmt.operands k op e hk he hall
  refine ⟨hvals, hpos, ?_⟩
  intro hnone k op hk
  have hmem : op ∈ stmt.operands := List.getElem?_mem hk
  obtain ⟨e, he, hv⟩ := hpos k op hk (hnone op hmem)
  refine ⟨e, he, ?_⟩
  have hfil : (stmt.operands.take k).filter
      (fun o => decide (o.type ≠ operand_type.EMPTY)) = stmt.operands.take k := by
    apply List.filter_eq_self.mpr
    intro o ho
    simpa using hnone o (List.mem_of_mem_take ho)
  have hlt : k < stmt.operands.length := by
    rcases Nat.lt_or_ge k stmt.operands.length with hh | hh
    · exact hh
    · rw [List.getElem?_eq_none hh] at hk; exact absurd hk (by simp)
  rw [hfil, List.length_take, Nat.min_eq_left (Nat.le_of_lt hlt)] at hv
  exact hv

/-- Witness of C8 (amended) at `&ARR(1) SETA 1,,3`: `values` holds the values 1 and 3
of the two non-EMPTY operands. -/
theorem C8_values_of_nonempty_operands_witness :
    (⟨1, none, "ARR", [.A 1, .A 3]⟩ : SET_parameters).values
      = (SET_with_empty_operand.operands.filterMap operand.expression).map
          (fun e => (literal_manager.evaluate_expression_tree e).get_set_value) :=
  (C8_values_of_nonempty_operands literal_manager empty_context SET_with_empty_operand
    .A_TYPE ⟨0, none, "", []⟩ ⟨1, none, "ARR", [.A 1, .A 3]⟩ ca_processor_state.init
    ⟨[], [1, 1, 3], [], []⟩ rfl (by decide)).1

theorem register_seq_sym_frame (stmt : complete_statement) (st : ca_processor_state) :
    (register_seq_sym stmt st).jumps = st.jumps ∧
    (register_seq_sym stmt st).evaluated = st.evaluated := by
  unfold register_seq_sym
  split <;> exact ⟨rfl, rfl⟩

theorem prepare_AGO_targets_seq (symbols : List (seq_sym × range)) :
    ∀ (targets : List (id_index × range)) (st : ca_processor_state),
      prepare_AGO_targets (seq_operands symbols) targets st
        = some (true, targets ++ seq_targets symbols, st) := by
  induction symbols with
  | nil => intro targets st; simp [seq_operands, seq_targets, prepare_AGO_targets]
  | cons p ps ih =>
    intro targets st
    have := ih (targets ++ [(p.1.name, p.1.symbol_range)]) st
    simp only [seq_operands, seq_targets, List.map_cons, prepare_AGO_targets,
      operand.access_ca, ca_operand.access_seq] at this ⊢
    rw [this]
    simp

theorem find_empty_seq_operands (symbols : List (seq_sym × range)) :
    (seq_operands symbols).find? (fun op => decide (op.type = operand_type.EMPTY)) = none := by
  rw [List.find?_eq_none]
  intro x hx
  simp only [seq_operands, List.mem_map] at hx
  obtain ⟨p, _, rfl⟩ := hx
  simp [operand.type]

theorem prepare_AGO_targets_isSome (ops : List operand) :
    ∀ (targets : List (id_index × range)) (st : ca_processor_state),
      (∀ op ∈ ops, op.type ≠ operand_type.EMPTY) →
      (prepare_AGO_targets ops targets st).isSome = true := by
  induction ops with
  | nil => intro targets st _; rfl
  | cons op ops ih =>
    intro targets st hall
    cases op with
    | EMPTY r => exact absurd rfl (hall (.EMPTY r) (List.mem_cons_self _ _))
    | CA c =>
      simp only [prepare_AGO_targets, operand.access_ca]
      split
      · exact ih _ _ (fun o ho => hall o (List.mem_cons_of_mem _ ho))
      · rfl

theorem prepare_AGO_isSome (mngr : expression_manager) (stmt : complete_statement)
    (branch : A_t) (targets : List (id_index × range)) (st : ca_processor_state) :
    (prepare_AGO mngr stmt branch targets st).isSome = true := by
  unfold prepare_AGO
  rcases hops : stmt.operands with _ | ⟨op, ops⟩
  · rfl
  · simp only [List.isEmpty_cons, Bool.false_eq_true, if_false]
    rcases hfind : (op :: ops).find? (fun op => decide (op.type = operand_type.EMPTY))
      with _ | o
    · simp only [hfind]
      rw [List.find?_eq_none] at hfind
      cases op with
      | EMPTY r =>
        exact absurd (by simp [operand.type]) (hfind (.EMPTY r) (List.mem_cons_self _ _))
      | CA c =>
        simp only [List.head?_cons, Option.some_bind, operand.access_ca]
        cases c with
        | VAR e v r => rfl
        | EXPR e r => rfl
        | SEQ s r =>
          simp only []
          split_ifs
          · rfl
          · rfl
        | BRANCH e s r =>
          simp only [List.drop_one, List.tail_cons]
          have h2 := prepare_AGO_targets_isSome ops
            (targets ++ [(s.name, s.symbol_range)]) (st.evaluate e)
            (fun o ho => by
              have := hfind o (List.mem_cons_of_mem _ ho)
              simpa using this)
          obtain ⟨r2, hr2⟩ := Option.isSome_iff_exists.mp h2
          rw [hr2]
          rfl
    · simp only [hfind]; rfl

theorem prepare_AGO_bounds (branch2 : Int)
    (targets : List (id_index × range))
    (h : branch2 > 0 ∧ branch2 ≤ (targets.length : Int)) :
    ∃ t, targets[(branch2 - 1).toNat]? = some t := by
  obtain ⟨h1, h2⟩ := h
  have hlt : (branch2 - 1).toNat < targets.length := by omega
  exact ⟨targets[(branch2 - 1).toNat], List.getElem?_eq_getElem hlt⟩

theorem process_AGO_isSome (mngr : expression_manager) (stmt : complete_statement)
    (branch : A_t) (st : ca_processor_state) :
    (process_AGO mngr stmt branch st).isSome = true := by
  unfold process_AGO
  obtain ⟨r, hr⟩ := Option.isSome_iff_exists.mp
    (prepare_AGO_isSome mngr stmt branch [] (register_seq_sym stmt st))
  obtain ⟨ok, branch2, targets, st2⟩ := r
  simp only [hr]
  split_ifs with h1 h2
  · rfl
  · obtain ⟨t, ht⟩ := prepare_AGO_bounds branch2 targets h2
    rw [ht]; rfl
  · rfl

theorem prepare_AGO_form1 (mngr : expression_manager) (stmt : complete_statement)
    (branch : A_t) (targets : List (id_index × range)) (st : ca_processor_state)
    (symbol : seq_sym) (r : range) (hops : stmt.operands = [.CA (.SEQ symbol r)]) :
    prepare_AGO mngr stmt branch targets st
      = some (true, 1, targets ++ [(symbol.name, symbol.symbol_range)], st) := by
  simp [prepare_AGO, hops, operand.type, operand.access_ca]

theorem prepare_AGO_form2 (mngr : expression_manager) (stmt : complete_statement)
    (branch : A_t) (targets : List (id_index × range)) (st : ca_processor_state)
    (e : expr_ptr) (s0 : seq_sym) (r0 : range) (symbols : List (seq_sym × range))
    (hops : stmt.operands = .CA (.BRANCH e s0 r0) :: seq_operands symbols) :
    prepare_AGO mngr stmt branch targets st
      = some (true, (mngr.evaluate_expression_tree e).get_numeric_value,
          targets ++ (s0.name, s0.symbol_range) :: seq_targets symbols, st.evaluate e) := by
  have hfind : (operand.CA (.BRANCH e s0 r0) :: seq_operands symbols).find?
      (fun op => decide (op.type = operand_type.EMPTY)) = none := by
    rw [List.find?_cons_of_neg _ (by simp [operand.type])]
    exact find_empty_seq_operands symbols
  unfold prepare_AGO
  rw [hops]
  simp only [List.isEmpty_cons, Bool.false_eq_true, if_false, hfind, List.head?_cons,
    Option.some_bind, operand.access_ca, List.drop_one, List.tail_cons,
    prepare_AGO_targets_seq]
  simp

/-- C9: AGO target selection. Form 1: when the single operand is a sequence symbol,
`prepare_AGO` accepts and `process_AGO` calls `jump_in_statements` exactly once, with
that symbol. Form 2: when the first operand is a branch operand `(expr).s0` followed by
sequence-symbol operands, `prepare_AGO` accepts with `targets` the symbols in operand
order; with `k` the value of `expr`, `process_AGO` calls `jump_in_statements` exactly
once with `targets[k-1]` when `1 ≤ k ≤ n` and not at all otherwise. For every statement
`process_AGO` completes, so the index `k-1` is always within the bounds of `targets`. -/
theorem C9_AGO_target_selection (mngr : expression_manager) (stmt : complete_statement)
    (branch : A_t) (st : ca_processor_state) :
    (∀ (symbol : seq_sym) (r : range), stmt.operands = [.CA (.SEQ symbol r)] →
      prepare_AGO mngr stmt branch [] (register_seq_sym stmt st)
        = some (true, 1, [(symbol.name, symbol.symbol_range)], register_seq_sym stmt st) ∧
      ∃ st2, process_AGO mngr stmt branch st = some st2 ∧
        st2.jumps = st.jumps ++ [(symbol.name, symbol.symbol_range)] ∧
        st2.diags = (register_seq_sym stmt st).diags) ∧
    (∀ (e : expr_ptr) (s0 : seq_sym) (r0 : range) (symbols : List (seq_sym × range)),
      stmt.operands = .CA (.BRANCH e s0 r0) :: seq_operands symbols →
      prepare_AGO mngr stmt branch [] (register_seq_sym stmt st)
        = some (true, (mngr.evaluate_expression_tree e).get_numeric_value,
            (s0.name, s0.symbol_range) :: seq_targets symbols,
            (register_seq_sym stmt st).evaluate e) ∧
      (1 ≤ (mngr.evaluate_expression_tree e).get_numeric_value ∧
        (mngr.evaluate_expression_tree e).get_numeric_value ≤ (stmt.operands.length : Int) →
        ∃ t st2,
          ((s0.name, s0.symbol_range) :: seq_targets symbols)[
            ((mngr.evaluate_expression_tree e).get_numeric_value - 1).toNat]? = some t ∧
          process_AGO mngr stmt branch st = some st2 ∧
          st2.jumps = st.jumps ++ [t] ∧
          st2.diags = (register_seq_sym stmt st).diags) ∧
      (¬ (1 ≤ (mngr.evaluate_expression_tree e).get_numeric_value ∧
        (mngr.evaluate_expression_tree e).get_numeric_value ≤ (stmt.operands.length : Int)) →
        ∃ st2, process_AGO mngr stmt branch st = some st2 ∧
          st2.jumps = st.jumps ∧
          st2.diags = (register_seq_sym stmt st).diags)) ∧
    (process_AGO mngr stmt branch st).isSome = true := by
  refine ⟨?_, ?_, process_AGO_isSome mngr stmt branch st⟩
  · intro symbol r hops
    have hp := prepare_AGO_form1 mngr stmt branch [] (register_seq_sym stmt st) symbol r hops
    rw [List.nil_append] at hp
    refine ⟨hp, ?_⟩
    refine ⟨(register_seq_sym stmt st).jump_in_statements symbol.name symbol.symbol_range,
      ?_, ?_, rfl⟩
    · simp [process_AGO, hp]
    · simp [ca_processor_state.jump_in_statements, (register_seq_sym_frame stmt st).1]
  · intro e s0 r0 symbols hops
    have hp := prepare_AGO_form2 mngr stmt branch [] (register_seq_sym stmt st) e s0 r0
      symbols hops
    rw [List.nil_append] at hp
    have hlen : ((s0.name, s0.symbol_range) :: seq_targets symbols).length
        = stmt.operands.length := by
      simp [hops, seq_targets, seq_operands]
    refine ⟨hp, ?_, ?_⟩
    · intro hk
      have hk2 : (mngr.evaluate_expression_tree e).get_numeric_value > 0 ∧
          (mngr.evaluate_expression_tree e).get_numeric_value
            ≤ (((s0.name, s0.symbol_range) :: seq_targets symbols).length : Int) := by
        rw [hlen]; exact ⟨Order.one_le_iff_pos.mp hk.1, hk.2⟩
      obtain ⟨t, ht⟩ := prepare_AGO_bounds _ _ hk2
      refine ⟨t, ((register_seq_sym stmt st).evaluate e).jump_in_statements t.1 t.2,
        ht, ?_, ?_, rfl⟩
      · unfold process_AGO
        simp only [hp, Bool.not_true, Bool.false_eq_true, if_false, if_pos hk2, ht]
      · simp [ca_processor_state.jump_in_statements, ca_processor_state.evaluate,
          (register_seq_sym_frame stmt st).1]
    · intro hk
      have hk2 : ¬ ((mngr.evaluate_expression_tree e).get_numeric_value > 0 ∧
          (mngr.evaluate_expression_tree e).get_numeric_value
            ≤ (((s0.name, s0.symbol_range) :: seq_targets symbols).length : Int)) := by
        rw [hlen]; intro h; exact hk ⟨Order.one_le_iff_pos.mpr h.1, h.2⟩
      refine ⟨(register_seq_sym stmt st).evaluate e, ?_, ?_, rfl⟩
      · unfold process_AGO
        simp only [hp, Bool.not_true, Bool.false_eq_true, if_false, if_neg hk2]
      · simp [ca_processor_state.evaluate, (register_seq_sym_frame stmt st).1]

/-- Witness of C9, scenario S3: `AGO (2).L1,.L2,.L3` jumps exactly once, to `.L2`. -/
theorem C9_AGO_target_selection_witness :
    ∃ t st2,
      ((".L1", (⟨⟨1, 19⟩, ⟨1, 22⟩⟩ : range)) :: seq_targets
          [(⟨".L2", ⟨⟨1, 23⟩, ⟨1, 26⟩⟩⟩, ⟨⟨1, 23⟩, ⟨1, 26⟩⟩),
           (⟨".L3", ⟨⟨1, 27⟩, ⟨1, 30⟩⟩⟩, ⟨⟨1, 27⟩, ⟨1, 30⟩⟩)])[
        ((literal_manager.evaluate_expression_tree 2).get_numeric_value - 1).toNat]? = some t ∧
      process_AGO literal_manager S3_statement 0 ca_processor_state.init = some st2 ∧
      st2.jumps = ca_processor_state.init.jumps ++ [t] ∧
      st2.diags = (register_seq_sym S3_statement ca_processor_state.init).diags :=
  ((C9_AGO_target_selection literal_manager S3_statement 0 ca_processor_state.init).2.1
    2 ⟨".L1", ⟨⟨1, 19⟩, ⟨1, 22⟩⟩⟩ ⟨⟨1, 16⟩, ⟨1, 22⟩⟩
    [(⟨".L2", ⟨⟨1, 23⟩, ⟨1, 26⟩⟩⟩, ⟨⟨1, 23⟩, ⟨1, 26⟩⟩),
     (⟨".L3", ⟨⟨1, 27⟩, ⟨1, 30⟩⟩⟩, ⟨⟨1, 27⟩, ⟨1, 30⟩⟩)] rfl).2.1 (by decide)

theorem prepare_AGO_first_empty (mngr : expression_manager) (stmt : complete_statement)
    (branch : A_t) (targets : List (id_index × range)) (st : ca_processor_state)
    (pre : List operand) (op : operand) (post : List operand)
    (hops : stmt.operands = pre ++ op :: post)
    (hpre : ∀ o ∈ pre, o.type ≠ operand_type.EMPTY) (hop : op.type = operand_type.EMPTY) :
    prepare_AGO mngr stmt branch targets st
      = some (false, branch, targets,
          st.add_diagnostic (error_E010 "operand" op.operand_range)) := by
  have hfind : stmt.operands.find? (fun o => decide (o.type = operand_type.EMPTY))
      = some op := by
    rw [hops, List.find?_append]
    have h1 : pre.find? (fun o => decide (o.type = operand_type.EMPTY)) = none := by
      rw [List.find?_eq_none]
      intro x hx
      simpa using hpre x hx
    rw [h1, List.find?_cons_of_pos _ (by simpa using hop)]
    rfl
  have hne : stmt.operands.isEmpty = false := by
    rw [hops]; cases pre <;> rfl
  unfold prepare_AGO
  simp only [hne, Bool.false_eq_true, if_false, hfind]

theorem exists_first_empty (l : List operand)
    (h : ∃ o ∈ l, o.type = operand_type.EMPTY) :
    ∃ pre op post, l = pre ++ op :: post ∧
      (∀ o ∈ pre, o.type ≠ operand_type.EMPTY) ∧ op.type = operand_type.EMPTY := by
  induction l with
  | nil => obtain ⟨o, ho, _⟩ := h; exact absurd ho (List.not_mem_nil o)
  | cons x xs ih =>
    by_cases hx : x.type = operand_type.EMPTY
    · exact ⟨[], x, xs, rfl, fun o ho => absurd ho (List.not_mem_nil o), hx⟩
    · obtain ⟨o, ho, hoe⟩ := h
      rcases List.mem_cons.mp ho with rfl | ho2
      · exact absurd hoe hx
      · obtain ⟨pre, op, post, hl, hpre, hop⟩ := ih ⟨o, ho2, hoe⟩
        refine ⟨x :: pre, op, post, by rw [hl]; rfl, ?_, hop⟩
        intro y hy
        rcases List.mem_cons.mp hy with rfl | hy2
        · exact hx
        · exact hpre y hy2

/-- C10: AGO form errors. With an empty operand list `prepare_AGO` returns `false` with
exactly one diagnostic, E022; with a non-empty operand list containing an EMPTY operand
it returns `false` with exactly one diagnostic, E010 on the range of the first EMPTY
operand; in both cases no expression is evaluated and `process_AGO` performs no jump. -/
theorem C10_AGO_form_errors (mngr : expression_manager) (stmt : complete_statement)
    (branch : A_t) (targets : List (id_index × range)) (st : ca_processor_state) :
    (stmt.operands = [] →
      (∃ st2, prepare_AGO mngr stmt branch targets st = some (false, branch, targets, st2) ∧
        st2.diags = st.diags ++ [error_E022 "AGO" stmt.instruction_range] ∧
        st2.evaluated = st.evaluated) ∧
      (∃ st3, process_AGO mngr stmt branch st = some st3 ∧
        st3.jumps = st.jumps ∧ st3.evaluated = st.evaluated)) ∧
    ((∃ o ∈ stmt.operands, o.type = operand_type.EMPTY) →
      ∃ pre op post, stmt.operands = pre ++ op :: post ∧
        (∀ o ∈ pre, o.type ≠ operand_type.EMPTY) ∧ op.type = operand_type.EMPTY ∧
        (∃ st2, prepare_AGO mngr stmt branch targets st
            = some (false, branch, targets, st2) ∧
          st2.diags = st.diags ++ [error_E010 "operand" op.operand_range] ∧
          st2.evaluated = st.evaluated) ∧
        (∃ st3, process_AGO mngr stmt branch st = some st3 ∧
          st3.jumps = st.jumps ∧ st3.evaluated = st.evaluated)) := by
  constructor
  · intro hops
    have hp : ∀ b t s, prepare_AGO mngr stmt b t s
        = some (false, b, t, s.add_diagnostic (error_E022 "AGO" stmt.instruction_range)) := by
      intro b t s
      simp [prepare_AGO, hops]
    refine ⟨⟨_, hp branch targets st, rfl, rfl⟩, ?_⟩
    refine ⟨(register_seq_sym stmt st).add_diagnostic
      (error_E022 "AGO" stmt.instruction_range), ?_, ?_, ?_⟩
    · simp [process_AGO, hp]
    · exact (register_seq_sym_frame stmt st).1
    · exact (register_seq_sym_frame stmt st).2
  · intro hex
    obtain ⟨pre, op, post, hops, hpre, hop⟩ := exists_first_empty stmt.operands hex
    have hp : ∀ b t s, prepare_AGO mngr stmt b t s
        = some (false, b, t, s.add_diagnostic (error_E010 "operand" op.operand_range)) :=
      fun b t s => prepare_AGO_first_empty mngr stmt b t s pre op post hops hpre hop
    refine ⟨pre, op, post, hops, hpre, hop, ⟨_, hp branch targets st, rfl, rfl⟩, ?_⟩
    refine ⟨(register_seq_sym stmt st).add_diagnostic
      (error_E010 "operand" op.operand_range), ?_, ?_, ?_⟩
    · simp [process_AGO, hp]
    · exact (register_seq_sym_frame stmt st).1
    · exact (register_seq_sym_frame stmt st).2

/-- Witness of C10: `AGO` without operands gives E022 and `AGO (2).L1,,.L3` gives E010
on its empty second operand; neither jumps nor evaluates. -/
theorem C10_AGO_form_errors_witness :
    ((∃ st2, prepare_AGO literal_manager AGO_without_operand 0 [] ca_processor_state.init
          = some (false, 0, [], st2) ∧
        st2.diags = ca_processor_state.init.diags
          ++ [error_E022 "AGO" AGO_without_operand.instruction_range] ∧
        st2.evaluated = ca_processor_state.init.evaluated) ∧
      (∃ st3, process_AGO literal_manager AGO_without_operand 0 ca_processor_state.init
          = some st3 ∧
        st3.jumps = ca_processor_state.init.jumps ∧
        st3.evaluated = ca_processor_state.init.evaluated)) ∧
    (∃ pre op post, AGO_with_empty_operand.operands = pre ++ op :: post ∧
        (∀ o ∈ pre, o.type ≠ operand_type.EMPTY) ∧ op.type = operand_type.EMPTY ∧
        (∃ st2, prepare_AGO literal_manager AGO_with_empty_operand 0 []
              ca_processor_state.init = some (false, 0, [], st2) ∧
          st2.diags = ca_processor_state.init.diags
            ++ [error_E010 "operand" op.operand_range] ∧
          st2.evaluated = ca_processor_state.init.evaluated) ∧
        (∃ st3, process_AGO literal_manager AGO_with_empty_operand 0
              ca_processor_state.init = some st3 ∧
          st3.jumps = ca_processor_state.init.jumps ∧
          st3.evaluated = ca_processor_state.init.evaluated)) :=
  ⟨(C10_AGO_form_errors literal_manager AGO_without_operand 0 []
      ca_processor_state.init).1 rfl,
   (C10_AGO_form_errors literal_manager AGO_with_empty_operand 0 []
      ca_processor_state.init).2 ⟨.EMPTY ⟨⟨1, 23⟩, ⟨1, 23⟩⟩, by decide, rfl⟩⟩

theorem evaluate_all_nil (st : ca_processor_state) : st.evaluate_all [] = st := by
  simp [ca_processor_state.evaluate_all]

theorem evaluate_evaluate_all (st : ca_processor_state) (e : expr_ptr) (es : List expr_ptr) :
    (st.evaluate e).evaluate_all es = st.evaluate_all (e :: es) := by
  simp [ca_processor_state.evaluate_all, ca_processor_state.evaluate]

theorem evaluate_all_evaluate (st : ca_processor_state) (e : expr_ptr) (es : List expr_ptr) :
    (st.evaluate_all es).evaluate e = st.evaluate_all (es ++ [e]) := by
  simp [ca_processor_state.evaluate_all, ca_processor_state.evaluate]

theorem zero_branches_condition (bs : List (expr_ptr × seq_sym × range)) :
    ∀ params : AIF_parameters, params.condition = false →
      (zero_branches_parameters params bs).condition = false := by
  induction bs with
  | nil => intro params h; exact h
  | cons b bs ih => intro params _; exact ih _ rfl

/-- A run of branch operands whose conditions are all zero is evaluated in full and
leaves `condition` false. -/
theorem AIF_operands_zeros (mngr : expression_manager)
    (pre : List (expr_ptr × seq_sym × range)) :
    ∀ (rest : List operand) (params : AIF_parameters) (has_operand : Bool)
      (st : ca_processor_state),
      params.condition = false →
      (∀ b ∈ pre, (mngr.evaluate_expression_tree b.1).get_numeric_value = 0) →
      prepare_AIF_operands mngr (branch_operands pre ++ rest) params has_operand st
        = prepare_AIF_operands mngr rest (zero_branches_parameters params pre)
            (has_operand || !pre.isEmpty) (st.evaluate_all (pre.map (fun b => b.1))) := by
  induction pre with
  | nil =>
    intro rest params has_operand st _ _
    simp [branch_operands, zero_branches_parameters, evaluate_all_nil]
  | cons b bs ih =>
    intro rest params has_operand st hc hz
    have hb : (mngr.evaluate_expression_tree b.1).get_numeric_value = 0 :=
      hz b (List.mem_cons_self _ _)
    have hrest := ih rest ⟨false, b.2.1.name, b.2.1.symbol_range⟩ true (st.evaluate b.1) rfl
      (fun x hx => hz x (List.mem_cons_of_mem _ hx))
    simp only [branch_operands, List.map_cons, List.cons_append] at hrest ⊢
    simp only [prepare_AIF_operands, operand.type, operand.access_ca, ca_operand.kind,
      ca_operand.access_branch, hc, hb]
    simp only [reduceCtorEq, if_false, if_true, Bool.not_false, ne_eq, not_true_eq_false,
      decide_False]
    rw [hrest, evaluate_evaluate_all]
    simp [zero_branches_parameters]

/-- Once `condition` is true the remaining branch operands, and a trailing EMPTY
operand, are passed over without evaluation. -/
theorem AIF_operands_after_true (mngr : expression_manager)
    (post : List (expr_ptr × seq_sym × range)) (tail : List operand)
    (htail : tail = [] ∨ ∃ r, tail = [operand.EMPTY r]) :
    ∀ (params : AIF_parameters) (st : ca_processor_state),
      params.condition = true →
      prepare_AIF_operands mngr (branch_operands post ++ tail) params true st
        = some (true, params, true, st) := by
  induction post with
  | nil =>
    intro params st _
    rcases htail with rfl | ⟨r, rfl⟩
    · simp [branch_operands, prepare_AIF_operands]
    · simp [branch_operands, prepare_AIF_operands, operand.type]
  | cons b bs ih =>
    intro params st hc
    have := ih params st hc
    simp only [branch_operands, List.map_cons, List.cons_append] at this ⊢
    simp only [prepare_AIF_operands, operand.type, operand.access_ca, ca_operand.kind, hc]
    simpa using this

theorem AIF_operands_trailing_empty (mngr : expression_manager)
    (branches : List (expr_ptr × seq_sym × range)) (r : range) :
    ∀ (params : AIF_parameters) (has_operand : Bool) (st : ca_processor_state),
      prepare_AIF_operands mngr (branch_operands branches ++ [operand.EMPTY r]) params
          has_operand st
        = prepare_AIF_operands mngr (branch_operands branches) params has_operand st := by
  induction branches with
  | nil =>
    intro params has_operand st
    simp [branch_operands, prepare_AIF_operands, operand.type]
  | cons b bs ih =>
    intro params has_operand st
    simp only [branch_operands, List.map_cons, List.cons_append] at ih ⊢
    simp only [prepare_AIF_operands, operand.type, operand.access_ca, ca_operand.kind,
      ca_operand.access_branch, ih, reduceCtorEq, if_false]

theorem prepare_AIF_first_true (mngr : expression_manager) (stmt : complete_statement)
    (locals : AIF_parameters) (st : ca_processor_state)
    (pre : List (expr_ptr × seq_sym × range)) (b : expr_ptr × seq_sym × range)
    (post : List (expr_ptr × seq_sym × range)) (tail : List operand)
    (htail : tail = [] ∨ ∃ r, tail = [operand.EMPTY r])
    (hops : stmt.operands = branch_operands (pre ++ b :: post) ++ tail)
    (hz : ∀ p ∈ pre, (mngr.evaluate_expression_tree p.1).get_numeric_value = 0)
    (hb : (mngr.evaluate_expression_tree b.1).get_numeric_value ≠ 0) :
    prepare_AIF mngr stmt locals st
      = some (true, ⟨true, b.2.1.name, b.2.1.symbol_range⟩,
          st.evaluate_all ((pre ++ [b]).map (fun x => x.1))) := by
  have hsplit : stmt.operands = branch_operands pre
      ++ (operand.CA (.BRANCH b.1 b.2.1 b.2.2) :: (branch_operands post ++ tail)) := by
    rw [hops]; simp [branch_operands]
  have hne : stmt.operands.isEmpty = false := by
    rw [hsplit]; cases pre <;> rfl
  have hcond : (zero_branches_parameters { locals with condition := false } pre).condition
      = false := zero_branches_condition pre _ rfl
  have hloop : prepare_AIF_operands mngr stmt.operands { locals with condition := false }
      false st = some (true, ⟨true, b.2.1.name, b.2.1.symbol_range⟩, true,
        st.evaluate_all ((pre ++ [b]).map (fun x => x.1))) := by
    rw [hsplit, AIF_operands_zeros mngr pre _ _ _ _ rfl hz]
    simp only [prepare_AIF_operands, operand.type, operand.access_ca, ca_operand.kind,
      ca_operand.access_branch, hcond, reduceCtorEq, if_false, if_true, Bool.not_false]
    have hd : decide ((mngr.evaluate_expression_tree b.1).get_numeric_value ≠ 0) = true := by
      simpa using hb
    rw [hd, AIF_operands_after_true mngr post tail htail _ _ rfl, evaluate_all_evaluate]
    simp
  unfold prepare_AIF
  simp only [hne, hloop]
  simp

theorem prepare_AIF_all_zero (mngr : expression_manager) (stmt : complete_statement)
    (locals : AIF_parameters) (st : ca_processor_state)
    (branches : List (expr_ptr × seq_sym × range)) (tail : List operand)
    (hne : branches ≠ []) (htail : tail = [] ∨ ∃ r, tail = [operand.EMPTY r])
    (hops : stmt.operands = branch_operands branches ++ tail)
    (hz : ∀ p ∈ branches, (mngr.evaluate_expression_tree p.1).get_numeric_value = 0) :
    prepare_AIF mngr stmt locals st
      = some (true, zero_branches_parameters { locals with condition := false } branches,
          st.evaluate_all (branches.map (fun x => x.1))) := by
  have hempty : stmt.operands.isEmpty = false := by
    rw [hops]
    cases branches with
    | nil => exact absurd rfl hne
    | cons b bs => rfl
  have hb : (!branches.isEmpty) = true := by
    cases branches with
    | nil => exact absurd rfl hne
    | cons b bs => rfl
  have hloop : prepare_AIF_operands mngr stmt.operands { locals with condition := false }
      false st = some (true,
        zero_branches_parameters { locals with condition := false } branches, true,
        st.evaluate_all (branches.map (fun x => x.1))) := by
    rw [hops, AIF_operands_zeros mngr branches _ _ _ _ rfl hz, hb]
    rcases htail with rfl | ⟨r, rfl⟩
    · simp [prepare_AIF_operands]
    · simp [prepare_AIF_operands, operand.type]
  unfold prepare_AIF
  simp only [hempty, hloop]
  simp

theorem exists_first_nonzero (f : expr_ptr → Int) (l : List (expr_ptr × seq_sym × range))
    (h : ∃ b ∈ l, f b.1 ≠ 0) :
    ∃ pre b post, l = pre ++ b :: post ∧ (∀ p ∈ pre, f p.1 = 0) ∧ f b.1 ≠ 0 := by
  induction l with
  | nil => obtain ⟨b, hb, _⟩ := h; exact absurd hb (List.not_mem_nil b)
  | cons x xs ih =>
    by_cases hx : f x.1 = 0
    · obtain ⟨b, hb, hbn⟩ := h
      rcases List.mem_cons.mp hb with rfl | hb2
      · exact absurd hx hbn
      · obtain ⟨pre, c, post, hl, hpre, hc⟩ := ih ⟨b, hb2, hbn⟩
        refine ⟨x :: pre, c, post, by rw [hl]; rfl, ?_, hc⟩
        intro p hp
        rcases List.mem_cons.mp hp with rfl | hp2
        · exact hx
        · exact hpre p hp2
    · exact ⟨[], x, xs, rfl, fun p hp => absurd hp (List.not_mem_nil p), hx⟩

theorem register_seq_sym_diags_frame (stmt : complete_statement) (st : ca_processor_state)
    (es : List expr_ptr) :
    ((register_seq_sym stmt st).evaluate_all es).jumps = st.jumps ∧
    ((register_seq_sym stmt st).evaluate_all es).diags = (register_seq_sym stmt st).diags ∧
    ((register_seq_sym stmt st).evaluate_all es).registered
      = (register_seq_sym stmt st).registered :=
  ⟨(register_seq_sym_frame stmt st).1, rfl, rfl⟩

/-- C11: AIF target selection. For an AIF statement whose operands are one or more
branch operands `(e_i).s_i`, optionally followed by one trailing EMPTY operand,
`prepare_AIF` returns `true` with no diagnostic; `condition` is true iff some `e_i` is
non-zero; then `target` is `s_j` for the least `j` with `e_j` non-zero, exactly
`e_1 .. e_j` are evaluated, and `process_AIF` calls `jump_in_statements` exactly once,
with that target; when all conditions are zero `process_AIF` does not jump. The
trailing EMPTY operand does not change the result. -/
theorem C11_AIF_target_selection (mngr : expression_manager) (stmt : complete_statement)
    (locals : AIF_parameters) (st : ca_processor_state)
    (branches : List (expr_ptr × seq_sym × range)) (tail : List operand)
    (hne : branches ≠ []) (htail : tail = [] ∨ ∃ r, tail = [operand.EMPTY r])
    (hops : stmt.operands = branch_operands branches ++ tail) :
    (∃ params st2, prepare_AIF mngr stmt locals st = some (true, params, st2) ∧
      st2.diags = st.diags ∧
      (params.condition = true ↔
        ∃ b ∈ branches, (mngr.evaluate_expression_tree b.1).get_numeric_value ≠ 0)) ∧
    (∀ pre b post, branches = pre ++ b :: post →
      (∀ p ∈ pre, (mngr.evaluate_expression_tree p.1).get_numeric_value = 0) →
      (mngr.evaluate_expression_tree b.1).get_numeric_value ≠ 0 →
      prepare_AIF mngr stmt locals st
        = some (true, ⟨true, b.2.1.name, b.2.1.symbol_range⟩,
            st.evaluate_all ((pre ++ [b]).map (fun x => x.1))) ∧
      ∃ st3, process_AIF mngr stmt locals st = some st3 ∧
        st3.jumps = st.jumps ++ [(b.2.1.name, b.2.1.symbol_range)] ∧
        st3.diags = (register_seq_sym stmt st).diags) ∧
    ((∀ p ∈ branches, (mngr.evaluate_expression_tree p.1).get_numeric_value = 0) →
      ∃ st3, process_AIF mngr stmt locals st = some st3 ∧ st3.jumps = st.jumps ∧
        st3.diags = (register_seq_sym stmt st).diags) ∧
    (∀ r,
      prepare_AIF mngr { stmt with operands := branch_operands branches ++ [operand.EMPTY r] }
          locals st
        = prepare_AIF mngr { stmt with operands := branch_operands branches } locals st ∧
      process_AIF mngr { stmt with operands := branch_operands branches ++ [operand.EMPTY r] }
          locals st
        = process_AIF mngr { stmt with operands := branch_operands branches } locals st) := by
  refine ⟨?_, ?_, ?_, ?_⟩
  · by_cases hex : ∃ b ∈ branches, (mngr.evaluate_expression_tree b.1).get_numeric_value ≠ 0
    · obtain ⟨pre, b, post, hl, hz, hb⟩ := exists_first_nonzero
        (fun e => (mngr.evaluate_expression_tree e).get_numeric_value) branches hex
      refine ⟨_, _, prepare_AIF_first_true mngr stmt locals st pre b post tail htail
        (by rw [hops, hl]) hz hb, rfl, ?_⟩
      exact ⟨fun _ => hex, fun _ => rfl⟩
    · have hz : ∀ p ∈ branches,
          (mngr.evaluate_expression_tree p.1).get_numeric_value = 0 := by
        intro p hp
        by_contra hp0
        exact hex ⟨p, hp, hp0⟩
      refine ⟨_, _, prepare_AIF_all_zero mngr stmt locals st branches tail hne htail hops hz,
        rfl, ?_⟩
      constructor
      · intro hc
        rw [zero_branches_condition branches _ rfl] at hc
        exact absurd hc (by simp)
      · intro h; exact absurd h hex
  · intro pre b post hl hz hb
    have hp := fun s => prepare_AIF_first_true mngr stmt locals s pre b post tail htail
      (by rw [hops, hl]) hz hb
    refine ⟨hp st, ?_⟩
    refine ⟨((register_seq_sym stmt st).evaluate_all
      ((pre ++ [b]).map (fun x => x.1))).jump_in_statements b.2.1.name b.2.1.symbol_range,
      ?_, ?_, rfl⟩
    · simp [process_AIF, hp]
    · simp [ca_processor_state.jump_in_statements, ca_processor_state.evaluate_all,
        (register_seq_sym_frame stmt st).1]
  · intro hz
    have hp := fun s => prepare_AIF_all_zero mngr stmt locals s branches tail hne htail hops hz
    refine ⟨(register_seq_sym stmt st).evaluate_all (branches.map (fun x => x.1)), ?_,
      (register_seq_sym_frame stmt st).1, rfl⟩
    have hc : (zero_branches_parameters { locals with condition := false } branches).condition
        = false := zero_branches_condition branches _ rfl
    simp [process_AIF, hp, hc]
  · intro r
    have hempty1 : (branch_operands branches ++ [operand.EMPTY r]).isEmpty = false := by
      cases branches with
      | nil => exact absurd rfl hne
      | cons b bs => rfl
    have hempty2 : (branch_operands branches).isEmpty = false := by
      cases branches with
      | nil => exact absurd rfl hne
      | cons b bs => rfl
    have hprep : ∀ s, prepare_AIF mngr
        { stmt with operands := branch_operands branches ++ [operand.EMPTY r] } locals s
        = prepare_AIF mngr { stmt with operands := branch_operands branches } locals s := by
      intro s
      simp only [prepare_AIF, hempty1, hempty2, AIF_operands_trailing_empty]
    refine ⟨hprep st, ?_⟩
    have hreg : register_seq_sym
        { stmt with operands := branch_operands branches ++ [operand.EMPTY r] } st
        = register_seq_sym { stmt with operands := branch_operands branches } st := rfl
    simp only [process_AIF, hreg, hprep]

/-- Witness of C11 at `AIF (0).A,(5).B,(1).C`: the first non-zero condition is the
second one, only the first two conditions are evaluated, and the jump goes to `.B`. -/
theorem C11_AIF_target_selection_witness :
    prepare_AIF literal_manager AIF_statement AIF_locals ca_processor_state.init
      = some (true, ⟨true, ".B", ⟨⟨1, 25⟩, ⟨1, 27⟩⟩⟩,
          ca_processor_state.init.evaluate_all [0, 5]) ∧
    ∃ st3, process_AIF literal_manager AIF_statement AIF_locals ca_processor_state.init
        = some st3 ∧
      st3.jumps = ca_processor_state.init.jumps ++ [(".B", ⟨⟨1, 25⟩, ⟨1, 27⟩⟩)] ∧
      st3.diags = (register_seq_sym AIF_statement ca_processor_state.init).diags :=
  (C11_AIF_target_selection literal_manager AIF_statement AIF_locals ca_processor_state.init
    [(0, ⟨".A", ⟨⟨1, 19⟩, ⟨1, 21⟩⟩⟩, ⟨⟨1, 16⟩, ⟨1, 21⟩⟩),
     (5, ⟨".B", ⟨⟨1, 25⟩, ⟨1, 27⟩⟩⟩, ⟨⟨1, 22⟩, ⟨1, 27⟩⟩),
     (1, ⟨".C", ⟨⟨1, 31⟩, ⟨1, 33⟩⟩⟩, ⟨⟨1, 28⟩, ⟨1, 33⟩⟩)] []
    (by simp) (Or.inl rfl) rfl).2.1
    [(0, ⟨".A", ⟨⟨1, 19⟩, ⟨1, 21⟩⟩⟩, ⟨⟨1, 16⟩, ⟨1, 21⟩⟩)]
    (5, ⟨".B", ⟨⟨1, 25⟩, ⟨1, 27⟩⟩⟩, ⟨⟨1, 22⟩, ⟨1, 27⟩⟩)
    [(1, ⟨".C", ⟨⟨1, 31⟩, ⟨1, 33⟩⟩⟩, ⟨⟨1, 28⟩, ⟨1, 33⟩⟩)]
    rfl (by decide) (by decide)

/-- C16: MEND and MEXIT. When the context is not in a macro, `process_MEND` and
`process_MEXIT` each add exactly one diagnostic, E054 on the statement range, and change
nothing else, whatever the label and the operands: no W010, no sequence-symbol
registration, no call of `leave_macro`, context unchanged. When the context is in a
macro neither adds a diagnostic; `process_MEXIT` calls `leave_macro` exactly once and
`process_MEND` changes nothing. -/
theorem C16_MEND_MEXIT (stmt : complete_statement) (p : ca_processor) :
    (p.hlasm_ctx.is_in_macro = false →
      p.process_MEND stmt
          = { p with state := p.state.add_diagnostic (error_E054 stmt.stmt_range) } ∧
      p.process_MEXIT stmt
          = { p with state := p.state.add_diagnostic (error_E054 stmt.stmt_range) } ∧
      (p.process_MEND stmt).state.diags = p.state.diags ++ [error_E054 stmt.stmt_range] ∧
      (p.process_MEXIT stmt).state.diags = p.state.diags ++ [error_E054 stmt.stmt_range] ∧
      (p.process_MEND stmt).state.registered = p.state.registered ∧
      (p.process_MEXIT stmt).state.registered = p.state.registered ∧
      (p.process_MEND stmt).hlasm_ctx = p.hlasm_ctx ∧
      (p.process_MEXIT stmt).hlasm_ctx = p.hlasm_ctx) ∧
    (p.hlasm_ctx.is_in_macro = true →
      p.process_MEND stmt = p ∧
      p.process_MEXIT stmt = { p with hlasm_ctx := p.hlasm_ctx.leave_macro } ∧
      (p.process_MEXIT stmt).state = p.state ∧
      (p.process_MEXIT stmt).hlasm_ctx.leave_macro_calls
        = p.hlasm_ctx.leave_macro_calls + 1) := by
  constructor
  · intro h
    simp [ca_processor.process_MEND, ca_processor.process_MEXIT, h,
      ca_processor_state.add_diagnostic]
  · intro h
    simp [ca_processor.process_MEND, ca_processor.process_MEXIT, h,
      context_state.leave_macro]

/-- Witness of C16: `.L MEND` in opencode gives exactly E054 and registers nothing;
inside a macro `MEXIT` calls `leave_macro` once. -/
theorem C16_MEND_MEXIT_witness :
    (opencode_processor.process_MEND MEND_with_label).state.diags
      = opencode_processor.state.diags ++ [error_E054 MEND_with_label.stmt_range] ∧
    (opencode_processor.process_MEND MEND_with_label).state.registered
      = opencode_processor.state.registered ∧
    (in_macro_processor.process_MEXIT MEND_with_label).hlasm_ctx.leave_macro_calls
      = in_macro_processor.hlasm_ctx.leave_macro_calls + 1 :=
  ⟨((C16_MEND_MEXIT MEND_with_label opencode_processor).1 (by decide)).2.2.1,
   ((C16_MEND_MEXIT MEND_with_label opencode_processor).1 (by decide)).2.2.2.2.1,
   ((C16_MEND_MEXIT MEND_with_label in_macro_processor).2 (by decide)).2.2.2⟩

theorem kind_expr_or_var_access_expr (c : ca_operand)
    (h : c.kind = ca_kind.EXPR ∨ c.kind = ca_kind.VAR) :
    ∃ e, c.access_expr = some e := by
  cases c with
  | VAR e v r => exact ⟨e, rfl⟩
  | EXPR e r => exact ⟨e, rfl⟩
  | SEQ s r => rcases h with h | h <;> simp [ca_operand.kind] at h
  | BRANCH e s r => rcases h with h | h <;> simp [ca_operand.kind] at h

theorem prepare_ACTR_accepts (mngr : expression_manager) (stmt : complete_statement)
    (ctr : A_t) (st : ca_processor_state) (c : ca_operand) (e : expr_ptr)
    (hops : stmt.operands = [operand.CA c])
    (hk : c.kind = ca_kind.EXPR ∨ c.kind = ca_kind.VAR) (he : c.access_expr = some e) :
    prepare_ACTR mngr stmt ctr st
      = some (true, (mngr.evaluate_expression_tree e).get_numeric_value, st.evaluate e) := by
  simp [prepare_ACTR, hops, operand.access_ca, hk, he]

theorem prepare_ACTR_other_kind (mngr : expression_manager) (stmt : complete_statement)
    (ctr : A_t) (st : ca_processor_state) (c : ca_operand)
    (hops : stmt.operands = [operand.CA c])
    (hk : ¬ (c.kind = ca_kind.EXPR ∨ c.kind = ca_kind.VAR)) :
    prepare_ACTR mngr stmt ctr st
      = some (false, ctr, st.add_diagnostic (error_E010 "operand" c.operand_range)) := by
  simp [prepare_ACTR, hops, operand.access_ca, hk]

theorem prepare_ACTR_count (mngr : expression_manager) (stmt : complete_statement)
    (ctr : A_t) (st : ca_processor_state) (hlen : stmt.operands.length ≠ 1) :
    prepare_ACTR mngr stmt ctr st
      = some (false, ctr, st.add_diagnostic (error_E020 "operand" stmt.instruction_range)) := by
  simp [prepare_ACTR, hlen]

/-- C19: ACTR. `prepare_ACTR` returns `true` iff the statement has exactly one operand
and that operand is of kind EXPR or VAR; then `ctr` is the numeric value of the
evaluated operand, whatever its sign, no diagnostic is added, and `process_ACTR` sets
the branch counter to exactly that value. With an operand count other than 1 it returns
`false` with exactly one E020, with a single operand of another kind it returns `false`
with exactly one E010, and then the branch counter is unchanged. -/
theorem C19_ACTR (mngr : expression_manager) (stmt : complete_statement) (ctr : A_t)
    (p : ca_processor) :
    ((∃ ctr2 st2, prepare_ACTR mngr stmt ctr p.state = some (true, ctr2, st2)) ↔
      ∃ c, stmt.operands = [operand.CA c] ∧
        (c.kind = ca_kind.EXPR ∨ c.kind = ca_kind.VAR)) ∧
    (∀ c e, stmt.operands = [operand.CA c] →
      (c.kind = ca_kind.EXPR ∨ c.kind = ca_kind.VAR) → c.access_expr = some e →
      prepare_ACTR mngr stmt ctr p.state
        = some (true, (mngr.evaluate_expression_tree e).get_numeric_value,
            p.state.evaluate e) ∧
      (p.state.evaluate e).diags = p.state.diags ∧
      ∃ p2, p.process_ACTR mngr stmt ctr = some p2 ∧
        p2.hlasm_ctx.branch_counter
          = (mngr.evaluate_expression_tree e).get_numeric_value ∧
        p2.state.diags = (register_seq_sym stmt p.state).diags) ∧
    (stmt.operands.length ≠ 1 →
      prepare_ACTR mngr stmt ctr p.state
        = some (false, ctr,
            p.state.add_diagnostic (error_E020 "operand" stmt.instruction_range)) ∧
      ∃ p2, p.process_ACTR mngr stmt ctr = some p2 ∧ p2.hlasm_ctx = p.hlasm_ctx) ∧
    (∀ c, stmt.operands = [operand.CA c] →
      ¬ (c.kind = ca_kind.EXPR ∨ c.kind = ca_kind.VAR) →
      prepare_ACTR mngr stmt ctr p.state
        = some (false, ctr, p.state.add_diagnostic (error_E010 "operand" c.operand_range)) ∧
      ∃ p2, p.process_ACTR mngr stmt ctr = some p2 ∧ p2.hlasm_ctx = p.hlasm_ctx) := by
  refine ⟨?_, ?_, ?_, ?_⟩
  · constructor
    · rintro ⟨ctr2, st2, h⟩
      by_cases hlen : stmt.operands.length ≠ 1
      · rw [prepare_ACTR_count mngr stmt ctr p.state hlen] at h
        simp at h
      · have hlen1 : stmt.operands.length = 1 := by simpa using hlen
        obtain ⟨op, hop⟩ := List.length_eq_one.mp hlen1
        cases op with
        | EMPTY r => simp [prepare_ACTR, hop, operand.access_ca] at h
        | CA c =>
          refine ⟨c, hop, ?_⟩
          by_contra hk
          rw [prepare_ACTR_other_kind mngr stmt ctr p.state c hop hk] at h
          simp at h
    · rintro ⟨c, hops, hk⟩
      obtain ⟨e, he⟩ := kind_expr_or_var_access_expr c hk
      exact ⟨_, _, prepare_ACTR_accepts mngr stmt ctr p.state c e hops hk he⟩
  · intro c e hops hk he
    refine ⟨prepare_ACTR_accepts mngr stmt ctr p.state c e hops hk he, rfl, ?_⟩
    refine ⟨{ p with
      state := (register_seq_sym stmt p.state).evaluate e
      hlasm_ctx := (p.hlasm_ctx.set_branch_counter
        (mngr.evaluate_expression_tree e).get_numeric_value) }, ?_, ?_, ?_⟩
    · simp only [ca_processor.process_ACTR,
        prepare_ACTR_accepts mngr stmt ctr _ c e hops hk he, if_true]
    · rfl
    · rfl
  · intro hlen
    refine ⟨prepare_ACTR_count mngr stmt ctr p.state hlen,
      { p with state := ((register_seq_sym stmt p.state).add_diagnostic
          (error_E020 "operand" stmt.instruction_range)) }, ?_, ?_⟩
    · simp only [ca_processor.process_ACTR, prepare_ACTR_count mngr stmt ctr _ hlen,
        Bool.false_eq_true, if_false]
    · rfl
  · intro c hops hk
    refine ⟨prepare_ACTR_other_kind mngr stmt ctr p.state c hops hk,
      { p with state := ((register_seq_sym stmt p.state).add_diagnostic
          (error_E010 "operand" c.operand_range)) }, ?_, ?_⟩
    · simp only [ca_processor.process_ACTR,
        prepare_ACTR_other_kind mngr stmt ctr _ c hops hk, Bool.false_eq_true, if_false]
    · rfl

/-- Witness of C19: `ACTR` with an operand of value -5 is accepted without diagnostic
and sets the branch counter to -5. -/
theorem C19_ACTR_witness :
    prepare_ACTR shifted_manager (ACTR_statement .EMPTY 5) 0 opencode_processor.state
      = some (true, (shifted_manager.evaluate_expression_tree 5).get_numeric_value,
          opencode_processor.state.evaluate 5) ∧
    (opencode_processor.state.evaluate 5).diags = opencode_processor.state.diags ∧
    ∃ p2, opencode_processor.process_ACTR shifted_manager (ACTR_statement .EMPTY 5) 0
        = some p2 ∧
      p2.hlasm_ctx.branch_counter
        = (shifted_manager.evaluate_expression_tree 5).get_numeric_value ∧
      p2.state.diags
        = (register_seq_sym (ACTR_statement .EMPTY 5) opencode_processor.state).diags :=
  (C19_ACTR shifted_manager (ACTR_statement .EMPTY 5) 0 opencode_processor).2.1
    (.EXPR 5 ⟨⟨1, 16⟩, ⟨1, 18⟩⟩) 5 rfl (Or.inl rfl) rfl

theorem prepare_AGO_targets_registered (ops : List operand) :
    ∀ (targets : List (id_index × range)) (st : ca_processor_state)
      (r : Bool × List (id_index × range) × ca_processor_state),
      prepare_AGO_targets ops targets st = some r → r.2.2.registered = st.registered := by
  induction ops with
  | nil =>
    intro targets st r h
    simp only [prepare_AGO_targets, Option.some.injEq] at h
    subst h; rfl
  | cons op ops ih =>
    intro targets st r h
    unfold prepare_AGO_targets at h
    split at h
    · simp at h
    · split at h
      · exact ih _ _ _ h
      · simp only [Option.some.injEq] at h
        subst h; rfl

theorem prepare_AGO_registered (mngr : expression_manager) (stmt : complete_statement)
    (branch : A_t) (targets : List (id_index × range)) (st : ca_processor_state)
    (r : Bool × A_t × List (id_index × range) × ca_processor_state)
    (h : prepare_AGO mngr stmt branch targets st = some r) :
    r.2.2.2.registered = st.registered := by
  unfold prepare_AGO at h
  split_ifs at h with h0 hlen
  · simp only [Option.some.injEq] at h; subst h; rfl
  all_goals
    split at h
    · simp only [Option.some.injEq] at h; subst h; rfl
    · split at h
      · simp at h
      · split at h
        · simp only [Option.some.injEq] at h; subst h; rfl
        · split at h
          · simp at h
          · rename_i hp
            simp only [Option.some.injEq] at h
            subst h
            exact prepare_AGO_targets_registered _ _ _ _ hp
        · simp only [Option.some.injEq] at h; subst h; rfl

theorem process_AGO_registered (mngr : expression_manager) (stmt : complete_statement)
    (branch : A_t) (st st2 : ca_processor_state)
    (h : process_AGO mngr stmt branch st = some st2) :
    st2.registered = (register_seq_sym stmt st).registered := by
  unfold process_AGO at h
  simp only at h
  split at h
  · simp at h
  · rename_i ok branch2 targets st3 hp
    have hreg := prepare_AGO_registered mngr stmt branch [] _ _ hp
    simp only at hreg
    split_ifs at h
    · simp only [Option.some.injEq] at h; subst h; exact hreg
    · split at h
      · simp at h
      · simp only [Option.some.injEq] at h; subst h; exact hreg
    · simp only [Option.some.injEq] at h; subst h; exact hreg

theorem prepare_AIF_operands_registered (mngr : expression_manager) (ops : List operand) :
    ∀ (params : AIF_parameters) (has_operand : Bool) (st : ca_processor_state),
      ∃ r, prepare_AIF_operands mngr ops params has_operand st = some r ∧
        r.2.2.2.registered = st.registered := by
  induction ops with
  | nil => intro params has_operand st; exact ⟨_, rfl, rfl⟩
  | cons op ops ih =>
    intro params has_operand st
    cases op with
    | EMPTY r =>
      simp only [prepare_AIF_operands, operand.type, if_true]
      split_ifs
      · exact ih _ _ _
      · exact ⟨_, rfl, rfl⟩
    | CA c =>
      simp only [prepare_AIF_operands, operand.type, operand.access_ca, reduceCtorEq,
        if_false]
      cases c with
      | VAR e v r => exact ⟨_, rfl, rfl⟩
      | EXPR e r => exact ⟨_, rfl, rfl⟩
      | SEQ s r => exact ⟨_, rfl, rfl⟩
      | BRANCH e s r =>
        simp only [ca_operand.kind, if_true, ca_operand.access_branch]
        split_ifs
        · obtain ⟨r2, h1, h2⟩ := ih
            ⟨decide ((mngr.evaluate_expression_tree e).get_numeric_value ≠ 0), s.name,
              s.symbol_range⟩ true (st.evaluate e)
          exact ⟨r2, h1, h2⟩
        · exact ih _ _ _

theorem prepare_AIF_registered (mngr : expression_manager) (stmt : complete_statement)
    (params : AIF_parameters) (st : ca_processor_state) :
    ∃ r, prepare_AIF mngr stmt params st = some r ∧ r.2.2.registered = st.registered := by
  unfold prepare_AIF
  simp only
  split_ifs with h0
  · exact ⟨_, rfl, rfl⟩
  · obtain ⟨r, h1, h2⟩ := prepare_AIF_operands_registered mngr stmt.operands
      { params with condition := false } false st
    obtain ⟨completed, params2, has_operand, st2⟩ := r
    simp only [h1]
    split_ifs
    · exact ⟨_, rfl, h2⟩
    · exact ⟨_, rfl, h2⟩
    · exact ⟨_, rfl, h2⟩

theorem process_AIF_registered (mngr : expression_manager) (stmt : complete_statement)
    (locals : AIF_parameters) (st : ca_processor_state) :
    ∃ st2, process_AIF mngr stmt locals st = some st2 ∧
      st2.registered = (register_seq_sym stmt st).registered := by
  obtain ⟨r, h1, h2⟩ := prepare_AIF_registered mngr stmt locals (register_seq_sym stmt st)
  obtain ⟨ok, params, st3⟩ := r
  unfold process_AIF
  simp only [h1]
  split_ifs
  · exact ⟨_, rfl, h2⟩
  · exact ⟨_, rfl, h2⟩
  · exact ⟨_, rfl, h2⟩

theorem prepare_ACTR_registered (mngr : expression_manager) (stmt : complete_statement)
    (ctr : A_t) (st : ca_processor_state) (r : Bool × A_t × ca_processor_state)
    (h : prepare_ACTR mngr stmt ctr st = some r) :
    r.2.2.registered = st.registered := by
  unfold prepare_ACTR at h
  split_ifs at h
  · simp only [Option.some.injEq] at h; subst h; rfl
  · split at h
    · simp at h
    · split_ifs at h
      · split at h
        · simp at h
        · simp only [Option.some.injEq] at h; subst h; rfl
      · simp only [Option.some.injEq] at h; subst h; rfl

theorem prepare_ACTR_isSome (mngr : expression_manager) (stmt : complete_statement)
    (ctr : A_t) (st : ca_processor_state)
    (hne : ∀ r, stmt.operands ≠ [operand.EMPTY r]) :
    (prepare_ACTR mngr stmt ctr st).isSome = true := by
  by_cases hlen : stmt.operands.length ≠ 1
  · rw [prepare_ACTR_count mngr stmt ctr st hlen]; rfl
  · have hlen1 : stmt.operands.length = 1 := by simpa using hlen
    obtain ⟨op, hop⟩ := List.length_eq_one.mp hlen1
    cases op with
    | EMPTY r => exact absurd hop (hne r)
    | CA c =>
      by_cases hk : c.kind = ca_kind.EXPR ∨ c.kind = ca_kind.VAR
      · obtain ⟨e, he⟩ := kind_expr_or_var_access_expr c hk
        rw [prepare_ACTR_accepts mngr stmt ctr st c e hop hk he]; rfl
      · rw [prepare_ACTR_other_kind mngr stmt ctr st c hop hk]; rfl

theorem register_seq_sym_registered (stmt : complete_statement) (st : ca_processor_state)
    (symbol : seq_sym) (hl : stmt.label_ref.value = .SEQ symbol) :
    (register_seq_sym stmt st).registered
      = st.registered ++ [(symbol.name, symbol.symbol_range)] := by
  simp [register_seq_sym, hl, ca_processor_state.register_sequence_symbol]

/-- C20, counterexample: processing the statement `.L MEND`, whose label field is the
sequence symbol `.L`, returns without any call of `register_sequence_symbol`, in
opencode and inside a macro alike. -/
theorem C20_SEQ_label_registration_counterexample :
    MEND_with_label.label_ref.value = .SEQ ⟨".L", ⟨⟨1, 0⟩, ⟨1, 2⟩⟩⟩ ∧
    (opencode_processor.process literal_manager scenario_locals .MEND MEND_with_label).map
        (fun p => p.state.registered) = some [] ∧
    (in_macro_processor.process literal_manager scenario_locals .MEND MEND_with_label).map
        (fun p => p.state.registered) = some [] :=
  ⟨rfl, by decide, by decide⟩

/-- C20, amended: for the instructions ANOP, ACTR, AGO, AIF and MACRO, every statement
whose label field is a sequence symbol has this symbol registered, by exactly one call
of the branching provider's `register_sequence_symbol` with the label's name and range;
the handlers return for every such statement of AGO, AIF and MACRO, of ANOP when it has
no operand (as the handler asserts) and of ACTR when its single operand is not EMPTY.
The handlers of MEND, MEXIT, AREAD, ASPACE and AEJECT do not call
`register_sequence_symbol`. -/
theorem C20_SEQ_label_registration (mngr : expression_manager) (locals : handler_locals)
    (stmt : complete_statement) (p : ca_processor) (symbol : seq_sym)
    (hl : stmt.label_ref.value = .SEQ symbol) :
    (∀ instruction ∈ [ca_instruction.ANOP, .ACTR, .AGO, .AIF, .MACRO],
      ∀ p2, p.process mngr locals instruction stmt = some p2 →
        p2.state.registered
          = p.state.registered ++ [(symbol.name, symbol.symbol_range)]) ∧
    (∀ instruction ∈ [ca_instruction.AGO, .AIF, .MACRO],
      (p.process mngr locals instruction stmt).isSome = true) ∧
    (stmt.operands = [] → (p.process mngr locals .ANOP stmt).isSome = true) ∧
    ((∀ r, stmt.operands ≠ [operand.EMPTY r]) →
      (p.process mngr locals .ACTR stmt).isSome = true) ∧
    (∀ instruction ∈ [ca_instruction.MEND, .MEXIT, .AREAD, .ASPACE, .AEJECT],
      ∃ p2, p.process mngr locals instruction stmt = some p2 ∧
        p2.state.registered = p.state.registered) := by
  have hreg := register_seq_sym_registered stmt p.state symbol hl
  refine ⟨?_, ?_, ?_, ?_, ?_⟩
  · intro instruction hi p2 h
    simp only [List.mem_cons, List.mem_singleton, List.not_mem_nil, or_false] at hi
    rcases hi with rfl | rfl | rfl | rfl | rfl
    · simp only [ca_processor.process, ca_processor.process_ANOP] at h
      split_ifs at h
      simp only [Option.some.injEq] at h
      subst h
      exact hreg
    · simp only [ca_processor.process, ca_processor.process_ACTR] at h
      split at h
      · simp at h
      · rename_i ok ctr2 st2 hp
        have := prepare_ACTR_registered mngr stmt _ _ _ hp
        simp only at this
        split_ifs at h <;>
          (simp only [Option.some.injEq] at h; subst h; simpa [this] using hreg)
    · simp only [ca_processor.process, ca_processor.process_AGO, Option.map_eq_some'] at h
      obtain ⟨st2, h1, rfl⟩ := h
      rw [← hreg]
      exact process_AGO_registered mngr stmt _ _ _ h1
    · simp only [ca_processor.process, ca_processor.process_AIF, Option.map_eq_some'] at h
      obtain ⟨st2, h1, rfl⟩ := h
      obtain ⟨st3, h2, h3⟩ := process_AIF_registered mngr stmt locals.aif p.state
      rw [h2] at h1
      simp only [Option.some.injEq] at h1
      subst h1
      rw [← hreg]
      exact h3
    · simp only [ca_processor.process, ca_processor.process_MACRO, Option.some.injEq] at h
      subst h
      exact hreg
  · intro instruction hi
    simp only [List.mem_cons, List.mem_singleton, List.not_mem_nil, or_false] at hi
    rcases hi with rfl | rfl | rfl
    · simp only [ca_processor.process, ca_processor.process_AGO, Option.isSome_map']
      exact process_AGO_isSome mngr stmt _ _
    · obtain ⟨st3, h2, _⟩ := process_AIF_registered mngr stmt locals.aif p.state
      simp [ca_processor.process, ca_processor.process_AIF, h2]
    · rfl
  · intro hops
    simp [ca_processor.process, ca_processor.process_ANOP, hops]
  · intro hne
    obtain ⟨r, hr⟩ := Option.isSome_iff_exists.mp
      (prepare_ACTR_isSome mngr stmt locals.ctr (register_seq_sym stmt p.state) hne)
    obtain ⟨ok, ctr2, st2⟩ := r
    simp only [ca_processor.process, ca_processor.process_ACTR, hr]
    split_ifs <;> rfl
  · intro instruction hi
    simp only [List.mem_cons, List.mem_singleton, List.not_mem_nil, or_false] at hi
    rcases hi with rfl | rfl | rfl | rfl | rfl
    · refine ⟨_, rfl, ?_⟩
      simp only [ca_processor.process_MEND]
      split_ifs <;> rfl
    · refine ⟨_, rfl, ?_⟩
      simp only [ca_processor.process_MEXIT]
      split_ifs <;> rfl
    · exact ⟨_, rfl, rfl⟩
    · exact ⟨_, rfl, rfl⟩
    · exact ⟨_, rfl, rfl⟩

/-- Witness of C20 (amended): `.L ACTR 5` registers `.L` exactly once. -/
theorem C20_SEQ_label_registration_witness :
    (⟨⟨[], [5], [(".L", ⟨⟨1, 0⟩, ⟨1, 2⟩⟩)], []⟩, opencode_context.set_branch_counter 5, []⟩ :
        ca_processor).state.registered
      = opencode_processor.state.registered ++ [(".L", ⟨⟨1, 0⟩, ⟨1, 2⟩⟩)] :=
  (C20_SEQ_label_registration literal_manager scenario_locals
    (ACTR_statement (.SEQ ⟨".L", ⟨⟨1, 0⟩, ⟨1, 2⟩⟩⟩) 5) opencode_processor
    ⟨".L", ⟨⟨1, 0⟩, ⟨1, 2⟩⟩⟩ rfl).1 .ACTR (by decide) _ (by decide)

/-- One step of the loop of `prepare_GBL_LCL` at a variable operand whose name is bound
to a SET symbol. -/
theorem GBL_LCL_step_set_symbol (gsn : var_sym → id_index) (ctx : hlasm_context)
    (e : expr_ptr) (v : var_sym) (r : range) (ops : List operand) (ids : List id_index)
    (si : List Bool) (h : Bool) (st : ca_processor_state) (s : set_symbol_base)
    (hb : ctx.get_var_sym (gsn v) = some (.set_symbol s)) :
    prepare_GBL_LCL_operands gsn ctx (.CA (.VAR e v r) :: ops) ids si h st
      = prepare_GBL_LCL_operands gsn ctx ops ids si true
          (st.add_diagnostic (error_E051 (gsn v) r)) := by
  simp [prepare_GBL_LCL_operands, operand.type, operand.access_ca, ca_operand.kind,
    ca_operand.access_var, hb, variable_symbol.access_set_symbol_base,
    ca_operand.operand_range]

theorem GBL_LCL_step_macro_param (gsn : var_sym → id_index) (ctx : hlasm_context)
    (e : expr_ptr) (v : var_sym) (r : range) (ops : List operand) (ids : List id_index)
    (si : List Bool) (h : Bool) (st : ca_processor_state) (q : id_index)
    (hb : ctx.get_var_sym (gsn v) = some (.macro_param q)) :
    prepare_GBL_LCL_operands gsn ctx (.CA (.VAR e v r) :: ops) ids si h st
      = prepare_GBL_LCL_operands gsn ctx ops ids si true
          (st.add_diagnostic (error_E052 (gsn v) r)) := by
  simp [prepare_GBL_LCL_operands, operand.type, operand.access_ca, ca_operand.kind,
    ca_operand.access_var, hb, variable_symbol.access_set_symbol_base,
    variable_symbol.access_macro_param_base, ca_operand.operand_range]

theorem GBL_LCL_step_repeated (gsn : var_sym → id_index) (ctx : hlasm_context)
    (e : expr_ptr) (v : var_sym) (r : range) (ops : List operand) (ids : List id_index)
    (si : List Bool) (h : Bool) (st : ca_processor_state)
    (hb : ctx.get_var_sym (gsn v) = none) (hin : gsn v ∈ ids) :
    prepare_GBL_LCL_operands gsn ctx (.CA (.VAR e v r) :: ops) ids si h st
      = prepare_GBL_LCL_operands gsn ctx ops ids si true
          (st.add_diagnostic (error_E051 (gsn v) r)) := by
  simp [prepare_GBL_LCL_operands, operand.type, operand.access_ca, ca_operand.kind,
    ca_operand.access_var, hb, hin, ca_operand.operand_range]

theorem GBL_LCL_step_new (gsn : var_sym → id_index) (ctx : hlasm_context)
    (e : expr_ptr) (v : var_sym) (r : range) (ops : List operand) (ids : List id_index)
    (si : List Bool) (h : Bool) (st : ca_processor_state)
    (hb : ctx.get_var_sym (gsn v) = none) (hin : gsn v ∉ ids) :
    prepare_GBL_LCL_operands gsn ctx (.CA (.VAR e v r) :: ops) ids si h st
      = prepare_GBL_LCL_operands gsn ctx ops (ids ++ [gsn v]) (si ++ [v.subscript.isEmpty])
          true st := by
  simp [prepare_GBL_LCL_operands, operand.type, operand.access_ca, ca_operand.kind,
    ca_operand.access_var, hb, hin]

/-- The loop of `prepare_GBL_LCL` always returns, and what it appends to `ids` and
`scalar_info` comes from a sublist of the variable operands: of each its name and
whether its subscript list is empty; no appended name is bound in the context, `ids`
stays free of repetitions, and nothing is removed from it. -/
theorem GBL_LCL_loop_result (gsn : var_sym → id_index) (ctx : hlasm_context)
    (ops : List operand) :
    ∀ (ids : List id_index) (si : List Bool) (h : Bool) (st : ca_processor_state),
      ∃ (completed : Bool) (ids2 : List id_index) (si2 : List Bool) (h2 : Bool)
        (st2 : ca_processor_state) (vars : List var_sym),
        prepare_GBL_LCL_operands gsn ctx ops ids si h st
          = some (completed, ids2, si2, h2, st2) ∧
        vars.Sublist (ops.filterMap operand.variable) ∧
        ids2 = ids ++ vars.map gsn ∧
        si2 = si ++ vars.map (fun v => v.subscript.isEmpty) ∧
        (∀ v ∈ vars, ctx.get_var_sym (gsn v) = none) ∧
        (ids.Nodup → ids2.Nodup) := by
  induction ops with
  | nil =>
    intro ids si h st
    exact ⟨true, ids, si, h, st, [], rfl, List.Sublist.refl _, by simp, by simp,
      by simp, id⟩
  | cons op ops ih =>
    intro ids si h st
    cases op with
    | EMPTY r =>
      obtain ⟨c, ids2, si2, h2, st2, vars, h1, h3, h4, h5, h6, h7⟩ := ih ids si h st
      refine ⟨c, ids2, si2, h2, st2, vars, ?_, ?_, h4, h5, h6, h7⟩
      · simpa [prepare_GBL_LCL_operands, operand.type] using h1
      · simpa [operand.variable, operand.access_ca] using h3
    | CA c =>
      cases c with
      | EXPR e r =>
        exact ⟨false, ids, si, true, st.add_diagnostic (error_E010 "operand" r), [], by
          simp [prepare_GBL_LCL_operands, operand.type, operand.access_ca, ca_operand.kind,
            ca_operand.operand_range],
          List.nil_sublist _, by simp, by simp, by simp, id⟩
      | SEQ s r =>
        exact ⟨false, ids, si, true, st.add_diagnostic (error_E010 "operand" r), [], by
          simp [prepare_GBL_LCL_operands, operand.type, operand.access_ca, ca_operand.kind,
            ca_operand.operand_range],
          List.nil_sublist _, by simp, by simp, by simp, id⟩
      | BRANCH e s r =>
        exact ⟨false, ids, si, true, st.add_diagnostic (error_E010 "operand" r), [], by
          simp [prepare_GBL_LCL_operands, operand.type, operand.access_ca, ca_operand.kind,
            ca_operand.operand_range],
          List.nil_sublist _, by simp, by simp, by simp, id⟩
      | VAR e v r =>
        have hfm : (operand.CA (.VAR e v r) :: ops).filterMap operand.variable
            = v :: ops.filterMap operand.variable := by
          simp [operand.variable, operand.access_ca, ca_operand.access_var]
        rw [hfm]
        rcases hb : ctx.get_var_sym (gsn v) with _ | ⟨s | q⟩
        · by_cases hin : gsn v ∈ ids
          · obtain ⟨c, ids2, si2, h2, st2, vars, h1, h3, h4, h5, h6, h7⟩ :=
              ih ids si true (st.add_diagnostic (error_E051 (gsn v) r))
            exact ⟨c, ids2, si2, h2, st2, vars,
              by rw [GBL_LCL_step_repeated gsn ctx e v r ops ids si h st hb hin, h1],
              List.Sublist.cons _ h3, h4, h5, h6, h7⟩
          · obtain ⟨c, ids2, si2, h2, st2, vars, h1, h3, h4, h5, h6, h7⟩ :=
              ih (ids ++ [gsn v]) (si ++ [v.subscript.isEmpty]) true st
            refine ⟨c, ids2, si2, h2, st2, v :: vars,
              by rw [GBL_LCL_step_new gsn ctx e v r ops ids si h st hb hin, h1],
              List.Sublist.cons₂ _ h3, by simp [h4], by simp [h5], ?_, ?_⟩
            · intro w hw
              rcases List.mem_cons.mp hw with rfl | hw2
              · exact hb
              · exact h6 w hw2
            · intro hnd
              apply h7
              rw [List.nodup_append]
              refine ⟨hnd, List.nodup_singleton _, ?_⟩
              intro x hx1 hx2
              rw [List.mem_singleton] at hx2
              subst hx2
              exact hin hx1
        · obtain ⟨c, ids2, si2, h2, st2, vars, h1, h3, h4, h5, h6, h7⟩ :=
            ih ids si true (st.add_diagnostic (error_E051 (gsn v) r))
          exact ⟨c, ids2, si2, h2, st2, vars,
            by rw [GBL_LCL_step_set_symbol gsn ctx e v r ops ids si h st s hb, h1],
            List.Sublist.cons _ h3, h4, h5, h6, h7⟩
        · obtain ⟨c, ids2, si2, h2, st2, vars, h1, h3, h4, h5, h6, h7⟩ :=
            ih ids si true (st.add_diagnostic (error_E052 (gsn v) r))
          exact ⟨c, ids2, si2, h2, st2, vars,
            by rw [GBL_LCL_step_macro_param gsn ctx e v r ops ids si h st q hb, h1],
            List.Sublist.cons _ h3, h4, h5, h6, h7⟩

theorem GBL_LCL_loop_append (gsn : var_sym → id_index) (ctx : hlasm_context)
    (l1 : List operand) :
    ∀ (l2 : List operand) (ids : List id_index) (si : List Bool) (h : Bool)
      (st : ca_processor_state) (ids1 : List id_index) (si1 : List Bool) (h1 : Bool)
      (st1 : ca_processor_state),
      prepare_GBL_LCL_operands gsn ctx l1 ids si h st = some (true, ids1, si1, h1, st1) →
      prepare_GBL_LCL_operands gsn ctx (l1 ++ l2) ids si h st
        = prepare_GBL_LCL_operands gsn ctx l2 ids1 si1 h1 st1 := by
  induction l1 with
  | nil =>
    intro l2 ids si h st ids1 si1 h1 st1 hr
    simp only [prepare_GBL_LCL_operands, Option.some.injEq, Prod.mk.injEq, true_and] at hr
    obtain ⟨rfl, rfl, rfl, rfl⟩ := hr
    rfl
  | cons op ops ih =>
    intro l2 ids si h st ids1 si1 h1 st1 hr
    rw [List.cons_append]
    cases op with
    | EMPTY r =>
      simp only [prepare_GBL_LCL_operands, operand.type, if_true] at hr ⊢
      exact ih _ _ _ _ _ _ _ _ _ hr
    | CA c =>
      cases c with
      | EXPR e r =>
        simp [prepare_GBL_LCL_operands, operand.type, operand.access_ca, ca_operand.kind]
          at hr
      | SEQ s r =>
        simp [prepare_GBL_LCL_operands, operand.type, operand.access_ca, ca_operand.kind]
          at hr
      | BRANCH e s r =>
        simp [prepare_GBL_LCL_operands, operand.type, operand.access_ca, ca_operand.kind]
          at hr
      | VAR e v r =>
        rcases hb : ctx.get_var_sym (gsn v) with _ | ⟨s | q⟩
        · by_cases hin : gsn v ∈ ids
          · rw [GBL_LCL_step_repeated gsn ctx e v r _ ids si h st hb hin] at hr ⊢
            exact ih _ _ _ _ _ _ _ _ _ hr
          · rw [GBL_LCL_step_new gsn ctx e v r _ ids si h st hb hin] at hr ⊢
            exact ih _ _ _ _ _ _ _ _ _ hr
        · rw [GBL_LCL_step_set_symbol gsn ctx e v r _ ids si h st s hb] at hr ⊢
          exact ih _ _ _ _ _ _ _ _ _ hr
        · rw [GBL_LCL_step_macro_param gsn ctx e v r _ ids si h st q hb] at hr ⊢
          exact ih _ _ _ _ _ _ _ _ _ hr

theorem GBL_LCL_loop_keeps (gsn : var_sym → id_index) (ctx : hlasm_context)
    (ops : List operand) (ids : List id_index) (si : List Bool) (h : Bool)
    (st : ca_processor_state) (r : Bool × List id_index × List Bool × Bool × ca_processor_state)
    (hr : prepare_GBL_LCL_operands gsn ctx ops ids si h st = some r) :
    ∀ x ∈ ids, x ∈ r.2.1 := by
  obtain ⟨c, ids2, si2, h2, st2, vars, h1, _, h4, _, _, _⟩ :=
    GBL_LCL_loop_result gsn ctx ops ids si h st
  rw [h1] at hr
  simp only [Option.some.injEq] at hr
  subst hr
  intro x hx
  simp only [h4]
  exact List.mem_append_left _ hx

theorem prepare_GBL_LCL_result (gsn : var_sym → id_index) (ctx : hlasm_context)
    (stmt : complete_statement) (st : ca_processor_state) :
    ∃ (ok : Bool) (ids2 : List id_index) (si2 : List Bool) (st2 : ca_processor_state)
      (vars : List var_sym),
      prepare_GBL_LCL gsn ctx stmt [] [] st = some (ok, ids2, si2, st2) ∧
      vars.Sublist (stmt.operands.filterMap operand.variable) ∧
      ids2 = vars.map gsn ∧
      si2 = vars.map (fun v => v.subscript.isEmpty) ∧
      (∀ v ∈ vars, ctx.get_var_sym (gsn v) = none) ∧
      ids2.Nodup := by
  obtain ⟨c, ids2, si2, h2, st2, vars, h1, h3, h4, h5, h6, h7⟩ :=
    GBL_LCL_loop_result gsn ctx stmt.operands [] [] false st
  have hnd : ids2.Nodup := h7 List.nodup_nil
  rw [List.nil_append] at h4 h5
  unfold prepare_GBL_LCL
  simp only [h1]
  split_ifs
  · exact ⟨_, _, _, _, vars, rfl, h3, h4, h5, h6, hnd⟩
  · exact ⟨_, _, _, _, vars, rfl, h3, h4, h5, h6, hnd⟩
  · exact ⟨_, _, _, _, vars, rfl, h3, h4, h5, h6, hnd⟩
  · exact ⟨_, _, _, _, vars, rfl, h3, h4, h5, h6, hnd⟩

/-- C17: GBL/LCL collisions. At an operand of `prepare_GBL_LCL` that is a variable
reference whose name is bound in the context, exactly one diagnostic is added (E051 for
a SET symbol, E052 for a macro parameter), `ids` is left as it is, and the loop goes on
with the remaining operands. A name that is not bound and occurs a second time among
the operands gets E051 at the second occurrence and is not appended again; called with
`ids` empty, `prepare_GBL_LCL` returns `ids` without repetition. -/
theorem C17_GBL_LCL_collisions (gsn : var_sym → id_index) (ctx : hlasm_context)
    (e : expr_ptr) (v : var_sym) (r : range) (ops : List operand) (ids : List id_index)
    (si : List Bool) (h : Bool) (st : ca_processor_state) :
    (∀ s, ctx.get_var_sym (gsn v) = some (.set_symbol s) →
      prepare_GBL_LCL_operands gsn ctx (.CA (.VAR e v r) :: ops) ids si h st
        = prepare_GBL_LCL_operands gsn ctx ops ids si true
            (st.add_diagnostic (error_E051 (gsn v) r))) ∧
    (∀ q, ctx.get_var_sym (gsn v) = some (.macro_param q) →
      prepare_GBL_LCL_operands gsn ctx (.CA (.VAR e v r) :: ops) ids si h st
        = prepare_GBL_LCL_operands gsn ctx ops ids si true
            (st.add_diagnostic (error_E052 (gsn v) r))) ∧
    (ctx.get_var_sym (gsn v) = none → gsn v ∈ ids →
      prepare_GBL_LCL_operands gsn ctx (.CA (.VAR e v r) :: ops) ids si h st
        = prepare_GBL_LCL_operands gsn ctx ops ids si true
            (st.add_diagnostic (error_E051 (gsn v) r))) ∧
    (ctx.get_var_sym (gsn v) = none →
      ∀ (mid : List operand) (e2 : expr_ptr) (v2 : var_sym) (r2 : range)
        (ids1 : List id_index) (si1 : List Bool) (h1 : Bool) (st1 : ca_processor_state),
        gsn v2 = gsn v →
        prepare_GBL_LCL_operands gsn ctx (.CA (.VAR e v r) :: mid) ids si h st
          = some (true, ids1, si1, h1, st1) →
        gsn v ∈ ids1 ∧
        prepare_GBL_LCL_operands gsn ctx
            ((.CA (.VAR e v r) :: mid) ++ .CA (.VAR e2 v2 r2) :: ops) ids si h st
          = prepare_GBL_LCL_operands gsn ctx ops ids1 si1 true
              (st1.add_diagnostic (error_E051 (gsn v) r2))) ∧
    (∀ (stmt : complete_statement) (st0 : ca_processor_state),
      ∃ ok ids2 si2 st2, prepare_GBL_LCL gsn ctx stmt [] [] st0 = some (ok, ids2, si2, st2) ∧
        ids2.Nodup) := by
  refine ⟨?_, ?_, ?_, ?_, ?_⟩
  · intro s hb
    exact GBL_LCL_step_set_symbol gsn ctx e v r ops ids si h st s hb
  · intro q hb
    exact GBL_LCL_step_macro_param gsn ctx e v r ops ids si h st q hb
  · intro hb hin
    exact GBL_LCL_step_repeated gsn ctx e v r ops ids si h st hb hin
  · intro hb mid e2 v2 r2 ids1 si1 h1 st1 hname hfirst
    have hmem : gsn v ∈ ids1 := by
      by_cases hin : gsn v ∈ ids
      · exact GBL_LCL_loop_keeps gsn ctx _ ids si h st _ hfirst _ hin
      · rw [GBL_LCL_step_new gsn ctx e v r mid ids si h st hb hin] at hfirst
        exact GBL_LCL_loop_keeps gsn ctx _ _ _ _ _ _ hfirst _ (by simp)
    refine ⟨hmem, ?_⟩
    rw [GBL_LCL_loop_append gsn ctx _ _ ids si h st ids1 si1 h1 st1 hfirst]
    have hb2 : ctx.get_var_sym (gsn v2) = none := by rw [hname]; exact hb
    have hmem2 : gsn v2 ∈ ids1 := by rw [hname]; exact hmem
    rw [GBL_LCL_step_repeated gsn ctx e2 v2 r2 ops ids1 si1 h1 st1 hb2 hmem2, hname]
  · intro stmt st0
    obtain ⟨ok, ids2, si2, st2, vars, h1, _, _, _, _, hnd⟩ :=
      prepare_GBL_LCL_result gsn ctx stmt st0
    exact ⟨ok, ids2, si2, st2, h1, hnd⟩

/-- Witness of C17: in the context of scenario S2, at the bound operand `&X` of
`LCLA &X,&B,&B` the loop adds E051 and goes on; and the whole statement declares `B`
once, with E051 for `X` and for the second `B`. -/
theorem C17_GBL_LCL_collisions_witness :
    prepare_GBL_LCL_operands (resolved_name literal_manager) S2_context
        LCLA_with_collisions.operands [] [] false ca_processor_state.init
      = prepare_GBL_LCL_operands (resolved_name literal_manager) S2_context
          (LCLA_with_collisions.operands.drop 1) [] [] true
          (ca_processor_state.init.add_diagnostic
            (error_E051 "X" ⟨⟨1, 16⟩, ⟨1, 18⟩⟩)) ∧
    prepare_GBL_LCL (resolved_name literal_manager) S2_context LCLA_with_collisions [] []
        ca_processor_state.init
      = some (true, ["B"], [true],
          ⟨[error_E051 "X" ⟨⟨1, 16⟩, ⟨1, 18⟩⟩, error_E051 "B" ⟨⟨1, 22⟩, ⟨1, 24⟩⟩],
            [], [], []⟩) :=
  ⟨(C17_GBL_LCL_collisions (resolved_name literal_manager) S2_context 0
      ⟨.basic "X", [], ⟨⟨1, 16⟩, ⟨1, 18⟩⟩⟩ ⟨⟨1, 16⟩, ⟨1, 18⟩⟩
      (LCLA_with_collisions.operands.drop 1) [] [] false ca_processor_state.init).1
      ⟨"X", .A_TYPE, true⟩ (by decide),
   by decide⟩

/-- C18, counterexample: the operand of `LCLA &A(10)` carries a subscript, and
`prepare_GBL_LCL` accepts the statement and declares it: `A` is appended to `ids`, with
the entry `false` in `scalar_info`, and no diagnostic is added. -/
theorem C18_declared_operands_counterexample :
    LCLA_with_subscript.operands.filterMap operand.variable
      = [⟨.basic "A", [10], ⟨⟨1, 16⟩, ⟨1, 22⟩⟩⟩] ∧
    prepare_GBL_LCL (resolved_name literal_manager) empty_context LCLA_with_subscript [] []
        ca_processor_state.init
      = some (true, ["A"], [false], ca_processor_state.init) ∧
    ¬ (∀ b ∈ [false], b = true) :=
  ⟨by decide, by decide, by decide⟩

/-- C18, amended: for every LCL/GBL statement, `prepare_GBL_LCL` called with `ids` and
`scalar_info` empty returns, and each name appended to `ids` comes from an operand that
is a CA variable reference, in operand order, the entry of `scalar_info` at the same
position being true exactly when the subscript list of that operand is empty; an
operand that carries a subscript is declared as well, with the entry `false`. -/
theorem C18_declared_operands (gsn : var_sym → id_index) (ctx : hlasm_context)
    (stmt : complete_statement) (st : ca_processor_state) :
    (∃ (ok : Bool) (ids2 : List id_index) (si2 : List Bool) (st2 : ca_processor_state)
      (vars : List var_sym),
      prepare_GBL_LCL gsn ctx stmt [] [] st = some (ok, ids2, si2, st2) ∧
      vars.Sublist (stmt.operands.filterMap operand.variable) ∧
      ids2 = vars.map gsn ∧
      si2 = vars.map (fun v => v.subscript.isEmpty)) ∧
    (∀ (e : expr_ptr) (v : var_sym) (r : range),
      stmt.operands = [.CA (.VAR e v r)] → ctx.get_var_sym (gsn v) = none →
      stmt.label_ref.type = label_si_type.EMPTY →
      prepare_GBL_LCL gsn ctx stmt [] [] st
        = some (true, [gsn v], [v.subscript.isEmpty], st)) := by
  constructor
  · obtain ⟨ok, ids2, si2, st2, vars, h1, h2, h3, h4, _, _⟩ :=
      prepare_GBL_LCL_result gsn ctx stmt st
    exact ⟨ok, ids2, si2, st2, vars, h1, h2, h3, h4⟩
  · intro e v r hops hb hl
    unfold prepare_GBL_LCL
    rw [hops, GBL_LCL_step_new gsn ctx e v r [] [] [] false st hb (by simp)]
    simp [prepare_GBL_LCL_operands, hl]

/-- Witness of C18 (amended): `LCLA &A(10)` declares `A` with the entry `false`. -/
theorem C18_declared_operands_witness :
    prepare_GBL_LCL (resolved_name literal_manager) empty_context LCLA_with_subscript [] []
        ca_processor_state.init
      = some (true,
          [resolved_name literal_manager ⟨.basic "A", [10], ⟨⟨1, 16⟩, ⟨1, 22⟩⟩⟩],
          [(⟨.basic "A", [10], ⟨⟨1, 16⟩, ⟨1, 22⟩⟩⟩ : var_sym).subscript.isEmpty],
          ca_processor_state.init) :=
  (C18_declared_operands (resolved_name literal_manager) empty_context LCLA_with_subscript
    ca_processor_state.init).2 0 ⟨.basic "A", [10], ⟨⟨1, 16⟩, ⟨1, 22⟩⟩⟩ ⟨⟨1, 16⟩, ⟨1, 22⟩⟩
    rfl rfl rfl

theorem macro_lookup_in_macro (ctx : context_state) (target : id_index)
    (ms : macro_sequence_symbol)
    (h : ctx.get_sequence_symbol target = some (.MACRO ms)) :
    ctx.is_in_macro = true := by
  unfold context_state.get_sequence_symbol at h
  unfold context_state.is_in_macro
  split at h
  · rename_i inv hm; rw [hm]; rfl
  · simp at h

theorem jump_in_statements_isSome
    (rewind_input : statement_provider → source_position → statement_provider)
    (m : processing_manager) (target : id_index) (symbol_range : range) :
    (m.jump_in_statements rewind_input target symbol_range).isSome = true := by
  unfold processing_manager.jump_in_statements
  rcases hl : m.hlasm_ctx.get_sequence_symbol target with _ | ⟨ms | os⟩
  · simp only; split_ifs <;> rfl
  · simp only [ macro_lookup_in_macro _ _ _ hl, if_true]; rfl
  · rfl

/-- C13: `jump_in_statements(target, range)` by cases on the lookup of `target`.
(a) A macro sequence symbol: the current statement of the current macro invocation
becomes `statement_offset - 1` and the branch counter is decremented once. (b) An
opencode symbol: `perform_opencode_jump` with the stored position and snapshot, then
the branch counter is decremented once. (c) Unresolved inside a macro: exactly one
diagnostic E047, no decrement, no processor pushed, context unchanged. (d) Unresolved
in opencode: exactly one lookahead processor is pushed, with kind LOOKAHEAD, carrying
the target, the current position and the current snapshot; no diagnostic, no decrement.
Hence the branch counter never increases and decreases exactly on resolved jumps. -/
theorem C13_jump_in_statements
    (rewind_input : statement_provider → source_position → statement_provider)
    (m : processing_manager) (target : id_index) (symbol_range : range) :
    (∀ ms, m.hlasm_ctx.get_sequence_symbol target = some (.MACRO ms) →
      ∃ m2 inv inv2, m.jump_in_statements rewind_input target symbol_range = some m2 ∧
        context_state.this_macro m.hlasm_ctx = some inv ∧
        context_state.this_macro m2.hlasm_ctx = some inv2 ∧
        inv2.current_statement = (ms.statement_offset : Int) - 1 ∧
        inv2.labels = inv.labels ∧
        m2.hlasm_ctx.branch_counter = m.hlasm_ctx.branch_counter - 1 ∧
        m2.procs = m.procs ∧ m2.events = m.events ∧
        m2.hlasm_ctx.current_source = m.hlasm_ctx.current_source) ∧
    (∀ os, m.hlasm_ctx.get_sequence_symbol target = some (.OPENCODE os) →
      m.jump_in_statements rewind_input target symbol_range
        = some { m.perform_opencode_jump rewind_input os.statement_position os.snapshot with
            hlasm_ctx := (m.hlasm_ctx.apply_source_snapshot
              os.snapshot).decrement_branch_counter } ∧
      ∃ m2, m.jump_in_statements rewind_input target symbol_range = some m2 ∧
        m2.events = m.events ++ [.rewind_input os.statement_position] ∧
        m2.hlasm_ctx.current_source = (m.hlasm_ctx.apply_source_snapshot
          os.snapshot).current_source ∧
        m2.hlasm_ctx.branch_counter = m.hlasm_ctx.branch_counter - 1 ∧
        m2.procs = m.procs) ∧
    (m.hlasm_ctx.get_sequence_symbol target = none → m.hlasm_ctx.is_in_macro = true →
      ∃ m2, m.jump_in_statements rewind_input target symbol_range = some m2 ∧
        m2.events = m.events ++ [.add_diagnostic (error_E047 target symbol_range)] ∧
        m2.diags = m.diags ++ [error_E047 target symbol_range] ∧
        m2.hlasm_ctx = m.hlasm_ctx ∧ m2.procs = m.procs ∧ m2.provs = m.provs) ∧
    (m.hlasm_ctx.get_sequence_symbol target = none → m.hlasm_ctx.is_in_macro = false →
      ∃ m2, m.jump_in_statements rewind_input target symbol_range = some m2 ∧
        m2.procs = m.procs ++ [.lookahead_processor (.SEQ target symbol_range
          (m.create_opencode_sequence_symbol none range_default).statement_position
          m.hlasm_ctx.current_source.create_snapshot)] ∧
        m2.hlasm_ctx.processing_kinds
          = m.hlasm_ctx.processing_kinds ++ [processing_kind.LOOKAHEAD] ∧
        m2.events = m.events ∧
        m2.hlasm_ctx.branch_counter = m.hlasm_ctx.branch_counter ∧
        m2.hlasm_ctx.current_source = m.hlasm_ctx.current_source) ∧
    (∃ m2, m.jump_in_statements rewind_input target symbol_range = some m2 ∧
      m2.hlasm_ctx.branch_counter ≤ m.hlasm_ctx.branch_counter ∧
      ((m.hlasm_ctx.get_sequence_symbol target).isSome = true →
        m2.hlasm_ctx.branch_counter = m.hlasm_ctx.branch_counter - 1) ∧
      ((m.hlasm_ctx.get_sequence_symbol target).isSome = false →
        m2.hlasm_ctx.branch_counter = m.hlasm_ctx.branch_counter)) := by
  have hA : ∀ ms, m.hlasm_ctx.get_sequence_symbol target = some (.MACRO ms) →
      m.jump_in_statements rewind_input target symbol_range
        = some { m with hlasm_ctx :=
            (m.hlasm_ctx.set_current_statement
              ms.statement_offset).decrement_branch_counter } := by
    intro ms hl
    simp only [processing_manager.jump_in_statements, hl, macro_lookup_in_macro _ _ _ hl,
      if_true]
  have hB : ∀ os, m.hlasm_ctx.get_sequence_symbol target = some (.OPENCODE os) →
      m.jump_in_statements rewind_input target symbol_range
        = some { m.perform_opencode_jump rewind_input os.statement_position os.snapshot with
            hlasm_ctx := (m.hlasm_ctx.apply_source_snapshot
              os.snapshot).decrement_branch_counter } := by
    intro os hl
    simp only [processing_manager.jump_in_statements, hl,
      processing_manager.perform_opencode_jump]
  have hC : m.hlasm_ctx.get_sequence_symbol target = none → m.hlasm_ctx.is_in_macro = true →
      m.jump_in_statements rewind_input target symbol_range
        = some (m.add_diagnostic (error_E047 target symbol_range)) := by
    intro hl hin
    simp only [processing_manager.jump_in_statements, hl, hin, if_true]
  have hD : m.hlasm_ctx.get_sequence_symbol target = none → m.hlasm_ctx.is_in_macro = false →
      m.jump_in_statements rewind_input target symbol_range
        = some (m.start_lookahead (.SEQ target symbol_range
            (m.create_opencode_sequence_symbol none range_default).statement_position
            (m.create_opencode_sequence_symbol none range_default).snapshot)) := by
    intro hl hin
    simp only [processing_manager.jump_in_statements, hl, hin, Bool.false_eq_true, if_false]
  refine ⟨?_, ?_, ?_, ?_, ?_⟩
  · intro ms hl
    have hin := macro_lookup_in_macro _ _ _ hl
    unfold context_state.is_in_macro at hin
    obtain ⟨inv, hinv⟩ := Option.isSome_iff_exists.mp hin
    refine ⟨_, inv, ⟨(ms.statement_offset : Int) - 1, inv.labels⟩, hA ms hl, hinv, ?_, rfl,
      rfl, ?_, rfl, rfl, ?_⟩
    · simp [context_state.set_current_statement, hinv,
        context_state.decrement_branch_counter]
    · simp [context_state.set_current_statement, hinv,
        context_state.decrement_branch_counter]
    · simp [context_state.set_current_statement, hinv,
        context_state.decrement_branch_counter]
  · intro os hl
    refine ⟨hB os hl, _, hB os hl, rfl, rfl, rfl, rfl⟩
  · intro hl hin
    refine ⟨_, hC hl hin, rfl, ?_, rfl, rfl, rfl⟩
    simp [processing_manager.diags, processing_manager.add_diagnostic]
  · intro hl hin
    exact ⟨_, hD hl hin, rfl, rfl, rfl, rfl, rfl⟩
  · rcases hl : m.hlasm_ctx.get_sequence_symbol target with _ | ⟨ms | os⟩
    · by_cases hin : m.hlasm_ctx.is_in_macro = true
      · exact ⟨_, hC hl hin, le_refl _, by simp, fun _ => rfl⟩
      · have hin2 : m.hlasm_ctx.is_in_macro = false := by simpa using hin
        exact ⟨_, hD hl hin2, le_refl _, by simp, fun _ => rfl⟩
    · have hin := macro_lookup_in_macro _ _ _ hl
      unfold context_state.is_in_macro at hin
      obtain ⟨inv, hinv⟩ := Option.isSome_iff_exists.mp hin
      have hbc : ((m.hlasm_ctx.set_current_statement
          ms.statement_offset).decrement_branch_counter).branch_counter
            = m.hlasm_ctx.branch_counter - 1 := by
        simp [context_state.set_current_statement, hinv,
          context_state.decrement_branch_counter]
      refine ⟨_, hA ms hl, ?_, fun _ => hbc, by simp⟩
      show ((m.hlasm_ctx.set_current_statement
          ms.statement_offset).decrement_branch_counter).branch_counter
            ≤ m.hlasm_ctx.branch_counter
      rw [hbc]
      exact Int.sub_le_self _ (by decide)
    · have hbc : ((m.hlasm_ctx.apply_source_snapshot
          os.snapshot).decrement_branch_counter).branch_counter
            = m.hlasm_ctx.branch_counter - 1 := rfl
      refine ⟨_, hB os hl, ?_, fun _ => hbc, by simp⟩
      show ((m.hlasm_ctx.apply_source_snapshot
          os.snapshot).decrement_branch_counter).branch_counter
            ≤ m.hlasm_ctx.branch_counter
      rw [hbc]
      exact Int.sub_le_self _ (by decide)

/-- Witness of C13: inside a macro whose body has `.LOOP` at offset 2, the jump to
`.LOOP` sets the current statement to 1 and decrements the branch counter; in opencode
the jump to the unknown `.LATER` pushes one lookahead processor. -/
theorem C13_jump_in_statements_witness :
    (∃ m2 inv inv2, in_macro_manager.jump_in_statements rewind_scenario ".LOOP"
          ⟨⟨5, 16⟩, ⟨5, 21⟩⟩ = some m2 ∧
        context_state.this_macro in_macro_manager.hlasm_ctx = some inv ∧
        context_state.this_macro m2.hlasm_ctx = some inv2 ∧
        inv2.current_statement = ((⟨".LOOP", 2⟩ : macro_sequence_symbol).statement_offset : Int) - 1 ∧
        inv2.labels = inv.labels ∧
        m2.hlasm_ctx.branch_counter = in_macro_manager.hlasm_ctx.branch_counter - 1 ∧
        m2.procs = in_macro_manager.procs ∧ m2.events = in_macro_manager.events ∧
        m2.hlasm_ctx.current_source = in_macro_manager.hlasm_ctx.current_source) ∧
    (∃ m2, opencode_manager.jump_in_statements rewind_scenario ".LATER"
          ⟨⟨3, 16⟩, ⟨3, 22⟩⟩ = some m2 ∧
        m2.procs = opencode_manager.procs ++ [.lookahead_processor (.SEQ ".LATER"
          ⟨⟨3, 16⟩, ⟨3, 22⟩⟩
          (opencode_manager.create_opencode_sequence_symbol none
            range_default).statement_position
          opencode_manager.hlasm_ctx.current_source.create_snapshot)] ∧
        m2.hlasm_ctx.processing_kinds
          = opencode_manager.hlasm_ctx.processing_kinds ++ [processing_kind.LOOKAHEAD] ∧
        m2.events = opencode_manager.events ∧
        m2.hlasm_ctx.branch_counter = opencode_manager.hlasm_ctx.branch_counter ∧
        m2.hlasm_ctx.current_source = opencode_manager.hlasm_ctx.current_source) :=
  ⟨(C13_jump_in_statements rewind_scenario in_macro_manager ".LOOP" ⟨⟨5, 16⟩, ⟨5, 21⟩⟩).1
      ⟨".LOOP", 2⟩ (by decide),
   (C13_jump_in_statements rewind_scenario opencode_manager ".LATER"
      ⟨⟨3, 16⟩, ⟨3, 22⟩⟩).2.2.2.1 (by decide) (by decide)⟩

theorem opencode_lookup (ctx : context_state) (target : id_index)
    (hin : ctx.is_in_macro = false) :
    ctx.get_sequence_symbol target
      = (ctx.sequence_symbols.find? (fun s => decide (s.name = some target))).map
          sequence_symbol.OPENCODE := by
  unfold context_state.is_in_macro at hin
  unfold context_state.get_sequence_symbol
  split
  · rename_i inv hm; rw [hm] at hin; simp at hin
  · rfl

/-- C14: `register_sequence_symbol(target, range)` outside a macro. If no sequence
symbol named `target` is stored, the newly created opencode symbol (current statement
position and snapshot) is added, so that it is the one stored afterwards, and no
diagnostic is added. If one is stored and it is the same as the newly created one,
nothing changes. If one is stored and it differs, exactly one diagnostic E045 is added
and the context, so the stored symbol, is unchanged. -/
theorem C14_register_sequence_symbol (m : processing_manager) (target : id_index)
    (symbol_range : range) (hin : m.hlasm_ctx.is_in_macro = false) :
    (m.hlasm_ctx.get_sequence_symbol target = none →
      ∃ m2, m.register_sequence_symbol target symbol_range = some m2 ∧
        m2.hlasm_ctx.sequence_symbols = m.hlasm_ctx.sequence_symbols
          ++ [m.create_opencode_sequence_symbol (some target) symbol_range] ∧
        m2.hlasm_ctx.get_sequence_symbol target
          = some (.OPENCODE (m.create_opencode_sequence_symbol (some target) symbol_range)) ∧
        m2.events = m.events ∧ m2.procs = m.procs) ∧
    (∀ os, m.hlasm_ctx.get_sequence_symbol target = some (.OPENCODE os) →
      os.same (m.create_opencode_sequence_symbol (some target) symbol_range) = true →
      m.register_sequence_symbol target symbol_range = some m) ∧
    (∀ os, m.hlasm_ctx.get_sequence_symbol target = some (.OPENCODE os) →
      os.same (m.create_opencode_sequence_symbol (some target) symbol_range) = false →
      ∃ m2, m.register_sequence_symbol target symbol_range = some m2 ∧
        m2.events = m.events ++ [.add_diagnostic (error_E045 target symbol_range)] ∧
        m2.diags = m.diags ++ [error_E045 target symbol_range] ∧
        m2.hlasm_ctx = m.hlasm_ctx ∧
        m2.hlasm_ctx.get_sequence_symbol target = some (.OPENCODE os)) ∧
    (m.register_sequence_symbol target symbol_range).isSome = true := by
  refine ⟨?_, ?_, ?_, ?_⟩
  · intro hl
    refine ⟨{ m with hlasm_ctx := (m.hlasm_ctx.add_sequence_symbol
        (m.create_opencode_sequence_symbol (some target) symbol_range)) }, ?_, rfl, ?_, rfl, rfl⟩
    · simp only [processing_manager.register_sequence_symbol, hin, hl, Bool.false_eq_true,
        if_false]
    · have hin2 : context_state.is_in_macro (m.hlasm_ctx.add_sequence_symbol
          (m.create_opencode_sequence_symbol (some target) symbol_range))
            = false := hin
      rw [opencode_lookup _ _ hin] at hl
      rw [opencode_lookup _ _ hin2]
      have hnone : m.hlasm_ctx.sequence_symbols.find?
          (fun s => decide (s.name = some target)) = none := by
        simpa using hl
      simp [context_state.add_sequence_symbol, List.find?_append, hnone,
        processing_manager.create_opencode_sequence_symbol]
  · intro os hl hsame
    simp [processing_manager.register_sequence_symbol, hin, hl,
      sequence_symbol.access_opencode_symbol, hsame]
  · intro os hl hsame
    refine ⟨m.add_diagnostic (error_E045 target symbol_range), ?_, rfl, ?_, rfl, hl⟩
    · simp [processing_manager.register_sequence_symbol, hin, hl,
        sequence_symbol.access_opencode_symbol, hsame]
    · simp [processing_manager.diags, processing_manager.add_diagnostic]
  · unfold processing_manager.register_sequence_symbol
    simp only [hin, Bool.false_eq_true, if_false]
    rw [opencode_lookup _ _ hin]
    rcases hf : m.hlasm_ctx.sequence_symbols.find? (fun s => decide (s.name = some target))
      with _ | os <;> rw [hf]
    · rfl
    · simp only [sequence_symbol.access_opencode_symbol, Option.map_some']
      split_ifs <;> rfl

/-- Witness of C14, scenario S6: the first `.L ANOP` (line 3) stores `.L`; the second
`.L ANOP` (line 4) adds E045 and the stored symbol is still the first one. -/
theorem C14_register_sequence_symbol_witness :
    (∃ m2, opencode_manager.register_sequence_symbol ".L" ⟨⟨3, 0⟩, ⟨3, 2⟩⟩ = some m2 ∧
      m2.hlasm_ctx.sequence_symbols = opencode_manager.hlasm_ctx.sequence_symbols
        ++ [opencode_manager.create_opencode_sequence_symbol (some ".L") ⟨⟨3, 0⟩, ⟨3, 2⟩⟩] ∧
      m2.hlasm_ctx.get_sequence_symbol ".L"
        = some (.OPENCODE
            (opencode_manager.create_opencode_sequence_symbol (some ".L") ⟨⟨3, 0⟩, ⟨3, 2⟩⟩)) ∧
      m2.events = opencode_manager.events ∧ m2.procs = opencode_manager.procs) ∧
    (∃ m2, S6_manager.register_sequence_symbol ".L" ⟨⟨4, 0⟩, ⟨4, 2⟩⟩ = some m2 ∧
      m2.events = S6_manager.events
        ++ [.add_diagnostic (error_E045 ".L" ⟨⟨4, 0⟩, ⟨4, 2⟩⟩)] ∧
      m2.diags = S6_manager.diags ++ [error_E045 ".L" ⟨⟨4, 0⟩, ⟨4, 2⟩⟩] ∧
      m2.hlasm_ctx = S6_manager.hlasm_ctx ∧
      m2.hlasm_ctx.get_sequence_symbol ".L" = some (.OPENCODE S6_first_symbol)) :=
  ⟨(C14_register_sequence_symbol opencode_manager ".L" ⟨⟨3, 0⟩, ⟨3, 2⟩⟩ (by decide)).1
      (by decide),
   (C14_register_sequence_symbol S6_manager ".L" ⟨⟨4, 0⟩, ⟨4, 2⟩⟩ (by decide)).2.2.1
      S6_first_symbol (by decide) (by decide)⟩

theorem perform_opencode_jump_provs_ne_nil
    (rewind_input : statement_provider → source_position → statement_provider)
    (m : processing_manager) (statement_position : source_position)
    (snapshot : source_snapshot) (hp : m.provs ≠ []) :
    (m.perform_opencode_jump rewind_input statement_position snapshot).provs ≠ [] := by
  unfold processing_manager.perform_opencode_jump
  simp only
  split
  · simp
  · exact hp

theorem find_provider_isSome (m : processing_manager) (hp : m.provs ≠ []) :
    ∃ prov, m.find_provider = some prov := by
  unfold processing_manager.find_provider
  split
  · exact ⟨_, rfl⟩
  · rcases hl : m.provs.getLast? with _ | prov
    · rw [List.getLast?_eq_none_iff] at hl; exact absurd hl hp
    · exact ⟨prov, rfl⟩

/-- C15: `finish_lookahead`. On a failed result it calls `perform_opencode_jump` with
the position and snapshot stored in the result, then calls `process_next` once, on the
provider that `find_provider` returns after the jump, with an empty processor, and this
call has its effect; then it adds exactly one diagnostic, E047 for the symbol, and
returns. The jump leaves the branch counter and the processor stack as they were, and so
does the diagnostic: the result differs from the manager that `process_next` left by the
one event E047 only, so the branch counter and the processor stack are unchanged
whenever the call with the empty processor leaves them unchanged. On a successful result
it does what `jump_in_statements` does for the symbol of the result. -/
theorem C15_finish_lookahead (env : manager_collaborators) (m : processing_manager)
    (result : lookahead_processing_result) :
    (result.success = false → m.provs ≠ [] →
      ∃ (prov : statement_provider) (jumped called after : processing_manager),
        jumped = m.perform_opencode_jump env.rewind_input result.statement_position
          result.snapshot ∧
        jumped.find_provider = some prov ∧
        called = { jumped with events := jumped.events ++
          [.process_next prov.kind statement_processor.empty_processor] } ∧
        after = env.process_next called prov statement_processor.empty_processor ∧
        m.finish_lookahead env result
          = some (after.add_diagnostic
              (error_E047 result.symbol_name result.symbol_range)) ∧
        called.events = m.events ++ [.rewind_input result.statement_position,
          .process_next prov.kind statement_processor.empty_processor] ∧
        called.hlasm_ctx = m.hlasm_ctx.apply_source_snapshot result.snapshot ∧
        called.hlasm_ctx.branch_counter = m.hlasm_ctx.branch_counter ∧
        called.procs = m.procs ∧
        (∀ m2, m.finish_lookahead env result = some m2 →
          m2.events = after.events ++
            [.add_diagnostic (error_E047 result.symbol_name result.symbol_range)] ∧
          m2.diags = after.diags ++ [error_E047 result.symbol_name result.symbol_range] ∧
          m2.hlasm_ctx = after.hlasm_ctx ∧
          m2.procs = after.procs ∧
          m2.provs = after.provs ∧
          (after.events = called.events →
            m2.events = m.events ++ [.rewind_input result.statement_position,
              .process_next prov.kind statement_processor.empty_processor,
              .add_diagnostic (error_E047 result.symbol_name result.symbol_range)] ∧
            m2.diags = m.diags ++ [error_E047 result.symbol_name result.symbol_range]) ∧
          (after.procs = called.procs → m2.procs = m.procs) ∧
          (after.hlasm_ctx.branch_counter = called.hlasm_ctx.branch_counter →
            m2.hlasm_ctx.branch_counter = m.hlasm_ctx.branch_counter))) ∧
    (result.success = true →
      m.finish_lookahead env result
        = m.jump_in_statements env.rewind_input result.symbol_name result.symbol_range) := by
  constructor
  · intro hs hp
    obtain ⟨prov, hprov⟩ := find_provider_isSome _
      (perform_opencode_jump_provs_ne_nil env.rewind_input m result.statement_position
        result.snapshot hp)
    have hfin : m.finish_lookahead env result
        = some (processing_manager.add_diagnostic
            (env.process_next
              { m.perform_opencode_jump env.rewind_input result.statement_position
                  result.snapshot with
                events := ((m.perform_opencode_jump env.rewind_input
                  result.statement_position result.snapshot).events ++
                    [.process_next prov.kind statement_processor.empty_processor]) }
              prov statement_processor.empty_processor)
            (error_E047 result.symbol_name result.symbol_range)) := by
      simp only [processing_manager.finish_lookahead, hs, Bool.false_eq_true, if_false,
        hprov, processing_manager.process_next]
    refine ⟨prov, _, _, _, rfl, hprov, rfl, rfl, hfin, ?_, rfl, rfl, rfl, ?_⟩
    · simp [processing_manager.perform_opencode_jump]
    · intro m2 hm2
      rw [hfin] at hm2
      simp only [Option.some.injEq] at hm2
      subst hm2
      have hdiags : ∀ (x : processing_manager) (d : diagnostic_op),
          (x.add_diagnostic d).diags = x.diags ++ [d] := by
        intro x d
        simp [processing_manager.add_diagnostic, processing_manager.diags,
          List.filterMap_append]
      refine ⟨rfl, hdiags _ _, rfl, rfl, rfl, ?_, ?_, ?_⟩
      · intro hev
        have hevents : (processing_manager.add_diagnostic
            (env.process_next
              { m.perform_opencode_jump env.rewind_input result.statement_position
                  result.snapshot with
                events := ((m.perform_opencode_jump env.rewind_input
                  result.statement_position result.snapshot).events ++
                    [.process_next prov.kind statement_processor.empty_processor]) }
              prov statement_processor.empty_processor)
            (error_E047 result.symbol_name result.symbol_range)).events
            = m.events ++ [.rewind_input result.statement_position,
              .process_next prov.kind statement_processor.empty_processor,
              .add_diagnostic (error_E047 result.symbol_name result.symbol_range)] := by
          simp only [processing_manager.add_diagnostic, hev]
          simp [processing_manager.perform_opencode_jump]
        refine ⟨hevents, ?_⟩
        simp only [processing_manager.diags, hevents]
        simp [List.filterMap_append]
      · intro hprocs
        simp only [processing_manager.add_diagnostic, hprocs]
        rfl
      · intro hbc
        simp only [processing_manager.add_diagnostic, hbc]
        rfl
  · intro hs
    simp [processing_manager.finish_lookahead, hs]

/-- Witness of C15: the failed lookahead for `.LATER` rewinds to the stored position,
which gives the opencode provider input again, consumes one statement of the opencode
provider, which uses it up, and reports E047; the processor stack and the branch counter
are as before. -/
theorem C15_finish_lookahead_witness :
    (∃ (prov : statement_provider) (jumped called after : processing_manager),
      jumped = opencode_manager.perform_opencode_jump draining_collaborators.rewind_input
        failed_lookahead.statement_position failed_lookahead.snapshot ∧
      jumped.find_provider = some prov ∧
      called = { jumped with events := jumped.events ++
        [.process_next prov.kind statement_processor.empty_processor] } ∧
      after = draining_collaborators.process_next called prov
        statement_processor.empty_processor ∧
      opencode_manager.finish_lookahead draining_collaborators failed_lookahead
        = some (after.add_diagnostic
            (error_E047 failed_lookahead.symbol_name failed_lookahead.symbol_range))) ∧
    opencode_manager.finish_lookahead draining_collaborators failed_lookahead
      = some ⟨opencode_context, [⟨.MACRO, true⟩, ⟨.COPY, true⟩, ⟨.OPEN, true⟩],
          [.ordinary_processor],
          [.rewind_input ⟨3, 120⟩, .process_next .OPEN .empty_processor,
            .add_diagnostic (error_E047 ".LATER" ⟨⟨3, 16⟩, ⟨3, 22⟩⟩)]⟩ :=
  ⟨by
    obtain ⟨prov, jumped, called, after, h1, h2, h3, h4, h5, _⟩ :=
      (C15_finish_lookahead draining_collaborators opencode_manager failed_lookahead).1 rfl
        (by decide)
    exact ⟨prov, jumped, called, after, h1, h2, h3, h4, h5⟩,
   by decide⟩

/-- C29: for an AGO statement with a non-empty operand list without EMPTY operand whose
first operand is neither a sequence symbol nor a branch operand, `prepare_AGO` returns
`true` without a diagnostic and leaves `branch` and `targets` as they were; `process_AGO`
then returns without a jump for every value of its unassigned local `branch`: beyond the
registration of the label the statement does nothing. -/
theorem C29_AGO_other_first_operand (mngr : expression_manager) (stmt : complete_statement)
    (branch : A_t) (targets : List (id_index × range)) (st : ca_processor_state)
    (c : ca_operand) (rest : List operand)
    (hops : stmt.operands = .CA c :: rest)
    (hne : ∀ op ∈ stmt.operands, op.type ≠ operand_type.EMPTY)
    (hs : c.kind ≠ ca_kind.SEQ) (hb : c.kind ≠ ca_kind.BRANCH) :
    prepare_AGO mngr stmt branch targets st = some (true, branch, targets, st) ∧
    process_AGO mngr stmt branch st = some (register_seq_sym stmt st) ∧
    (register_seq_sym stmt st).jumps = st.jumps := by
  have hfind : stmt.operands.find? (fun op => op.type = operand_type.EMPTY) = none := by
    rw [List.find?_eq_none]
    intro op hop
    simpa using hne op hop
  have hprep : ∀ (ts : List (id_index × range)) (s : ca_processor_state),
      prepare_AGO mngr stmt branch ts s = some (true, branch, ts, s) := by
    intro ts s
    unfold prepare_AGO
    rw [hfind]
    cases c with
    | VAR e v r => simp [hops, operand.access_ca]
    | EXPR e r => simp [hops, operand.access_ca]
    | SEQ s r => exact absurd rfl hs
    | BRANCH e s r => exact absurd rfl hb
  refine ⟨hprep _ _, ?_, (register_seq_sym_frame stmt st).1⟩
  unfold process_AGO
  simp only [hprep]
  have hno : ¬ (branch > 0 ∧ branch ≤ (([] : List (id_index × range)).length : Int)) := by
    simp only [List.length_nil, Nat.cast_zero]
    intro h
    exact absurd (lt_of_lt_of_le h.1 h.2) (lt_irrefl _)
  simp [hno]

/-- Witness of C29 at `AGO 5,.A` with the local `branch` holding 1. -/
theorem C29_AGO_other_first_operand_witness :
    prepare_AGO literal_manager AGO_with_expression 1 [] ca_processor_state.init
      = some (true, 1, [], ca_processor_state.init) ∧
    process_AGO literal_manager AGO_with_expression 1 ca_processor_state.init
      = some (register_seq_sym AGO_with_expression ca_processor_state.init) ∧
    (register_seq_sym AGO_with_expression ca_processor_state.init).jumps
      = ca_processor_state.init.jumps :=
  C29_AGO_other_first_operand literal_manager AGO_with_expression 1 []
    ca_processor_state.init (.EXPR 5 ⟨⟨1, 16⟩, ⟨1, 17⟩⟩)
    [.CA (.SEQ ⟨".A", ⟨⟨1, 18⟩, ⟨1, 20⟩⟩⟩ ⟨⟨1, 18⟩, ⟨1, 20⟩⟩)] rfl (by decide) (by decide)
    (by decide)

/-- The loop of `prepare_AIF` over branch operands goes on with the operands after them
without a diagnostic, whatever their conditions are. -/
theorem AIF_operands_branches (mngr : expression_manager)
    (bs : List (expr_ptr × seq_sym × range)) (rest : List operand) :
    ∀ (params : AIF_parameters) (has_operand : Bool) (st : ca_processor_state),
      ∃ (params2 : AIF_parameters) (has_operand2 : Bool) (st2 : ca_processor_state),
        prepare_AIF_operands mngr (branch_operands bs ++ rest) params has_operand st
          = prepare_AIF_operands mngr rest params2 has_operand2 st2 ∧
        st2.diags = st.diags ∧ st2.jumps = st.jumps := by
  induction bs with
  | nil => intro params has_operand st; exact ⟨params, has_operand, st, rfl, rfl, rfl⟩
  | cons b bs ih =>
    intro params has_operand st
    by_cases hc : params.condition = true
    · obtain ⟨p2, h2, st2, h1, hd, hj⟩ := ih params true st
      refine ⟨p2, h2, st2, ?_, hd, hj⟩
      rw [← h1]
      simp [branch_operands, prepare_AIF_operands, operand.type, operand.access_ca,
        ca_operand.kind, hc]
    · obtain ⟨p2, h2, st2, h1, hd, hj⟩ := ih
        ⟨decide ((mngr.evaluate_expression_tree b.1).get_numeric_value ≠ 0),
          b.2.1.name, b.2.1.symbol_range⟩ true (st.evaluate b.1)
      refine ⟨p2, h2, st2, ?_, hd, hj⟩
      rw [← h1]
      simp [branch_operands, prepare_AIF_operands, operand.type, operand.access_ca,
        ca_operand.kind, ca_operand.access_branch, hc]

/-- C30: operand validation in AIF is not cut short by a true condition. When the
operands of an AIF statement are branch operands followed by an operand that is a
non-EMPTY operand other than a branch operand, or an EMPTY operand that is not the last
one, `prepare_AIF` returns `false` and adds exactly one diagnostic, E010 on that operand,
whatever the conditions of the branch operands before it are; `process_AIF` then returns
without a jump, the label of the statement having been handled by `register_seq_sym`
before: a sequence symbol in the label field is registered. -/
theorem C30_AIF_validation (mngr : expression_manager) (stmt : complete_statement)
    (locals : AIF_parameters) (st : ca_processor_state)
    (bs : List (expr_ptr × seq_sym × range)) (bad : operand) (post : List operand)
    (hops : stmt.operands = branch_operands bs ++ bad :: post)
    (hbad : (∃ c, bad = .CA c ∧ c.kind ≠ ca_kind.BRANCH) ∨
      (bad.type = operand_type.EMPTY ∧ post ≠ [])) :
    (∃ (params2 : AIF_parameters) (st2 : ca_processor_state),
      prepare_AIF mngr stmt locals st = some (false, params2, st2) ∧
      st2.diags = st.diags ++ [error_E010 "operand" bad.operand_range] ∧
      st2.jumps = st.jumps) ∧
    (∃ st3 : ca_processor_state,
      process_AIF mngr stmt locals st = some st3 ∧
      st3.jumps = st.jumps ∧
      st3.diags
        = (register_seq_sym stmt st).diags ++ [error_E010 "operand" bad.operand_range] ∧
      st3.registered = (register_seq_sym stmt st).registered ∧
      (∀ symbol, stmt.label_ref.value = .SEQ symbol →
        st3.registered = st.registered ++ [(symbol.name, symbol.symbol_range)])) := by
  have hprep : ∀ s : ca_processor_state,
      ∃ (params2 : AIF_parameters) (st2 : ca_processor_state),
        prepare_AIF mngr stmt locals s = some (false, params2, st2) ∧
        st2.diags = s.diags ++ [error_E010 "operand" bad.operand_range] ∧
        st2.jumps = s.jumps := by
    intro s
    obtain ⟨p2, h2, s2, h1, hd, hj⟩ := AIF_operands_branches mngr bs (bad :: post)
      { locals with condition := false } false s
    have hne : stmt.operands.isEmpty = false := by rw [hops]; simp
    have hstep : ∃ h3, prepare_AIF_operands mngr (bad :: post) p2 h2 s2
        = some (false, p2, h3,
            s2.add_diagnostic (error_E010 "operand" bad.operand_range)) := by
      rcases hbad with ⟨c, rfl, hk⟩ | ⟨he, hp⟩
      · exact ⟨true, by
          simp [prepare_AIF_operands, operand.type, operand.access_ca, hk,
            operand.operand_range]⟩
      · have hpe : post.isEmpty = false := by
          cases post with
          | nil => exact absurd rfl hp
          | cons x xs => rfl
        exact ⟨h2, by simp [prepare_AIF_operands, he, hpe]⟩
    obtain ⟨h3, hstep⟩ := hstep
    refine ⟨p2, s2.add_diagnostic (error_E010 "operand" bad.operand_range), ?_, ?_, ?_⟩
    · unfold prepare_AIF
      simp only [hne, Bool.false_eq_true, if_false]
      rw [hops, h1, hstep]
      simp
    · simp [ca_processor_state.add_diagnostic, hd]
    · simp [ca_processor_state.add_diagnostic, hj]
  refine ⟨hprep st, ?_⟩
  obtain ⟨p2, s2, h1, hd, hj⟩ := hprep (register_seq_sym stmt st)
  obtain ⟨s3, h3, hr⟩ := process_AIF_registered mngr stmt locals st
  have hs : process_AIF mngr stmt locals st = some s2 := by
    unfold process_AIF
    simp [h1]
  have he : s3 = s2 := by
    rw [hs] at h3
    exact (Option.some.inj h3).symm
  subst he
  refine ⟨s3, hs, ?_, hd, hr, ?_⟩
  · rw [hj]; exact (register_seq_sym_frame stmt st).1
  · intro symbol hl
    rw [hr]
    exact register_seq_sym_registered stmt st symbol hl

/-- Witness of C30 at `.L AIF (1).A,5`: the first condition is true, and still the
statement gets E010 on the operand `5` and does not jump. -/
theorem C30_AIF_validation_witness :
    (∃ (params2 : AIF_parameters) (st2 : ca_processor_state),
      prepare_AIF literal_manager AIF_true_then_expression AIF_locals
          ca_processor_state.init = some (false, params2, st2) ∧
      st2.diags = ca_processor_state.init.diags
        ++ [error_E010 "operand"
            (operand.CA (.EXPR 5 ⟨⟨1, 22⟩, ⟨1, 23⟩⟩)).operand_range] ∧
      st2.jumps = ca_processor_state.init.jumps) ∧
    process_AIF literal_manager AIF_true_then_expression AIF_locals ca_processor_state.init
      = some ⟨[error_E010 "operand" ⟨⟨1, 22⟩, ⟨1, 23⟩⟩], [1],
          [(".L", ⟨⟨1, 0⟩, ⟨1, 2⟩⟩)], []⟩ :=
  ⟨(C30_AIF_validation literal_manager AIF_true_then_expression AIF_locals
      ca_processor_state.init [(1, ⟨".A", ⟨⟨1, 19⟩, ⟨1, 21⟩⟩⟩, ⟨⟨1, 16⟩, ⟨1, 21⟩⟩)]
      (.CA (.EXPR 5 ⟨⟨1, 22⟩, ⟨1, 23⟩⟩)) [] rfl
      (Or.inl ⟨_, rfl, by decide⟩)).1,
   by decide⟩

/-- On operands that are all EMPTY or variable references, the loop of `prepare_GBL_LCL`
runs to its end; `has_operand` becomes true once an operand is not EMPTY, and every
diagnostic added is E051 or E052. -/
theorem GBL_LCL_loop_variables (gsn : var_sym → id_index) (ctx : hlasm_context)
    (ops : List operand)
    (hv : ∀ op ∈ ops, op.type = operand_type.EMPTY ∨ ∃ e v r, op = .CA (.VAR e v r)) :
    ∀ (ids : List id_index) (si : List Bool) (h : Bool) (st : ca_processor_state),
      ∃ (ids2 : List id_index) (si2 : List Bool) (st2 : ca_processor_state)
        (ds : List diagnostic_op),
        prepare_GBL_LCL_operands gsn ctx ops ids si h st
          = some (true, ids2, si2,
              h || ops.any (fun op => decide (op.type ≠ operand_type.EMPTY)), st2) ∧
        st2.diags = st.diags ++ ds ∧
        (∀ d ∈ ds, d.code = "E051" ∨ d.code = "E052") := by
  induction ops with
  | nil =>
    intro ids si h st
    exact ⟨ids, si, st, [], by simp [prepare_GBL_LCL_operands], by simp, by simp⟩
  | cons op ops ih =>
    intro ids si h st
    have hv2 : ∀ op ∈ ops, op.type = operand_type.EMPTY ∨ ∃ e v r, op = .CA (.VAR e v r) :=
      fun o ho => hv o (List.mem_cons_of_mem _ ho)
    have hadd : ∀ (d : diagnostic_op), d.code = "E051" ∨ d.code = "E052" →
        ∃ (ids2 : List id_index) (si2 : List Bool) (st2 : ca_processor_state)
          (ds : List diagnostic_op),
          prepare_GBL_LCL_operands gsn ctx ops ids si true (st.add_diagnostic d)
            = some (true, ids2, si2, true, st2) ∧
          st2.diags = st.diags ++ ds ∧
          (∀ d ∈ ds, d.code = "E051" ∨ d.code = "E052") := by
      intro d hd
      obtain ⟨ids2, si2, st2, ds, h1, h2, h3⟩ := ih hv2 ids si true (st.add_diagnostic d)
      refine ⟨ids2, si2, st2, d :: ds, by simpa using h1, ?_, ?_⟩
      · simp [h2, ca_processor_state.add_diagnostic]
      · intro x hx
        rcases List.mem_cons.mp hx with rfl | hx2
        · exact hd
        · exact h3 x hx2
    rcases hv op (List.mem_cons_self _ _) with he | ⟨e, v, r, rfl⟩
    · cases op with
      | CA c => simp [operand.type] at he
      | EMPTY r =>
        obtain ⟨ids2, si2, st2, ds, h1, h2, h3⟩ := ih hv2 ids si h st
        exact ⟨ids2, si2, st2, ds, by
          simpa [prepare_GBL_LCL_operands, operand.type] using h1, h2, h3⟩
    · have hany : (h || (operand.CA (.VAR e v r) :: ops).any
          (fun op => decide (op.type ≠ operand_type.EMPTY))) = true := by
        simp [operand.type]
      rw [hany]
      rcases hb : ctx.get_var_sym (gsn v) with _ | ⟨s | q⟩
      · by_cases hin : gsn v ∈ ids
        · rw [GBL_LCL_step_repeated gsn ctx e v r ops ids si h st hb hin]
          exact hadd _ (Or.inl rfl)
        · rw [GBL_LCL_step_new gsn ctx e v r ops ids si h st hb hin]
          obtain ⟨ids2, si2, st2, ds, h1, h2, h3⟩ :=
            ih hv2 (ids ++ [gsn v]) (si ++ [v.subscript.isEmpty]) true st
          exact ⟨ids2, si2, st2, ds, by simpa using h1, h2, h3⟩
      · rw [GBL_LCL_step_set_symbol gsn ctx e v r ops ids si h st s hb]
        exact hadd _ (Or.inl rfl)
      · rw [GBL_LCL_step_macro_param gsn ctx e v r ops ids si h st q hb]
        exact hadd _ (Or.inr rfl)

/-- C28: `prepare_GBL_LCL` called with `ids` and `scalar_info` empty always returns, and
at its return `ids` and `scalar_info` have the same length, `ids` holds no name twice, no
name in `ids` is bound in the context as a variable symbol, and the entries come from
variable operands of the statement, in their order: of each the name and, in
`scalar_info`, whether its subscript list is empty. When every operand that is not
EMPTY is a variable reference and there is one, it returns `true`, the loop adds nothing
but E051 and E052, and W010 for the label is added exactly when the label field is not
EMPTY. -/
theorem C28_prepare_GBL_LCL_invariants (gsn : var_sym → id_index) (ctx : hlasm_context)
    (stmt : complete_statement) (st : ca_processor_state) :
    (∃ (ok : Bool) (ids2 : List id_index) (si2 : List Bool) (st2 : ca_processor_state)
      (vars : List var_sym),
      prepare_GBL_LCL gsn ctx stmt [] [] st = some (ok, ids2, si2, st2) ∧
      ids2.length = si2.length ∧
      ids2.Nodup ∧
      (∀ id ∈ ids2, ctx.get_var_sym id = none) ∧
      vars.Sublist (stmt.operands.filterMap operand.variable) ∧
      ids2 = vars.map gsn ∧
      si2 = vars.map (fun v => v.subscript.isEmpty)) ∧
    ((∀ op ∈ stmt.operands,
        op.type = operand_type.EMPTY ∨
          op.access_ca.map ca_operand.kind = some ca_kind.VAR) →
      (∃ op ∈ stmt.operands, op.type ≠ operand_type.EMPTY) →
      ∃ (ids2 : List id_index) (si2 : List Bool) (st1 : ca_processor_state)
        (ds : List diagnostic_op),
        st1.diags = st.diags ++ ds ∧
        (∀ d ∈ ds, d.code = "E051" ∨ d.code = "E052") ∧
        (stmt.label_ref.type ≠ label_si_type.EMPTY →
          prepare_GBL_LCL gsn ctx stmt [] [] st
            = some (true, ids2, si2,
                st1.add_diagnostic (warning_W010 "Label field" stmt.label_ref.field_range))) ∧
        (stmt.label_ref.type = label_si_type.EMPTY →
          prepare_GBL_LCL gsn ctx stmt [] [] st = some (true, ids2, si2, st1))) := by
  constructor
  · obtain ⟨ok, ids2, si2, st2, vars, h1, h2, h3, h4, h5, h6⟩ :=
      prepare_GBL_LCL_result gsn ctx stmt st
    refine ⟨ok, ids2, si2, st2, vars, h1, by simp [h3, h4], h6, ?_, h2, h3, h4⟩
    intro id hid
    rw [h3] at hid
    obtain ⟨v, hv, rfl⟩ := List.mem_map.mp hid
    exact h5 v hv
  · intro hv0 hex
    have hv : ∀ op ∈ stmt.operands,
        op.type = operand_type.EMPTY ∨ ∃ e v r, op = .CA (.VAR e v r) := by
      intro op hop
      rcases hv0 op hop with he | hk
      · exact Or.inl he
      · cases op with
        | EMPTY r => exact Or.inl rfl
        | CA c =>
          cases c with
          | VAR e v r => exact Or.inr ⟨e, v, r, rfl⟩
          | EXPR e r => simp [operand.access_ca, ca_operand.kind] at hk
          | SEQ s r => simp [operand.access_ca, ca_operand.kind] at hk
          | BRANCH e s r => simp [operand.access_ca, ca_operand.kind] at hk
    obtain ⟨ids2, si2, st1, ds, h1, h2, h3⟩ :=
      GBL_LCL_loop_variables gsn ctx stmt.operands hv [] [] false st
    have hany : stmt.operands.any (fun op => decide (op.type ≠ operand_type.EMPTY))
        = true := by
      obtain ⟨op, hop, hne⟩ := hex
      exact List.any_eq_true.mpr ⟨op, hop, by simpa using hne⟩
    rw [hany] at h1
    refine ⟨ids2, si2, st1, ds, h2, h3, ?_, ?_⟩
    · intro hl
      unfold prepare_GBL_LCL
      simp [h1, hl]
    · intro hl
      unfold prepare_GBL_LCL
      simp [h1, hl]

/-- Witness of C28 at `LCLA &X,&B,&B` in the context of scenario S2, where `X` is a SET
symbol: the statement returns `true`, declares `B` once, and adds E051 twice. -/
theorem C28_prepare_GBL_LCL_invariants_witness :
    ∃ (ids2 : List id_index) (si2 : List Bool) (st1 : ca_processor_state)
      (ds : List diagnostic_op),
      st1.diags = ca_processor_state.init.diags ++ ds ∧
      (∀ d ∈ ds, d.code = "E051" ∨ d.code = "E052") ∧
      (LCLA_with_collisions.label_ref.type ≠ label_si_type.EMPTY →
        prepare_GBL_LCL (resolved_name literal_manager) S2_context LCLA_with_collisions [] []
            ca_processor_state.init
          = some (true, ids2, si2,
              st1.add_diagnostic
                (warning_W010 "Label field" LCLA_with_collisions.label_ref.field_range))) ∧
      (LCLA_with_collisions.label_ref.type = label_si_type.EMPTY →
        prepare_GBL_LCL (resolved_name literal_manager) S2_context LCLA_with_collisions [] []
            ca_processor_state.init = some (true, ids2, si2, st1)) :=
  (C28_prepare_GBL_LCL_invariants (resolved_name literal_manager) S2_context
    LCLA_with_collisions ca_processor_state.init).2
    (by decide) (by decide)

/-- The provider found by `find_provider`: the first one that is not finished, all
providers before it being finished, or the last provider when all are finished. -/
theorem find_provider_result (m : processing_manager) (prov : statement_provider)
    (h : m.find_provider = some prov) :
    (∃ before after, m.provs = before ++ prov :: after ∧
      (∀ q ∈ before, q.finished = true) ∧ prov.finished = false) ∨
    ((∀ q ∈ m.provs, q.finished = true) ∧ m.provs.getLast? = some prov) := by
  unfold processing_manager.find_provider at h
  rcases hf : m.provs.find? (fun prov => !prov.finished) with _ | found
  · rw [hf] at h
    right
    refine ⟨?_, h⟩
    intro q hq
    have := List.find?_eq_none.mp hf q hq
    simpa using this
  · rw [hf] at h
    simp only [Option.some.injEq] at h
    subst h
    left
    obtain ⟨hp, before, after, heq, hall⟩ := List.find?_eq_some.mp hf
    refine ⟨before, after, heq, ?_, by simpa using hp⟩
    intro q hq
    simpa using hall q hq

/-- C21: `find_provider` returns the first provider, in the order of `provs_`, whose
`finished()` is false, and the last provider when every provider is finished; it
returns whenever there is a provider. The list built by the constructor is the macro
provider (for ORDINARY processing only), then the copy provider, then the opencode
provider, so for every processing kind it ends with the copy provider followed by the
opencode provider; on it `find_provider` prefers the macro provider to the copy provider
and the copy provider to the opencode provider. -/
theorem C21_find_provider (m : processing_manager)
    (base_provider macro_provider copy_provider : statement_provider)
    (hlasm_ctx : context_state) (data : library_data) :
    (∀ prov, m.find_provider = some prov →
      (∃ before after, m.provs = before ++ prov :: after ∧
        (∀ q ∈ before, q.finished = true) ∧ prov.finished = false) ∨
      ((∀ q ∈ m.provs, q.finished = true) ∧ m.provs.getLast? = some prov)) ∧
    (m.provs ≠ [] → ∃ prov, m.find_provider = some prov) ∧
    (processing_manager.construct base_provider hlasm_ctx data macro_provider
        copy_provider).provs
      = (if data.proc_kind = processing_kind.ORDINARY then [macro_provider] else [])
          ++ [copy_provider, base_provider] ∧
    (processing_manager.construct base_provider hlasm_ctx data macro_provider
        copy_provider).find_provider
      = some (if data.proc_kind = processing_kind.ORDINARY ∧ macro_provider.finished = false
          then macro_provider
          else if copy_provider.finished = false then copy_provider
          else base_provider) := by
  refine ⟨fun prov h => find_provider_result m prov h, find_provider_isSome m, ?_, ?_⟩
  · unfold processing_manager.construct
    rcases hk : data.proc_kind <;> simp
  · unfold processing_manager.construct processing_manager.find_provider
    rcases hk : data.proc_kind <;>
      rcases hm : macro_provider.finished <;>
      rcases hc : copy_provider.finished <;>
      rcases hb : base_provider.finished <;>
      simp [List.find?_cons, hm, hc, hb]

/-- The loop of `start_processing` on an empty processor stack ends at once, without a
read of the flag. -/
theorem start_processing_loop_empty (env : manager_collaborators)
    (cancel : Option (Nat → Bool)) (fuel reads : Nat) (m : processing_manager)
    (he : m.procs = []) :
    processing_manager.start_processing_loop env cancel (fuel + 1) reads m
      = some (m, reads) := by
  simp [processing_manager.start_processing_loop, he]

/-- The loop of `start_processing` at a read of the flag that finds it set. -/
theorem start_processing_loop_cancelled (env : manager_collaborators)
    (flag : Nat → Bool) (fuel reads : Nat) (m : processing_manager)
    (hne : m.procs ≠ []) (hset : flag reads = true) :
    processing_manager.start_processing_loop env (some flag) (fuel + 1) reads m
      = some (m, reads + 1) := by
  have he : m.procs.isEmpty = false := by
    cases hp : m.procs with
    | nil => exact absurd hp hne
    | cons x xs => rfl
  simp [processing_manager.start_processing_loop, he, hset]

/-- The loop of `start_processing` at a read of the flag that finds it not set. -/
theorem start_processing_loop_step (env : manager_collaborators)
    (flag : Nat → Bool) (fuel reads : Nat) (m m2 : processing_manager)
    (hne : m.procs ≠ []) (hclear : flag reads = false)
    (hit : m.start_processing_iteration env = some m2) :
    processing_manager.start_processing_loop env (some flag) (fuel + 1) reads m
      = processing_manager.start_processing_loop env (some flag) fuel (reads + 1) m2 := by
  have he : m.procs.isEmpty = false := by
    cases hp : m.procs with
    | nil => exact absurd hp hne
    | cons x xs => rfl
  simp [processing_manager.start_processing_loop, he, hclear, hit]

/-- The loop of `start_processing` without a flag. -/
theorem start_processing_loop_step_null (env : manager_collaborators)
    (fuel reads : Nat) (m m2 : processing_manager)
    (hne : m.procs ≠ []) (hit : m.start_processing_iteration env = some m2) :
    processing_manager.start_processing_loop env none (fuel + 1) reads m
      = processing_manager.start_processing_loop env none fuel reads m2 := by
  have he : m.procs.isEmpty = false := by
    cases hp : m.procs with
    | nil => exact absurd hp hne
    | cons x xs => rfl
  simp [processing_manager.start_processing_loop, he, hit]

/-- What `n` full iterations are made of. -/
theorem iterations_succ (env : manager_collaborators) (n : Nat) (m mn : processing_manager)
    (h : processing_manager.iterations env (n + 1) m = some mn) :
    m.procs ≠ [] ∧ ∃ m2, m.start_processing_iteration env = some m2 ∧
      processing_manager.iterations env n m2 = some mn := by
  unfold processing_manager.iterations at h
  cases hp : m.procs with
  | nil => simp [hp] at h
  | cons x xs =>
    simp only [hp, List.isEmpty_cons, Bool.false_eq_true, if_false] at h
    refine ⟨by simp, ?_⟩
    rcases hit : m.start_processing_iteration env with _ | m2
    · simp [hit] at h
    · simp only [hit] at h
      exact ⟨m2, rfl, h⟩

/-- A flag that reads set at the start of iteration `n`, after `n` reads that found it
not set, ends the loop with the manager as it is after `n` iterations. -/
theorem start_processing_loop_cancel_at (env : manager_collaborators) (flag : Nat → Bool) :
    ∀ (n fuel reads : Nat) (m mn : processing_manager),
      processing_manager.iterations env n m = some mn → n < fuel → mn.procs ≠ [] →
      (∀ i, i < n → flag (reads + i) = false) → flag (reads + n) = true →
      processing_manager.start_processing_loop env (some flag) fuel reads m
        = some (mn, reads + n + 1) := by
  intro n
  induction n with
  | zero =>
    intro fuel reads m mn hrun hfuel hne _ hset
    simp only [processing_manager.iterations, Option.some.injEq] at hrun
    subst hrun
    obtain ⟨f, rfl⟩ : ∃ f, fuel = f + 1 := ⟨fuel - 1, by omega⟩
    exact start_processing_loop_cancelled env flag f reads m hne hset
  | succ k ih =>
    intro fuel reads m mn hrun hfuel hne hclear hset
    obtain ⟨hm, m2, hit, hrest⟩ := iterations_succ env k m mn hrun
    obtain ⟨f, rfl⟩ : ∃ f, fuel = f + 1 := ⟨fuel - 1, by omega⟩
    rw [start_processing_loop_step env flag f reads m m2 hm (by simpa using hclear 0 (by omega))
      hit]
    have := ih f (reads + 1) m2 mn hrest (by omega) hne
      (fun i hi => by
        have := hclear (i + 1) (by omega)
        rwa [show reads + 1 + i = reads + (i + 1) by omega])
      (by rwa [show reads + 1 + k = reads + (k + 1) by omega])
    rw [this]
    congr 2
    omega

/-- Without cancellation the loop of `start_processing` ends exactly when the processor
stack is empty: after `n` iterations that empty the stack it returns the manager reached
there. -/
theorem start_processing_loop_runs (env : manager_collaborators)
    (cancel : Option (Nat → Bool))
    (hnever : ∀ f, cancel = some f → ∀ i, f i = false) :
    ∀ (n fuel reads : Nat) (m mn : processing_manager),
      processing_manager.iterations env n m = some mn → n < fuel → mn.procs = [] →
      ∃ reads2, processing_manager.start_processing_loop env cancel fuel reads m
        = some (mn, reads2) := by
  intro n
  induction n with
  | zero =>
    intro fuel reads m mn hrun hfuel he
    simp only [processing_manager.iterations, Option.some.injEq] at hrun
    subst hrun
    obtain ⟨f, rfl⟩ : ∃ f, fuel = f + 1 := ⟨fuel - 1, by omega⟩
    exact ⟨reads, start_processing_loop_empty env cancel f reads m he⟩
  | succ k ih =>
    intro fuel reads m mn hrun hfuel he
    obtain ⟨hm, m2, hit, hrest⟩ := iterations_succ env k m mn hrun
    obtain ⟨f, rfl⟩ : ∃ f, fuel = f + 1 := ⟨fuel - 1, by omega⟩
    cases cancel with
    | none =>
      rw [start_processing_loop_step_null env f reads m m2 hm hit]
      exact ih f reads m2 mn hrest (by omega) he
    | some flag =>
      rw [start_processing_loop_step env flag f reads m m2 hm (hnever flag rfl reads) hit]
      exact ih f (reads + 1) m2 mn hrest (by omega) he

/-- Without cancellation the loop of `start_processing` returns only with an empty
processor stack, reached by full iterations. -/
theorem start_processing_loop_ends (env : manager_collaborators)
    (cancel : Option (Nat → Bool))
    (hnever : ∀ f, cancel = some f → ∀ i, f i = false) :
    ∀ (fuel reads : Nat) (m m1 : processing_manager) (reads2 : Nat),
      processing_manager.start_processing_loop env cancel fuel reads m = some (m1, reads2) →
      m1.procs = [] ∧ ∃ n, processing_manager.iterations env n m = some m1 := by
  intro fuel
  induction fuel with
  | zero => intro reads m m1 reads2 h; simp [processing_manager.start_processing_loop] at h
  | succ f ih =>
    intro reads m m1 reads2 h
    cases hp : m.procs with
    | nil =>
      rw [start_processing_loop_empty env cancel f reads m hp] at h
      simp only [Option.some.injEq, Prod.mk.injEq] at h
      obtain ⟨rfl, _⟩ := h
      exact ⟨hp, 0, rfl⟩
    | cons x xs =>
      have hm : m.procs ≠ [] := by simp [hp]
      rcases hit : m.start_processing_iteration env with _ | m2
      · cases cancel with
        | none => simp [processing_manager.start_processing_loop, hp, hit] at h
        | some flag =>
          simp [processing_manager.start_processing_loop, hp, hit, hnever flag rfl reads] at h
      · have hnext : ∃ reads3, processing_manager.start_processing_loop env cancel f reads3 m2
            = some (m1, reads2) := by
          cases cancel with
          | none =>
            rw [start_processing_loop_step_null env f reads m m2 hm hit] at h
            exact ⟨reads, h⟩
          | some flag =>
            rw [start_processing_loop_step env flag f reads m m2 hm (hnever flag rfl reads)
              hit] at h
            exact ⟨reads + 1, h⟩
        obtain ⟨reads3, hnext⟩ := hnext
        obtain ⟨he, n, hn⟩ := ih reads3 m2 m1 reads2 hnext
        refine ⟨he, n + 1, ?_⟩
        simp [processing_manager.iterations, hp, hit, hn]

/-- C22: cancellation in `start_processing`. The flag is read at the start of each
iteration. When it reads set at the start of an iteration, after `n` iterations, the
loop ends with the manager exactly as these `n` iterations left it: no processor is
finished and no statement is fetched in that iteration; and, the flag reading set again
in the test after the loop, `add_ord_sym_defs` is not called. With a null flag pointer or
a flag that never reads set, the loop ends only with an empty processor stack, and then
`add_ord_sym_defs` is called, once. -/
theorem C22_cancellation (env : manager_collaborators) (flag : Nat → Bool)
    (cancel : Option (Nat → Bool)) (fuel n : Nat) (m mn : processing_manager)
    (hrun : processing_manager.iterations env n m = some mn) (hfuel : n < fuel) :
    ((∀ i, i < n → flag i = false) → flag n = true → mn.procs ≠ [] →
      processing_manager.start_processing_loop env (some flag) fuel 0 m = some (mn, n + 1) ∧
      (flag (n + 1) = true →
        processing_manager.start_processing env (some flag) fuel m = some mn)) ∧
    ((∀ f, cancel = some f → ∀ i, f i = false) → mn.procs = [] →
      processing_manager.start_processing env cancel fuel m = some mn.add_ord_sym_defs ∧
      mn.add_ord_sym_defs.events = mn.events ++ [manager_event.add_ord_sym_defs]) ∧
    ((∀ f, cancel = some f → ∀ i, f i = false) →
      ∀ r, processing_manager.start_processing env cancel fuel m = some r →
        ∃ m1 k, processing_manager.iterations env k m = some m1 ∧ m1.procs = [] ∧
          r = m1.add_ord_sym_defs) := by
  refine ⟨?_, ?_, ?_⟩
  · intro hclear hset hne
    have hloop := start_processing_loop_cancel_at env flag n fuel 0 m mn hrun hfuel hne
      (fun i hi => by simpa using hclear i hi) (by simpa using hset)
    rw [Nat.zero_add] at hloop
    refine ⟨hloop, ?_⟩
    intro hagain
    simp [processing_manager.start_processing, hloop, hagain]
  · intro hnever he
    obtain ⟨reads2, hloop⟩ :=
      start_processing_loop_runs env cancel hnever n fuel 0 m mn hrun hfuel he
    refine ⟨?_, rfl⟩
    cases cancel with
    | none => simp [processing_manager.start_processing, hloop]
    | some f => simp [processing_manager.start_processing, hloop, hnever f rfl reads2]
  · intro hnever r hr
    unfold processing_manager.start_processing at hr
    rcases hloop : processing_manager.start_processing_loop env cancel fuel 0 m with
      _ | ⟨m1, reads2⟩
    · simp [hloop] at hr
    · obtain ⟨he, k, hk⟩ := start_processing_loop_ends env cancel hnever fuel 0 m m1 reads2 hloop
      refine ⟨m1, k, hk, he, ?_⟩
      cases cancel with
      | none =>
        simp only [hloop, Option.some.injEq] at hr
        exact hr.symm
      | some f =>
        simp only [hloop, hnever f rfl reads2, Bool.not_false, if_true,
          Option.some.injEq] at hr
        exact hr.symm

/-- Witness of C22 in opencode, with collaborators whose `process_next` uses up the
provider: a flag that reads set from its second read on ends the loop after the first
iteration, with the manager as `process_next` left it and without `add_ord_sym_defs`;
without a flag the second iteration finishes the processor, the loop ends on the empty
stack, and `add_ord_sym_defs` is called. -/
theorem C22_cancellation_witness :
    processing_manager.start_processing draining_collaborators
        (some (fun i => decide (1 ≤ i))) 3 opencode_manager
      = some ⟨opencode_context, [⟨.MACRO, true⟩, ⟨.COPY, true⟩, ⟨.OPEN, true⟩],
          [.ordinary_processor], [.process_next .OPEN .ordinary_processor]⟩ ∧
    processing_manager.start_processing draining_collaborators none 3 opencode_manager
      = some (processing_manager.add_ord_sym_defs
          ⟨opencode_context, [⟨.MACRO, true⟩, ⟨.COPY, true⟩, ⟨.OPEN, true⟩], [],
            [.process_next .OPEN .ordinary_processor, .end_processing .ordinary_processor,
              .collect_diags_from_child .ordinary_processor]⟩) :=
  ⟨((C22_cancellation draining_collaborators (fun i => decide (1 ≤ i)) none 3 1
      opencode_manager
      ⟨opencode_context, [⟨.MACRO, true⟩, ⟨.COPY, true⟩, ⟨.OPEN, true⟩],
        [.ordinary_processor], [.process_next .OPEN .ordinary_processor]⟩
      (by decide) (by decide)).1 (by decide) (by decide) (by decide)).2 (by decide),
   ((C22_cancellation draining_collaborators (fun _ => false) none 3 2
      opencode_manager
      ⟨opencode_context, [⟨.MACRO, true⟩, ⟨.COPY, true⟩, ⟨.OPEN, true⟩], [],
        [.process_next .OPEN .ordinary_processor, .end_processing .ordinary_processor,
          .collect_diags_from_child .ordinary_processor]⟩
      (by decide) (by decide)).2.1 (by simp) (by decide)).1⟩

/-- The method `finish_processor` pops exactly the processor that is the back of the
stack after `end_processing`, after the collection of its diagnostics. -/
theorem finish_processor_result (env : manager_collaborators)
    (m m2 : processing_manager) (h : m.finish_processor env = some m2) :
    ∃ proc back, m.procs.getLast? = some proc ∧
      (env.end_processing { m with events := m.events ++ [.end_processing proc] } proc).procs
        = m2.procs ++ [back] ∧
      m2.events
        = (env.end_processing { m with events := m.events ++ [.end_processing proc] }
            proc).events ++ [.collect_diags_from_child back] ∧
      m2.hlasm_ctx
        = (env.end_processing { m with events := m.events ++ [.end_processing proc] }
            proc).hlasm_ctx := by
  unfold processing_manager.finish_processor at h
  rcases hp : m.procs.getLast? with _ | proc
  · simp [hp] at h
  · simp only [hp] at h
    rcases hb : (env.end_processing { m with events := m.events ++ [.end_processing proc] }
        proc).procs.getLast? with _ | back
    · simp [hb] at h
    · simp only [hb, Option.some.injEq] at h
      subst h
      exact ⟨proc, back, rfl, (List.dropLast_append_getLast? back hb).symm, rfl, rfl⟩

/-- The method `register_sequence_symbol` always returns, and it leaves the processor
stack as it is. -/
theorem register_sequence_symbol_procs (m : processing_manager) (target : id_index)
    (symbol_range : range) :
    ∃ m2, m.register_sequence_symbol target symbol_range = some m2 ∧ m2.procs = m.procs := by
  unfold processing_manager.register_sequence_symbol
  by_cases hin : m.hlasm_ctx.is_in_macro = true
  · exact ⟨m, by simp [hin], rfl⟩
  · have hin2 : m.hlasm_ctx.is_in_macro = false := by simpa using hin
    simp only [hin2, Bool.false_eq_true, if_false]
    rw [opencode_lookup _ _ hin2]
    rcases hf : m.hlasm_ctx.sequence_symbols.find? (fun s => decide (s.name = some target))
      with _ | os
    · rw [hf]
      exact ⟨{ m with hlasm_ctx := (m.hlasm_ctx.add_sequence_symbol
          (m.create_opencode_sequence_symbol (some target) symbol_range)) }, rfl, rfl⟩
    · rw [hf]
      simp only [Option.map_some', sequence_symbol.access_opencode_symbol]
      by_cases hsame : (!(os.same
          (m.create_opencode_sequence_symbol (some target) symbol_range))) = true
      · exact ⟨m.add_diagnostic (error_E045 target symbol_range), by simp only [hsame, if_true],
          rfl⟩
      · exact ⟨m, by simp [hsame], rfl⟩

/-- The method `jump_in_statements` always returns; it pushes a processor through
`start_lookahead` when the symbol is unresolved in opencode, and leaves the processor
stack as it is otherwise. -/
theorem jump_in_statements_procs
    (rewind_input : statement_provider → source_position → statement_provider)
    (m : processing_manager) (target : id_index) (symbol_range : range) :
    ∃ m2, m.jump_in_statements rewind_input target symbol_range = some m2 ∧
      (m.hlasm_ctx.get_sequence_symbol target = none → m.hlasm_ctx.is_in_macro = false →
        ∃ start, m2 = m.start_lookahead start ∧ m2.procs.length = m.procs.length + 1) ∧
      (¬ (m.hlasm_ctx.get_sequence_symbol target = none ∧ m.hlasm_ctx.is_in_macro = false) →
        m2.procs = m.procs) := by
  obtain ⟨m2, h⟩ := Option.isSome_iff_exists.mp
    (jump_in_statements_isSome rewind_input m target symbol_range)
  refine ⟨m2, h, ?_⟩
  unfold processing_manager.jump_in_statements at h
  rcases hl : m.hlasm_ctx.get_sequence_symbol target with _ | ⟨ms | os⟩
  · simp only [hl] at h
    by_cases hin : m.hlasm_ctx.is_in_macro = true
    · simp only [hin, if_true, Option.some.injEq] at h
      subst h
      exact ⟨fun _ hf => by rw [hin] at hf; exact Bool.noConfusion hf,
        fun _ => rfl⟩
    · simp only [hin, Bool.false_eq_true, if_false, Option.some.injEq] at h
      subst h
      refine ⟨fun _ _ => ⟨_, rfl, by simp [processing_manager.start_lookahead]⟩,
        fun hno => ?_⟩
      exact absurd ⟨rfl, by simpa using hin⟩ hno
  · simp only [hl] at h
    refine ⟨fun hn => by simp at hn, fun _ => ?_⟩
    split_ifs at h
    · simp only [Option.some.injEq] at h
      subst h
      rfl
  · simp only [hl, Option.some.injEq] at h
    subst h
    exact ⟨fun hn => by simp at hn, fun _ => rfl⟩

/-- C23: the discipline of the processor stack. `finish_processor` pops one processor:
after `end_processing` on the back of the stack has had its effect, the diagnostics of
the back are collected and it is removed, so the size goes down by exactly 1; it returns
whenever `end_processing` leaves a processor on the stack, and when `end_processing`
leaves the stack as it is, the processor popped is the one that was ended.
`start_macro_definition`, `start_lookahead` and `start_copy_member` push one processor
each. `jump_in_statements` always returns; it pushes a processor only through
`start_lookahead`, when the symbol is unresolved in opencode, and otherwise leaves the
stack as it is. `register_sequence_symbol` always returns and leaves the stack as it is,
as do `perform_opencode_jump`, `finish_macro_definition` and `finish_copy_member`. The
failure branch of `finish_lookahead` returns on a manager with providers, and its result
has the stack that its call of `process_next` with the empty processor left: the size is
unchanged when that call leaves it unchanged. An iteration of the drive loop is either
`finish_processor` or one call of `process_next` on the provider found by
`find_provider`, with the back of the stack. -/
theorem C23_processor_stack (env : manager_collaborators) (m : processing_manager) :
    (∀ m2, m.finish_processor env = some m2 →
      ∃ proc back, m.procs.getLast? = some proc ∧
        (env.end_processing { m with events := m.events ++ [.end_processing proc] }
            proc).procs = m2.procs ++ [back] ∧
        m2.procs.length + 1
          = (env.end_processing { m with events := m.events ++ [.end_processing proc] }
              proc).procs.length ∧
        m2.events
          = (env.end_processing { m with events := m.events ++ [.end_processing proc] }
              proc).events ++ [.collect_diags_from_child back] ∧
        ((env.end_processing { m with events := m.events ++ [.end_processing proc] }
            proc).procs = m.procs →
          back = proc ∧ m2.procs.length + 1 = m.procs.length)) ∧
    (∀ proc, m.procs.getLast? = some proc →
      (env.end_processing { m with events := m.events ++ [.end_processing proc] }
          proc).procs ≠ [] →
      ∃ m2, m.finish_processor env = some m2) ∧
    (∀ proc, m.procs.getLast? = some proc →
      (env.end_processing { m with events := m.events ++ [.end_processing proc] }
          proc).procs = m.procs →
      m.finish_processor env
        = some { env.end_processing { m with events := m.events ++ [.end_processing proc] }
              proc with
            events :=
              ((env.end_processing { m with events := m.events ++ [.end_processing proc] }
                proc).events ++ [.collect_diags_from_child proc])
            procs := m.procs.dropLast } ∧
      m.procs.dropLast.length + 1 = m.procs.length) ∧
    (∀ start, (m.start_macro_definition start).procs
      = m.procs ++ [statement_processor.macrodef_processor start]) ∧
    (∀ start, (m.start_lookahead start).procs
      = m.procs ++ [statement_processor.lookahead_processor start]) ∧
    (∀ start, (m.start_copy_member start).procs
      = m.procs ++ [statement_processor.copy_processor start]) ∧
    (∀ target symbol_range,
      ∃ m2, m.jump_in_statements env.rewind_input target symbol_range = some m2 ∧
        (m.hlasm_ctx.get_sequence_symbol target = none → m.hlasm_ctx.is_in_macro = false →
          ∃ start, m2 = m.start_lookahead start ∧ m2.procs.length = m.procs.length + 1) ∧
        (¬ (m.hlasm_ctx.get_sequence_symbol target = none ∧
            m.hlasm_ctx.is_in_macro = false) →
          m2.procs = m.procs)) ∧
    (∀ target symbol_range,
      ∃ m2, m.register_sequence_symbol target symbol_range = some m2 ∧
        m2.procs = m.procs) ∧
    (∀ statement_position snapshot,
      (m.perform_opencode_jump env.rewind_input statement_position snapshot).procs
        = m.procs) ∧
    (∀ result, (m.finish_macro_definition result).procs = m.procs) ∧
    (∀ result, (m.finish_copy_member result).procs = m.procs) ∧
    (∀ result, result.success = false → m.provs ≠ [] →
      ∃ (prov : statement_provider) (after m2 : processing_manager),
        (m.perform_opencode_jump env.rewind_input result.statement_position
          result.snapshot).find_provider = some prov ∧
        after = (m.perform_opencode_jump env.rewind_input result.statement_position
          result.snapshot).process_next env prov statement_processor.empty_processor ∧
        m.finish_lookahead env result = some m2 ∧
        m2.procs = after.procs ∧
        (after.procs = m.procs → m2.procs = m.procs)) ∧
    (∀ proc prov, m.procs.getLast? = some proc → m.find_provider = some prov →
      m.start_processing_iteration env
        = if (prov.finished && env.terminal_condition m proc prov.kind)
              || env.finished m proc
          then m.finish_processor env
          else some (env.process_next
            { m with events := m.events ++ [.process_next prov.kind proc] } prov proc)) := by
  refine ⟨?_, ?_, ?_, fun _ => rfl, fun _ => rfl, fun _ => rfl,
    fun target symbol_range => jump_in_statements_procs env.rewind_input m target symbol_range,
    fun target symbol_range => register_sequence_symbol_procs m target symbol_range,
    fun _ _ => rfl, ?_, fun _ => rfl, ?_, ?_⟩
  · intro m2 h
    obtain ⟨proc, back, h1, h2, h3, _⟩ := finish_processor_result env m m2 h
    refine ⟨proc, back, h1, h2, by rw [h2]; simp, h3, ?_⟩
    intro hkeep
    rw [hkeep] at h2
    have hlast : m.procs.getLast? = some back := by rw [h2]; simp
    rw [h1] at hlast
    refine ⟨(Option.some.inj hlast).symm, ?_⟩
    rw [h2]; simp
  · intro proc hp hne
    unfold processing_manager.finish_processor
    simp only [hp]
    rcases hb : (env.end_processing { m with events := m.events ++ [.end_processing proc] }
        proc).procs.getLast? with _ | back
    · rw [List.getLast?_eq_none_iff] at hb
      exact absurd hb hne
    · exact ⟨_, rfl⟩
  · intro proc hp hkeep
    have hne : m.procs ≠ [] := by
      intro h0
      rw [h0] at hp
      simp at hp
    refine ⟨?_, ?_⟩
    · unfold processing_manager.finish_processor
      simp only [hp, hkeep]
    · rw [List.length_dropLast]
      have := List.length_pos.mpr hne
      omega
  · intro result
    unfold processing_manager.finish_macro_definition
    split_ifs <;> rfl
  · intro result hs hp
    obtain ⟨prov, hprov⟩ := find_provider_isSome _
      (perform_opencode_jump_provs_ne_nil env.rewind_input m result.statement_position
        result.snapshot hp)
    refine ⟨prov, _,
      processing_manager.add_diagnostic
        ((m.perform_opencode_jump env.rewind_input result.statement_position
          result.snapshot).process_next env prov statement_processor.empty_processor)
        (error_E047 result.symbol_name result.symbol_range),
      hprov, rfl, ?_, rfl, fun h => h⟩
    simp only [processing_manager.finish_lookahead, hs, Bool.false_eq_true, if_false, hprov]
  · intro proc prov hp hf
    unfold processing_manager.start_processing_iteration processing_manager.process_next
    simp only [hp, hf]

/-- Witness of C23 in opencode, with collaborators whose `end_processing` leaves the
stack as it is: `finish_processor` returns and pops the ordinary processor, the only
one, after `end_processing` and the collection of its diagnostics. -/
theorem C23_processor_stack_witness :
    (opencode_manager.finish_processor draining_collaborators
      = some { draining_collaborators.end_processing
            { opencode_manager with
              events := opencode_manager.events ++ [.end_processing .ordinary_processor] }
            .ordinary_processor with
          events :=
            ((draining_collaborators.end_processing
              { opencode_manager with
                events := opencode_manager.events ++ [.end_processing .ordinary_processor] }
              .ordinary_processor).events
                ++ [.collect_diags_from_child .ordinary_processor])
          procs := opencode_manager.procs.dropLast } ∧
      opencode_manager.procs.dropLast.length + 1 = opencode_manager.procs.length) ∧
    opencode_manager.finish_processor draining_collaborators
      = some ⟨opencode_context, ordinary_providers, [],
          [.end_processing .ordinary_processor,
            .collect_diags_from_child .ordinary_processor]⟩ :=
  ⟨(C23_processor_stack draining_collaborators opencode_manager).2.2.1 .ordinary_processor
      rfl rfl,
   by decide⟩

/-- C24, counterexample: inside the COPY member `MEMBER` at its statement 3, the
snapshot made by `create_snapshot()` when the lookahead begins holds the frame
`(MEMBER, 3)`, and `lookup_forward_attribute_references` ends with
`perform_opencode_jump` on a snapshot that holds the frame `(MEMBER, 4)`. -/
theorem C24_lookahead_snapshot_counterexample :
    in_copy_manager.hlasm_ctx.current_source.create_snapshot
      = ⟨⟨3, 0⟩, 120, 160, [⟨"MEMBER", 3⟩]⟩ ∧
    in_copy_manager.lookup_forward_attribute_references draining_collaborators 3 ["X"]
      = some (processing_manager.perform_opencode_jump rewind_scenario
          ⟨in_copy_manager.hlasm_ctx, [⟨.MACRO, true⟩, ⟨.COPY, true⟩, ⟨.OPEN, true⟩],
            [.ordinary_processor],
            [.push_line_end, .process_next .OPEN (.lookahead_processor (.ORD ["X"]))]⟩
          ⟨4, 160⟩ ⟨⟨3, 0⟩, 120, 160, [⟨"MEMBER", 4⟩]⟩, []) ∧
    (in_copy_manager.lookup_forward_attribute_references draining_collaborators 3 ["X"]).map
        (fun r => r.1.hlasm_ctx.current_source.create_snapshot)
      = some ⟨⟨3, 0⟩, 120, 160, [⟨"MEMBER", 4⟩]⟩ ∧
    (⟨⟨3, 0⟩, 120, 160, [⟨"MEMBER", 4⟩]⟩ : source_snapshot)
      ≠ in_copy_manager.hlasm_ctx.current_source.create_snapshot :=
  ⟨by decide, by decide, by decide, by decide⟩

/-- C24, amended: for every non-empty set of forward references,
`lookup_forward_attribute_references` ends, once its loop has ended, with
`perform_opencode_jump` to the position after the current statement, on the snapshot
that `create_snapshot()` returned when the lookahead began, in which the statement
offset of the last COPY frame is incremented by one when COPY frames are active; this is
the cursor at the return. The snapshot applied is the one created exactly when no COPY
frame is active. -/
theorem C24_lookahead_snapshot (env : manager_collaborators) (fuel : Nat)
    (m : processing_manager) (references : List id_index) (hne : references ≠ []) :
    m.lookup_forward_attribute_references env fuel references
      = (processing_manager.lookup_loop env
          (statement_processor.lookahead_processor (.ORD references)) fuel
          (m.push_line_end env)).map
          (fun m2 =>
            (m2.perform_opencode_jump env.rewind_input
              ⟨m.hlasm_ctx.current_source.source_status_pos.line + 1,
                m.hlasm_ctx.current_source.end_index⟩ m.lookahead_snapshot,
             env.collect_found_refereces
              (m2.perform_opencode_jump env.rewind_input
                ⟨m.hlasm_ctx.current_source.source_status_pos.line + 1,
                  m.hlasm_ctx.current_source.end_index⟩ m.lookahead_snapshot)
              (statement_processor.lookahead_processor (.ORD references)))) ∧
    (∀ r, m.lookup_forward_attribute_references env fuel references = some r →
      r.1.hlasm_ctx.current_source.create_snapshot = m.lookahead_snapshot) ∧
    (m.hlasm_ctx.current_source.copy_stack = [] →
      m.lookahead_snapshot = m.hlasm_ctx.current_source.create_snapshot) ∧
    (∀ frames frame, m.hlasm_ctx.current_source.copy_stack = frames ++ [frame] →
      m.lookahead_snapshot
        = { m.hlasm_ctx.current_source.create_snapshot with
            copy_frames := frames ++ [⟨frame.copy_member, frame.statement_offset + 1⟩] } ∧
      m.lookahead_snapshot ≠ m.hlasm_ctx.current_source.create_snapshot) := by
  have hemp : references.isEmpty = false := by
    cases references with
    | nil => exact absurd rfl hne
    | cons x xs => rfl
  have heq : m.lookup_forward_attribute_references env fuel references
      = (processing_manager.lookup_loop env
          (statement_processor.lookahead_processor (.ORD references)) fuel
          (m.push_line_end env)).map
          (fun m2 =>
            (m2.perform_opencode_jump env.rewind_input
              ⟨m.hlasm_ctx.current_source.source_status_pos.line + 1,
                m.hlasm_ctx.current_source.end_index⟩ m.lookahead_snapshot,
             env.collect_found_refereces
              (m2.perform_opencode_jump env.rewind_input
                ⟨m.hlasm_ctx.current_source.source_status_pos.line + 1,
                  m.hlasm_ctx.current_source.end_index⟩ m.lookahead_snapshot)
              (statement_processor.lookahead_processor (.ORD references)))) := by
    unfold processing_manager.lookup_forward_attribute_references
    simp only [hemp, Bool.false_eq_true, if_false]
    rcases processing_manager.lookup_loop env
      (statement_processor.lookahead_processor (.ORD references)) fuel
      (m.push_line_end env) with _ | m2 <;> rfl
  refine ⟨heq, ?_, ?_, ?_⟩
  · intro r hr
    rw [heq] at hr
    rcases hl : processing_manager.lookup_loop env
      (statement_processor.lookahead_processor (.ORD references)) fuel
      (m.push_line_end env) with _ | m2
    · rw [hl] at hr
      simp at hr
    · rw [hl] at hr
      simp only [Option.map_some', Option.some.injEq] at hr
      subst hr
      rfl
  · intro h0
    simp [processing_manager.lookahead_snapshot, source_context.create_snapshot, h0]
  · intro frames frame hf
    have hsnap : m.lookahead_snapshot
        = { m.hlasm_ctx.current_source.create_snapshot with
            copy_frames := frames ++ [⟨frame.copy_member, frame.statement_offset + 1⟩] } := by
      simp [processing_manager.lookahead_snapshot, source_context.create_snapshot, hf,
        source_snapshot.increment_back_offset]
    refine ⟨hsnap, ?_⟩
    rw [hsnap]
    intro hcontra
    have hframes := congrArg source_snapshot.copy_frames hcontra
    simp only [source_context.create_snapshot, hf] at hframes
    have hlast := List.append_cancel_left hframes
    simp only [List.cons.injEq, and_true] at hlast
    have hoff := congrArg copy_frame.statement_offset hlast
    simp at hoff

/-- Witness of C24 (amended) in opencode without COPY frame: the cursor at the return
is the snapshot made when the lookahead began. -/
theorem C24_lookahead_snapshot_witness :
    (∀ r, opencode_manager.lookup_forward_attribute_references draining_collaborators 3 ["X"]
        = some r →
      r.1.hlasm_ctx.current_source.create_snapshot = opencode_manager.lookahead_snapshot) ∧
    opencode_manager.lookahead_snapshot
      = opencode_manager.hlasm_ctx.current_source.create_snapshot ∧
    (opencode_manager.lookup_forward_attribute_references draining_collaborators 3
        ["X"]).isSome = true :=
  ⟨(C24_lookahead_snapshot draining_collaborators 3 opencode_manager ["X"] (by decide)).2.1,
   (C24_lookahead_snapshot draining_collaborators 3 opencode_manager ["X"]
      (by decide)).2.2.1 rfl,
   by decide⟩

/-- More iterations allowed do not change what the loop of
`lookup_forward_attribute_references` returns. -/
theorem lookup_loop_more_fuel (env : manager_collaborators) (proc : statement_processor) :
    ∀ (fuel : Nat) (m m2 : processing_manager),
      processing_manager.lookup_loop env proc fuel m = some m2 →
      processing_manager.lookup_loop env proc (fuel + 1) m = some m2 := by
  intro fuel
  induction fuel with
  | zero => intro m m2 h; simp [processing_manager.lookup_loop] at h
  | succ f ih =>
    intro m m2 h
    unfold processing_manager.lookup_loop at h ⊢
    rcases hit : m.lookup_iteration env proc with _ | ⟨_ | m3⟩
    · simp [hit] at h
    · simpa [hit] using h
    · simp only [hit] at h ⊢
      exact ih m3 m2 h

/-- C25: the attribute lookahead is driven by the copy provider and the opencode
provider only. On a manager whose providers end with the copy provider followed by the
opencode provider, an iteration of the loop of `lookup_forward_attribute_references`
takes the copy provider when it is not finished and the opencode provider otherwise,
ends the loop when the provider taken is finished or the lookahead processor is
finished, and else calls `process_next` on the provider taken, never on a provider
before these two. The providers built by the constructor end in this way for every
processing kind, so the accesses to the two last providers are inside the list. A
result of the loop does not depend on the bound on its iterations. With an empty set of
references the function returns the empty result and leaves the manager as it is. -/
theorem C25_attribute_lookahead_providers (env : manager_collaborators)
    (proc : statement_processor) (m : processing_manager)
    (front : List statement_provider) (copy_prov opencode_prov : statement_provider)
    (hp : m.provs = front ++ [copy_prov, opencode_prov]) :
    m.lookup_iteration env proc
      = (if ((if !copy_prov.finished then copy_prov else opencode_prov).finished
            || env.finished m proc)
          then some none
          else some (some (env.process_next
            { m with events := m.events ++
                [.process_next (if !copy_prov.finished then copy_prov else opencode_prov).kind
                  proc] }
            (if !copy_prov.finished then copy_prov else opencode_prov) proc))) ∧
    (∀ fuel, ((if !copy_prov.finished then copy_prov else opencode_prov).finished
          || env.finished m proc) = true →
      processing_manager.lookup_loop env proc (fuel + 1) m = some m) ∧
    (∀ fuel, ((if !copy_prov.finished then copy_prov else opencode_prov).finished
          || env.finished m proc) = false →
      processing_manager.lookup_loop env proc (fuel + 1) m
        = processing_manager.lookup_loop env proc fuel
            (m.process_next env (if !copy_prov.finished then copy_prov else opencode_prov)
              proc)) ∧
    (∀ (base_provider macro_provider copy_provider : statement_provider)
        (hlasm_ctx : context_state) (data : library_data),
      (∃ before, (processing_manager.construct base_provider hlasm_ctx data macro_provider
          copy_provider).provs = before ++ [copy_provider, base_provider]) ∧
      (processing_manager.construct base_provider hlasm_ctx data macro_provider
          copy_provider).lookup_iteration env proc ≠ none) ∧
    (∀ fuel m2, processing_manager.lookup_loop env proc fuel m = some m2 →
      processing_manager.lookup_loop env proc (fuel + 1) m = some m2) ∧
    (∀ fuel, m.lookup_forward_attribute_references env fuel [] = some (m, [])) := by
  have hrev : m.provs.reverse = opencode_prov :: copy_prov :: front.reverse := by
    rw [hp]; simp
  have hit : m.lookup_iteration env proc
      = (if ((if !copy_prov.finished then copy_prov else opencode_prov).finished
            || env.finished m proc)
          then some none
          else some (some (env.process_next
            { m with events := m.events ++
                [.process_next (if !copy_prov.finished then copy_prov else opencode_prov).kind
                  proc] }
            (if !copy_prov.finished then copy_prov else opencode_prov) proc))) := by
    unfold processing_manager.lookup_iteration
    rw [hrev]
    rfl
  have hstep : ∀ fuel, processing_manager.lookup_loop env proc (fuel + 1) m
      = (match m.lookup_iteration env proc with
        | none => none
        | some none => some m
        | some (some m2) => processing_manager.lookup_loop env proc fuel m2) :=
    fun _ => rfl
  refine ⟨hit, ?_, ?_, ?_, fun fuel m2 h => lookup_loop_more_fuel env proc fuel m m2 h,
    fun _ => rfl⟩
  · intro fuel hstop
    rw [hstep, hit]
    simp only [hstop, if_true]
  · intro fuel hgo
    rw [hstep, hit]
    simp only [hgo, Bool.false_eq_true, if_false]
    rfl
  · intro base_provider macro_provider copy_provider hlasm_ctx data
    have hshape : ∃ before, (processing_manager.construct base_provider hlasm_ctx data
        macro_provider copy_provider).provs = before ++ [copy_provider, base_provider] :=
      ⟨_, rfl⟩
    refine ⟨hshape, ?_⟩
    obtain ⟨before, hb⟩ := hshape
    unfold processing_manager.lookup_iteration
    rw [hb]
    simp only [List.reverse_append, List.reverse_cons, List.reverse_nil, List.nil_append,
      List.singleton_append, List.cons_append]
    split_ifs <;> simp

/-- Witness of C25 in opencode, where the copy provider is finished: the iteration
calls `process_next` on the opencode provider. -/
theorem C25_attribute_lookahead_providers_witness :
    opencode_manager.lookup_iteration draining_collaborators
        (.lookahead_processor (.ORD ["X"]))
      = some (some ⟨opencode_context, [⟨.MACRO, true⟩, ⟨.COPY, true⟩, ⟨.OPEN, true⟩],
          [.ordinary_processor],
          [.process_next .OPEN (.lookahead_processor (.ORD ["X"]))]⟩) :=
  (C25_attribute_lookahead_providers draining_collaborators
    (.lookahead_processor (.ORD ["X"])) opencode_manager [⟨.MACRO, true⟩] ⟨.COPY, true⟩
    ⟨.OPEN, false⟩ rfl).1.trans (by decide)

end processing
